import Mathlib

/-!
The framebuffer package: mode catalog parser and device session.

A shallow embedding of `read.go` (the `fb.modes` catalog parser) and of the
session lifecycle of `canvas.go` (Open, Close, setMode, CurrentMode, Palette,
SetPalette), followed by theorems about them.

Conventions of the embedding.

* Catalog text is a list of Unicode code points (`List Char`): the input is taken
  to be valid UTF-8, which is what `regexp` and `bytes.TrimSpace` decode it to.
  The reader delivers the whole text and then `io.EOF`.
* A Go `int` is a 64-bit two's complement integer (linux/amd64, linux/arm64) and is
  carried as `Int`; `uint8`, `uint16`, `uint32` values are carried as `Nat`, every
  conversion written with its explicit `% 2 ^ w`.
* A `panic` inside `readFBModes` is an `Except.error`; the deferred `recover`
  turns it into the returned `err`, the named result `list` keeping its value.
* The operating system (environment, files, control calls, memory mapping) is an
  arbitrary `Kernel` over an arbitrary world state; every call the code makes is
  also recorded, in order, in a log of `Event`s.
-/

namespace Framebuffer

/-! ## Errors -/

/-- Error values that reach the caller: the two `strconv.NumError` causes, a message
built by `errors.New` or `fmt.Errorf`, an error reported by a system call, a message
put in front of the text of another error, and the run-time panic of an array index
out of range. -/
inductive Error where
  | syntaxErr (text : List Char)
  | rangeErr (text : List Char)
  | msg (text : String)
  | sys (code : Nat)
  | wrap (text : String) (cause : Error)
  | indexOutOfRange
  deriving DecidableEq, Repr

/-! ## Character classes and the regular expressions of `read.go` -/

/-- The class `\d` of Go `regexp`: ASCII digits only. -/
def isDigit (c : Char) : Bool := decide (48 ≤ c.toNat) && decide (c.toNat ≤ 57)

/-- The class `\w` of Go `regexp`: `[0-9A-Za-z_]`. -/
def isWord (c : Char) : Bool :=
  isDigit c || (decide (65 ≤ c.toNat) && decide (c.toNat ≤ 90))
    || (decide (97 ≤ c.toNat) && decide (c.toNat ≤ 122)) || decide (c.toNat = 95)

/-- The class `\W`. -/
def isNonWord (c : Char) : Bool := !isWord c

/-- The class `[^"]`. -/
def isNotQuote (c : Char) : Bool := !decide (c.toNat = 34)

/-- White space as `bytes.TrimSpace` sees it (`unicode.IsSpace`). -/
def isSpace (c : Char) : Bool :=
  let n := c.toNat
  decide (n = 9) || decide (n = 10) || decide (n = 11) || decide (n = 12) || decide (n = 13)
    || decide (n = 32) || decide (n = 133) || decide (n = 160) || decide (n = 5760)
    || (decide (8192 ≤ n) && decide (n ≤ 8202)) || decide (n = 8232) || decide (n = 8233)
    || decide (n = 8239) || decide (n = 8287) || decide (n = 12288)

/-- The pieces the patterns of `read.go` are made of: a literal character, `C+` for a
character class `C`, and the capturing group `(C+)`. -/
inductive Atom where
  | lit (c : Char)
  | plus (cls : Char → Bool)
  | cap (cls : Char → Bool)

/-- A pattern: a sequence of atoms, anchored at the start of the text (`^`) or not. -/
structure Regexp where
  anchored : Bool
  atoms : List Atom

/-- The ways `C+` can match at the head of `s`, as (matched text, rest), longest first:
the order in which a greedy repetition is tried. -/
def plusSplits (cls : Char → Bool) : List Char → List (List Char × List Char)
  | [] => []
  | c :: cs =>
    if cls c then (plusSplits cls cs).map (fun sp => (c :: sp.1, sp.2)) ++ [([c], cs)]
    else []

/-- Match the atoms at the head of `s`, leftmost-first with backtracking: the rest of
the text after the match and the captured groups in order. -/
def matchHere : List Atom → List Char → Option (List Char × List (List Char))
  | [], s => some (s, [])
  | Atom.lit c :: as, s =>
    match s with
    | [] => none
    | x :: xs => if x = c then matchHere as xs else none
  | Atom.plus cls :: as, s =>
    (plusSplits cls s).findSome? (fun sp => matchHere as sp.2)
  | Atom.cap cls :: as, s =>
    (plusSplits cls s).findSome?
      (fun sp => (matchHere as sp.2).map (fun r => (r.1, sp.1 :: r.2)))

/-- The whole match and the groups, as `FindSubmatch` lays them out, for a match of
the atoms starting at the head of `s`. -/
def submatchHere (as : List Atom) (s : List Char) : Option (List (List Char)) :=
  (matchHere as s).map (fun r => s.take (s.length - r.1.length) :: r.2)

/-- Leftmost match of the atoms anywhere in `s`. -/
def searchFrom (as : List Atom) : List Char → Option (List (List Char))
  | [] => submatchHere as []
  | c :: cs =>
    match submatchHere as (c :: cs) with
    | some m => some m
    | none => searchFrom as cs

/-- The method `(*Regexp).FindSubmatch`: the empty list is the nil result; otherwise
element 0 is the text of the leftmost match and element `i` the text of group `i`. -/
def Regexp.FindSubmatch (re : Regexp) (s : List Char) : List (List Char) :=
  ((if re.anchored then submatchHere re.atoms s else searchFrom re.atoms s)).getD []

/-- The method `(*Regexp).Match`. -/
def Regexp.Match (re : Regexp) (s : List Char) : Bool :=
  (if re.anchored then submatchHere re.atoms s else searchFrom re.atoms s).isSome

/-- The atoms of a literal word. -/
def word (s : List Char) : List Atom := s.map Atom.lit

def sep : Atom := Atom.plus isNonWord

def num : Atom := Atom.cap isDigit

def endmode : List Char := ['e', 'n', 'd', 'm', 'o', 'd', 'e']

/-- The pattern `^mode\W+"([^"]+)"`. -/
def regLabel : Regexp :=
  ⟨true, word ['m', 'o', 'd', 'e'] ++ [sep, Atom.lit '"', Atom.cap isNotQuote, Atom.lit '"']⟩

/-- The pattern `geometry\W+(\d+)\W+(\d+)\W+(\d+)\W+(\d+)\W+(\d+)`. -/
def regGeometry : Regexp :=
  ⟨false, word ['g', 'e', 'o', 'm', 'e', 't', 'r', 'y']
    ++ [sep, num, sep, num, sep, num, sep, num, sep, num]⟩

/-- The pattern `timings\W+(\d+)\W+(\d+)\W+(\d+)\W+(\d+)\W+(\d+)\W+(\d+)\W+(\d+)`. -/
def regTimings : Regexp :=
  ⟨false, word ['t', 'i', 'm', 'i', 'n', 'g', 's']
    ++ [sep, num, sep, num, sep, num, sep, num, sep, num, sep, num, sep, num]⟩

/-- The pattern `hsync\W+high`. -/
def regHsync : Regexp :=
  ⟨false, word ['h', 's', 'y', 'n', 'c'] ++ [sep] ++ word ['h', 'i', 'g', 'h']⟩

/-- The pattern `vsync\W+high`. -/
def regVsync : Regexp :=
  ⟨false, word ['v', 's', 'y', 'n', 'c'] ++ [sep] ++ word ['h', 'i', 'g', 'h']⟩

/-- The pattern `csync\W+high`. -/
def regCsync : Regexp :=
  ⟨false, word ['c', 's', 'y', 'n', 'c'] ++ [sep] ++ word ['h', 'i', 'g', 'h']⟩

/-- The pattern `gsync\W+high`. -/
def regGsync : Regexp :=
  ⟨false, word ['g', 's', 'y', 'n', 'c'] ++ [sep] ++ word ['h', 'i', 'g', 'h']⟩

/-- The pattern `accel\W+true`. -/
def regAccel : Regexp :=
  ⟨false, word ['a', 'c', 'c', 'e', 'l'] ++ [sep] ++ word ['t', 'r', 'u', 'e']⟩

/-- The pattern `bcast\W+true`. -/
def regBcast : Regexp :=
  ⟨false, word ['b', 'c', 'a', 's', 't'] ++ [sep] ++ word ['t', 'r', 'u', 'e']⟩

/-- The pattern `grayscale\W+true`. -/
def regGrayscale : Regexp :=
  ⟨false, word ['g', 'r', 'a', 'y', 's', 'c', 'a', 'l', 'e'] ++ [sep]
    ++ word ['t', 'r', 'u', 'e']⟩

/-- The pattern `extsync\W+true`. -/
def regExtsync : Regexp :=
  ⟨false, word ['e', 'x', 't', 's', 'y', 'n', 'c'] ++ [sep] ++ word ['t', 'r', 'u', 'e']⟩

/-- The pattern `nonstd\W+(\d+)`. -/
def regNonstd : Regexp :=
  ⟨false, word ['n', 'o', 'n', 's', 't', 'd'] ++ [sep, num]⟩

/-- The pattern `laced\W+true`. -/
def regLaced : Regexp :=
  ⟨false, word ['l', 'a', 'c', 'e', 'd'] ++ [sep] ++ word ['t', 'r', 'u', 'e']⟩

/-- The pattern `double\W+true`. -/
def regDouble : Regexp :=
  ⟨false, word ['d', 'o', 'u', 'b', 'l', 'e'] ++ [sep] ++ word ['t', 'r', 'u', 'e']⟩

/-- The pattern `rgba\W+(\d+)/(\d+),(\d+)/(\d+),(\d+)/(\d+),(\d+)/(\d+)`. -/
def regFormat : Regexp :=
  ⟨false, word ['r', 'g', 'b', 'a']
    ++ [sep, num, Atom.lit '/', num, Atom.lit ',', num, Atom.lit '/', num, Atom.lit ',',
        num, Atom.lit '/', num, Atom.lit ',', num, Atom.lit '/', num]⟩

/-! ## `strconv.ParseInt` in base 10 and `readInt` -/

/-- The value of a run of decimal digits, `none` when a character is not a digit. -/
def digitsValue : Nat → List Char → Option Nat
  | acc, [] => some acc
  | acc, c :: cs => if isDigit c then digitsValue (acc * 10 + (c.toNat - 48)) cs else none

/-- The call `strconv.ParseInt(s, 10, bits)`: an optional sign, then one or more decimal
digits; a syntax error otherwise, a range error when the value does not fit a signed
integer of `bits` bits. -/
def parseInt (s : List Char) (bits : Nat) : Except Error Int :=
  let neg : Bool := decide (s.head? = some '-')
  let body : List Char :=
    if s.head? = some '+' ∨ s.head? = some '-' then s.tail else s
  if body.length = 0 then Except.error (Error.syntaxErr s)
  else
    match digitsValue 0 body with
    | none => Except.error (Error.syntaxErr s)
    | some n =>
      if neg then
        if n ≤ 2 ^ (bits - 1) then Except.ok (-(n : Int)) else Except.error (Error.rangeErr s)
      else
        if n < 2 ^ (bits - 1) then Except.ok (n : Int) else Except.error (Error.rangeErr s)

/-- The function `readInt`: `ParseInt` whose error is a panic. -/
def readInt (v : List Char) (bits : Nat) : Except Error Int := parseInt v bits

/-! ## Display modes -/

/-- Modelled from the spec: the type `Geometry`, whose declaration is not among the
sources; its fields are those `read.go` and `canvas.go` assign, each a Go `int`. -/
structure Geometry where
  XRes : Int := 0
  YRes : Int := 0
  XVRes : Int := 0
  YVRes : Int := 0
  Depth : Int := 0
  deriving DecidableEq, Repr

/-- Modelled from the spec: the type `Timings`, whose declaration is not among the
sources; each field a Go `int`. -/
structure Timings where
  Pixclock : Int := 0
  Left : Int := 0
  Right : Int := 0
  Upper : Int := 0
  Lower : Int := 0
  HSLen : Int := 0
  VSLen : Int := 0
  deriving DecidableEq, Repr

/-- Modelled from the spec: the type `PixelFormat`, whose declaration is not among the
sources; each field a `uint8`. -/
structure PixelFormat where
  Depth : Nat := 0
  RedBits : Nat := 0
  RedShift : Nat := 0
  GreenBits : Nat := 0
  GreenShift : Nat := 0
  BlueBits : Nat := 0
  BlueShift : Nat := 0
  AlphaBits : Nat := 0
  AlphaShift : Nat := 0
  deriving DecidableEq, Repr

/-- Modelled from the spec: the type `DisplayMode`, whose declaration is not among the
sources; `Sync`, `VMode` and `Nonstandard` are Go `int`s. The default value is the
zero value `new(DisplayMode)` points to. -/
structure DisplayMode where
  Name : List Char := []
  Geometry : Geometry := {}
  Timings : Timings := {}
  Format : PixelFormat := {}
  Sync : Int := 0
  VMode : Int := 0
  Accelerated : Bool := false
  Grayscale : Bool := false
  Nonstandard : Int := 0
  deriving DecidableEq, Repr

/-- Modelled from the spec: the sync and video-mode flag constants, whose declarations
are not among the sources; they are natural numbers used as bit masks. -/
structure ModeFlags where
  SyncHorHighAct : Nat
  SyncVertHighAct : Nat
  SyncCompHighAct : Nat
  SyncOnGreen : Nat
  SyncBroadcast : Nat
  SyncExt : Nat
  VModeInterlaced : Nat
  VModeDouble : Nat

/-- The flag values of the Linux header `linux/fb.h`. -/
def linuxFlags : ModeFlags :=
  { SyncHorHighAct := 1, SyncVertHighAct := 2, SyncExt := 4, SyncCompHighAct := 8,
    SyncBroadcast := 16, SyncOnGreen := 32, VModeInterlaced := 1, VModeDouble := 2 }

/-- The statement `x |= flag` on a Go `int` and a non-negative flag. -/
def orFlag (x : Int) (flag : Nat) : Int := Int.lor x (flag : Int)

/-- The conversion `uint8(n)` of a Go `int`. -/
def toUint8 (n : Int) : Nat := (n % 256).toNat

/-! ## `readFBModes` -/

/-- The function `bytes.TrimSpace`. -/
def trimSpace (s : List Char) : List Char :=
  ((s.dropWhile isSpace).reverse.dropWhile isSpace).reverse

/-- The function `bytes.Contains`. -/
def contains (pat : List Char) : List Char → Bool
  | [] => pat.isPrefixOf []
  | c :: cs => pat.isPrefixOf (c :: cs) || contains pat cs

/-- The successive results of `rdr.ReadBytes('\n')` that come without an error: the
newline-terminated lines of the text, each with its delimiter. What follows the last
newline is returned together with `io.EOF` and is not in this list. -/
def readLines : List Char → List (List Char)
  | [] => []
  | c :: cs =>
    if c = '\n' then [c] :: readLines cs
    else
      match readLines cs with
      | [] => []
      | l :: ls => (c :: l) :: ls

/-- Group `i` of a `FindSubmatch` result (`matches[i]`). -/
def group (ms : List (List Char)) (i : Nat) : List Char := ms.getD i []

/-- The `geometry` assignments of the loop body. -/
def setGeometry (dm : DisplayMode) (ms : List (List Char)) : Except Error DisplayMode := do
  let xres ← readInt (group ms 1) 32
  let yres ← readInt (group ms 2) 32
  let xvres ← readInt (group ms 3) 32
  let yvres ← readInt (group ms 4) 32
  let depth ← readInt (group ms 5) 32
  pure { dm with Geometry :=
    { XRes := xres, YRes := yres, XVRes := xvres, YVRes := yvres, Depth := depth } }

/-- The `timings` assignments of the loop body. -/
def setTimings (dm : DisplayMode) (ms : List (List Char)) : Except Error DisplayMode := do
  let pixclock ← readInt (group ms 1) 32
  let left ← readInt (group ms 2) 32
  let right ← readInt (group ms 3) 32
  let upper ← readInt (group ms 4) 32
  let lower ← readInt (group ms 5) 32
  let hslen ← readInt (group ms 6) 32
  let vslen ← readInt (group ms 7) 32
  pure { dm with Timings :=
    { Pixclock := pixclock, Left := left, Right := right, Upper := upper, Lower := lower,
      HSLen := hslen, VSLen := vslen } }

/-- The `rgba` assignments of the loop body: every one of the eight reads
`matches[1]`. The field `Depth` is not assigned. -/
def setFormat (dm : DisplayMode) (ms : List (List Char)) : Except Error DisplayMode := do
  let redBits ← readInt (group ms 1) 8
  let redShift ← readInt (group ms 1) 8
  let greenBits ← readInt (group ms 1) 8
  let greenShift ← readInt (group ms 1) 8
  let blueBits ← readInt (group ms 1) 8
  let blueShift ← readInt (group ms 1) 8
  let alphaBits ← readInt (group ms 1) 8
  let alphaShift ← readInt (group ms 1) 8
  pure { dm with Format :=
    { dm.Format with
      RedBits := toUint8 redBits, RedShift := toUint8 redShift,
      GreenBits := toUint8 greenBits, GreenShift := toUint8 greenShift,
      BlueBits := toUint8 blueBits, BlueShift := toUint8 blueShift,
      AlphaBits := toUint8 alphaBits, AlphaShift := toUint8 alphaShift } }

/-- The tail of the loop body, which no `continue` ends: geometry, then timings, then
pixel format, each applied when its pattern matches the line. -/
def parseTail (dm : DisplayMode) (line : List Char) : Except Error DisplayMode := do
  let ms := regGeometry.FindSubmatch line
  let dm ← if 1 < ms.length then setGeometry dm ms else pure dm
  let ms := regTimings.FindSubmatch line
  let dm ← if 1 < ms.length then setTimings dm ms else pure dm
  let ms := regFormat.FindSubmatch line
  if 1 < ms.length then setFormat dm ms else pure dm

/-- One pass through the body of the `for` loop of `readFBModes`, after `ReadBytes` has
returned the line `raw` without an error: the list and the mode under construction
afterwards, or the value of the panic. -/
def parseLine (k : ModeFlags) (list : List DisplayMode) (dm : DisplayMode)
    (raw : List Char) : Except Error (List DisplayMode × DisplayMode) :=
  let line := trimSpace raw
  if line.length = 0 then pure (list, dm)
  else if contains endmode line then pure (list ++ [dm], {})
  else if 1 < (regLabel.FindSubmatch line).length then
    pure (list, { dm with Name := group (regLabel.FindSubmatch line) 1 })
  else if 1 < (regNonstd.FindSubmatch line).length then do
    let n ← readInt (group (regNonstd.FindSubmatch line) 1) 32
    pure (list, { dm with Nonstandard := n })
  else if regHsync.Match line then
    pure (list, { dm with Sync := orFlag dm.Sync k.SyncHorHighAct })
  else if regVsync.Match line then
    pure (list, { dm with Sync := orFlag dm.Sync k.SyncVertHighAct })
  else if regCsync.Match line then
    pure (list, { dm with Sync := orFlag dm.Sync k.SyncCompHighAct })
  else if regGsync.Match line then
    pure (list, { dm with Sync := orFlag dm.Sync k.SyncOnGreen })
  else if regBcast.Match line then
    pure (list, { dm with Sync := orFlag dm.Sync k.SyncBroadcast })
  else if regExtsync.Match line then
    pure (list, { dm with Sync := orFlag dm.Sync k.SyncExt })
  else if regAccel.Match line then pure (list, { dm with Accelerated := true })
  else if regGrayscale.Match line then pure (list, { dm with Grayscale := true })
  else if regLaced.Match line then
    pure (list, { dm with VMode := orFlag dm.VMode k.VModeInterlaced })
  else if regDouble.Match line then
    pure (list, { dm with VMode := orFlag dm.VMode k.VModeDouble })
  else do
    let dm ← parseTail dm line
    pure (list, dm)

/-- The `for` loop of `readFBModes` over the lines `ReadBytes` delivers: the list, the
mode under construction and the error when the loop is left. It is left with a nil
error when the lines run out (`io.EOF`), and with the recovered panic, the list as it
stands, when a `readInt` fails. -/
def parseLoop (k : ModeFlags) :
    List (List Char) → List DisplayMode → DisplayMode →
      List DisplayMode × DisplayMode × Option Error
  | [], list, dm => (list, dm, none)
  | raw :: rest, list, dm =>
    match parseLine k list dm raw with
    | Except.error e => (list, dm, some e)
    | Except.ok st => parseLoop k rest st.1 st.2

/-- The function `readFBModes` on a reader that delivers `text` and then `io.EOF`: the
returned `list` and `err` (`none` is nil). -/
def readFBModes (k : ModeFlags) (text : List Char) : List DisplayMode × Option Error :=
  let r := parseLoop k (readLines text) [] {}
  (r.1, r.2.2)

/-- The mode under construction (`dm`) when `readFBModes` leaves its loop. -/
def pendingMode (k : ModeFlags) (text : List Char) : DisplayMode :=
  (parseLoop k (readLines text) [] {}).2.1

/-- The value of a decimal numeral. -/
def natOfDigits (f : List Char) : Nat := f.foldl (fun a c => a * 10 + (c.toNat - 48)) 0

/-- The text `f` is a decimal numeral: one or more ASCII digits. -/
def IsNumeral (f : List Char) : Prop := f ≠ [] ∧ ∀ c ∈ f, isDigit c = true

instance (f : List Char) : Decidable (IsNumeral f) := by
  unfold IsNumeral; infer_instance

/-- The line `geometry f1 f2 f3 f4 f5`, fields separated by one space. -/
def geometryLine (f1 f2 f3 f4 f5 : List Char) : List Char :=
  ['g', 'e', 'o', 'm', 'e', 't', 'r', 'y', ' '] ++ f1 ++ ' ' :: f2 ++ ' ' :: f3
    ++ ' ' :: f4 ++ ' ' :: f5


/-- The directive part of the loop body (from the label test on), as a function of the
mode under construction alone; `parseLine_eq` shows that `parseLine` is this function
behind the blank-line and end-marker tests. -/
def lineDirective (k : ModeFlags) (dm : DisplayMode) (line : List Char) :
    Except Error DisplayMode :=
  if 1 < (regLabel.FindSubmatch line).length then
    pure { dm with Name := group (regLabel.FindSubmatch line) 1 }
  else if 1 < (regNonstd.FindSubmatch line).length then do
    let n ← readInt (group (regNonstd.FindSubmatch line) 1) 32
    pure { dm with Nonstandard := n }
  else if regHsync.Match line then pure { dm with Sync := orFlag dm.Sync k.SyncHorHighAct }
  else if regVsync.Match line then pure { dm with Sync := orFlag dm.Sync k.SyncVertHighAct }
  else if regCsync.Match line then pure { dm with Sync := orFlag dm.Sync k.SyncCompHighAct }
  else if regGsync.Match line then pure { dm with Sync := orFlag dm.Sync k.SyncOnGreen }
  else if regBcast.Match line then pure { dm with Sync := orFlag dm.Sync k.SyncBroadcast }
  else if regExtsync.Match line then pure { dm with Sync := orFlag dm.Sync k.SyncExt }
  else if regAccel.Match line then pure { dm with Accelerated := true }
  else if regGrayscale.Match line then pure { dm with Grayscale := true }
  else if regLaced.Match line then pure { dm with VMode := orFlag dm.VMode k.VModeInterlaced }
  else if regDouble.Match line then pure { dm with VMode := orFlag dm.VMode k.VModeDouble }
  else parseTail dm line

/-- The text is empty or ends with a newline: there is no unterminated last line. -/
def EndsWithNewline (t : List Char) : Prop := t = [] ∨ t.getLast? = some '\n'

instance (t : List Char) : Decidable (EndsWithNewline t) := by
  unfold EndsWithNewline; infer_instance

/-! ## The device session of `canvas.go`: data -/

/-- Modelled from the spec: the type `fbFixScreenInfo` (fixed device info), whose
declaration is not among the sources; the fields are the ones `canvas.go` reads:
`smemlen` is a `uint32`, `ywrapstep` a `uint16`. -/
structure fbFixScreenInfo where
  smemlen : Nat := 0
  typ : Nat := 0
  visual : Nat := 0
  ywrapstep : Nat := 0
  accel : Nat := 0
  deriving DecidableEq, Repr

/-- Modelled from the spec: a channel bit field of `fbVarScreenInfo`. -/
structure fbBitfield where
  offset : Nat := 0
  length : Nat := 0
  msb_right : Nat := 0
  deriving DecidableEq, Repr

/-- Modelled from the spec: the type `fbVarScreenInfo` (variable device info), whose
declaration is not among the sources; every named field is a `uint32`, and `rest`
stands for the fields `canvas.go` never names. The code names two depth fields:
`bitsPerPixel` (lines 148, 203, 268, 399 and 448) and `bits_per_pixel` (line 460, read
by `CurrentMode` for the depth of the pixel format, and written nowhere). -/
structure fbVarScreenInfo where
  xres : Nat := 0
  yres : Nat := 0
  xresVirtual : Nat := 0
  yresVirtual : Nat := 0
  xoffset : Nat := 0
  yoffset : Nat := 0
  bitsPerPixel : Nat := 0
  bits_per_pixel : Nat := 0
  red : fbBitfield := {}
  green : fbBitfield := {}
  blue : fbBitfield := {}
  transparent : fbBitfield := {}
  pixclock : Nat := 0
  leftMargin : Nat := 0
  rightMargin : Nat := 0
  upperMargin : Nat := 0
  lowerMargin : Nat := 0
  hsyncLen : Nat := 0
  vsyncLen : Nat := 0
  sync : Nat := 0
  vmode : Nat := 0
  rest : List Nat := []
  deriving DecidableEq, Repr

/-- Modelled from the spec: the type `vtStat`; `vActive` is the active terminal. -/
structure vtStat where
  vActive : Nat := 0
  vSignal : Nat := 0
  vState : Nat := 0
  deriving DecidableEq, Repr

/-- Modelled from the spec: the type `vtMode`, the VT mode descriptor. -/
structure vtMode where
  mode : Nat := 0
  waitv : Nat := 0
  relsig : Int := 0
  acqsig : Int := 0
  frsig : Int := 0
  deriving DecidableEq, Repr

/-- Modelled from the spec: the type `fb_con2fbmap`. -/
structure fb_con2fbmap where
  console : Nat := 0
  framebuffer : Nat := 0
  deriving DecidableEq, Repr

/-- Modelled from the spec: the type `fb_cmap`. The four pointers are carried as the
tables they point to, 256 entries of `uint16` each. -/
structure fb_cmap where
  start : Nat := 0
  len : Nat := 0
  red : List Nat := []
  green : List Nat := []
  blue : List Nat := []
  transp : List Nat := []
  deriving DecidableEq, Repr

/-- An open file (`*os.File` that is not nil), known by its descriptor. -/
structure File where
  fd : Nat
  deriving DecidableEq, Repr

/-- The method `(*os.File).Fd`, which answers `^uintptr(0)` on a nil file. -/
def File.Fd : Option File → Nat
  | some f => f.fd
  | none => 2 ^ 64 - 1

/-- A mapping returned by `syscall.Mmap`: a byte slice that is not nil. -/
structure Mem where
  addr : Nat
  len : Nat
  deriving DecidableEq, Repr

/-- The control calls `canvas.go` issues. -/
inductive Req where
  | VT_GETSTATE
  | IOGET_CON2FBMAP
  | IOGET_FSCREENINFO
  | IOGET_VSCREENINFO
  | IOPUT_VSCREENINFO
  | IOGET_CMAP
  | IOPUT_CMAP
  | IOPAN_DISPLAY
  | KDGETMODE
  | KDSETMODE
  | VT_GETMODE
  | VT_SETMODE
  | VT_ACTIVATE
  | VT_WAITACTIVE
  | VT_RELDISP
  deriving DecidableEq, Repr

/-- What the third argument of a control call is: the structure a pointer argument
points to, or the integer passed by value. -/
def Req.Arg : Req → Type
  | Req.VT_GETSTATE => vtStat
  | Req.IOGET_CON2FBMAP => fb_con2fbmap
  | Req.IOGET_FSCREENINFO => fbFixScreenInfo
  | Req.IOGET_VSCREENINFO => fbVarScreenInfo
  | Req.IOPUT_VSCREENINFO => fbVarScreenInfo
  | Req.IOGET_CMAP => fb_cmap
  | Req.IOPUT_CMAP => fb_cmap
  | Req.IOPAN_DISPLAY => fbVarScreenInfo
  | Req.KDGETMODE => Int
  | Req.KDSETMODE => Int
  | Req.VT_GETMODE => vtMode
  | Req.VT_SETMODE => vtMode
  | Req.VT_ACTIVATE => Int
  | Req.VT_WAITACTIVE => Int
  | Req.VT_RELDISP => Int

/-- Modelled from the spec: the operating system, which the sources reach through
`os`, `syscall` and the function `ioctl` (declared in a file that is not among the
sources). Every call takes the state of the world and answers with its result and the
next state; a control call also answers with the contents of its argument afterwards,
since the kernel may write through the pointer. -/
structure Kernel (W : Type) where
  getenv : String → W → String
  openFile : String → Nat → W → Except Error File × W
  closeFile : File → W → W
  ioctl : (r : Req) → Nat → r.Arg → W → Option Error × r.Arg × W
  mmap : Nat → Nat → W → Except Error Mem × W
  munmap : Mem → W → W
  clear : Mem → W → W

/-- A call made to the operating system, as it appears in the log. -/
inductive Event where
  | openFile (path : String) (flag : Nat) (res : Except Error File)
  | closeFile (f : File)
  | ioctl (fd : Nat) (r : Req) (arg : r.Arg)
  | mmap (fd : Nat) (len : Nat) (res : Except Error Mem)
  | munmap (m : Mem)
  | clear (m : Mem)

/-- Modelled from the spec: the constants and path templates `canvas.go` uses, whose
declarations are not among the sources (`fb0` and `fbnr` are set once by `init`). -/
structure Consts where
  fb0 : String
  fbnr : Nat → String
  VISUAL_DIRECTCOLOR : Nat
  TYPE_PACKED_PIXELS : Nat
  ACCEL_NONE : Nat
  KD_GRAPHICS : Int
  FB_ACTIVE : Int

/-- The constants of the Linux headers, with the default path templates. -/
def linuxConsts : Consts :=
  { fb0 := "/dev/fb0", fbnr := fun n => "/dev/fb" ++ toString n, VISUAL_DIRECTCOLOR := 4,
    TYPE_PACKED_PIXELS := 0, ACCEL_NONE := 0, KD_GRAPHICS := 1, FB_ACTIVE := 0 }

/-- The flag `os.O_WRONLY`. -/
def O_WRONLY : Nat := 1

/-- The flag `os.O_RDWR`. -/
def O_RDWR : Nat := 2

/-- The type `Canvas`. The default value is the zero value `new(Canvas)` points to; a
`[256]uint16` table is a list of 256 entries, and of the slice `zero` only the length
is kept. -/
structure Canvas where
  origFi : fbFixScreenInfo := {}
  origVi : fbVarScreenInfo := {}
  origR : List Nat := List.replicate 256 0
  origG : List Nat := List.replicate 256 0
  origB : List Nat := List.replicate 256 0
  origA : List Nat := List.replicate 256 0
  origVT : vtMode := {}
  origVTNo : Int := 0
  origKd : Int := 0
  fd : Option File := none
  tty : Option File := none
  mem : Option Mem := none
  dev : String := ""
  switchState : Int := 0
  zero : Option Nat := none
  tmpR : List Nat := List.replicate 256 0
  tmpG : List Nat := List.replicate 256 0
  tmpB : List Nat := List.replicate 256 0
  tmpA : List Nat := List.replicate 256 0
  deriving DecidableEq, Repr

/-- The state a method of `Canvas` runs in: the canvas, the world and the log of the
calls made so far. -/
structure St (W : Type) where
  c : Canvas
  world : W
  log : List Event

/-- The conversion `uint32(n)` of a Go `int`. -/
def toUint32 (n : Int) : Nat := (n % 2 ^ 32).toNat

/-- The conversion `uint16(n)` of an unsigned value. -/
def toUint16 (n : Nat) : Nat := n % 2 ^ 16

/-- The conversion `uint8(n)` of an unsigned value. -/
def natToUint8 (n : Nat) : Nat := n % 2 ^ 8

/-! ## The device session of `canvas.go`: operations -/

/-- A call of the function `ioctl`: the error, the contents of the argument after the
call and the state after it, the call added to the log. -/
def ioctl {W : Type} (K : Kernel W) (fd : Nat) (r : Req) (arg : r.Arg) (st : St W) :
    Option Error × r.Arg × St W :=
  let res := K.ioctl r fd arg st.world
  (res.1, res.2.1, { st with world := res.2.2, log := st.log ++ [Event.ioctl fd r arg] })

/-- The `fb_cmap` that `Open`, `Close`, `Palette` and `SetPalette` build around four
tables: start 0, length 256. -/
def cmapOf (r g b a : List Nat) : fb_cmap :=
  { start := 0, len := 256, red := r, green := g, blue := b, transp := a }

/-- The palette condition of `Open` and `Close`. -/
def hasPalette (k : Consts) (c : Canvas) : Bool :=
  decide (c.origVi.bitsPerPixel = 8) || decide (c.origFi.visual = k.VISUAL_DIRECTCOLOR)

/-- The first block of `Close`: unmap the memory if there is any. -/
def closeMem {W : Type} (K : Kernel W) (st : St W) : St W :=
  match st.c.mem with
  | some m =>
    { c := { st.c with mem := none }, world := K.munmap m st.world,
      log := st.log ++ [Event.munmap m] }
  | none => st

/-- The second block of `Close`: with a device handle, write the original variable
info back, then (unless that failed) the original palette when there is one, then
close the handle. Answers with the value of `err` after the block. -/
def closeFd {W : Type} (K : Kernel W) (k : Consts) (st : St W) : Option Error × St W :=
  match st.c.fd with
  | some f =>
    let r1 := ioctl K f.fd Req.IOPUT_VSCREENINFO st.c.origVi st
    let st1 : St W := { r1.2.2 with c := { r1.2.2.c with origVi := r1.2.1 } }
    let r2 : Option Error × St W :=
      if r1.1.isSome then (r1.1, st1)
      else if hasPalette k st1.c then
        let r := ioctl K f.fd Req.IOPUT_CMAP
          (cmapOf st1.c.origR st1.c.origG st1.c.origB st1.c.origA) st1
        (r.1, { r.2.2 with c := { r.2.2.c with
          origR := r.2.1.red, origG := r.2.1.green, origB := r.2.1.blue,
          origA := r.2.1.transp } })
      else (r1.1, st1)
    (r2.1, { c := { r2.2.c with fd := none }, world := K.closeFile f r2.2.world,
             log := r2.2.log ++ [Event.closeFile f] })
  | none => (none, st)

/-- The third block of `Close`: with a terminal handle, restore the keyboard-display
mode, then the VT mode, then (when `origVTNo` is positive) activate the original VT
and wait for it, stopping at the first failure; the handle is then forgotten. `err`
is the value of `err` before the block. -/
def closeTty {W : Type} (K : Kernel W) (err : Option Error) (st : St W) :
    Option Error × St W :=
  match st.c.tty with
  | some t =>
    let r1 := ioctl K t.fd Req.KDSETMODE st.c.origKd st
    let r : Option Error × St W :=
      if r1.1.isSome then (r1.1, r1.2.2)
      else
        let r2 := ioctl K t.fd Req.VT_SETMODE r1.2.2.c.origVT r1.2.2
        let st2 : St W := { r2.2.2 with c := { r2.2.2.c with origVT := r2.2.1 } }
        if r2.1.isSome then (r2.1, st2)
        else if 0 < st2.c.origVTNo then
          let r3 := ioctl K t.fd Req.VT_ACTIVATE st2.c.origVTNo st2
          if r3.1.isSome then (r3.1, r3.2.2)
          else
            let r4 := ioctl K t.fd Req.VT_WAITACTIVE r3.2.2.c.origVTNo r3.2.2
            (r4.1, r4.2.2)
        else (r2.1, st2)
    (r.1, { r.2 with c := { r.2.c with tty := none } })
  | none => (err, st)

/-- The method `Canvas.Close`: the returned error and the state afterwards. -/
def Close {W : Type} (K : Kernel W) (k : Consts) (st : St W) : Option Error × St W :=
  let r := closeFd K k (closeMem K st)
  closeTty K r.1 r.2

/-- A statement sequence of `Open` that ends either with `err` set and a `return`
(`some e`) or by falling through to the next one (`none`). -/
abbrev Step (W : Type) := St W → Option Error × St W

/-- Run the steps in order until one returns with an error. -/
def runSteps {W : Type} : List (Step W) → Step W
  | [], st => (none, st)
  | f :: fs, st =>
    match f st with
    | (some e, st1) => (some e, st1)
    | (none, st1) => runSteps fs st1

/-- A call of `os.OpenFile`, added to the log. -/
def openFile {W : Type} (K : Kernel W) (path : String) (flag : Nat) (st : St W) :
    Except Error File × St W :=
  let res := K.openFile path flag st.world
  (res.1, { st with world := res.2, log := st.log ++ [Event.openFile path flag res.1] })

/-- A call of `(*os.File).Close`, added to the log. -/
def closeFile {W : Type} (K : Kernel W) (f : File) (st : St W) : St W :=
  { st with world := K.closeFile f st.world, log := st.log ++ [Event.closeFile f] }

/-- The step of `Open` that determines the device (lines 93 to 125): the environment
variable, or else the frame buffer mapped to the active VT of the given terminal. -/
def resolveDevice {W : Type} (K : Kernel W) (k : Consts) : Step W := fun st =>
  let st : St W := { st with c := { st.c with dev := K.getenv "FRAMEBUFFER" st.world } }
  if st.c.dev = "" then
    match st.c.tty with
    | none => (some (Error.msg "No tty provided. Must set FRAMEBUFFER"), st)
    | some t =>
      let r1 := ioctl K t.fd Req.VT_GETSTATE {} st
      if r1.1.isSome then (r1.1, r1.2.2)
      else
        let r2 := openFile K k.fb0 O_WRONLY r1.2.2
        match r2.1 with
        | Except.error e => (some (Error.wrap ("open \"" ++ k.fb0 ++ "\": ") e), r2.2)
        | Except.ok fd =>
          let r3 := ioctl K fd.fd Req.IOGET_CON2FBMAP
            { console := r1.2.1.vActive % 2 ^ 32, framebuffer := 0 } r2.2
          let st3 := closeFile K fd r3.2.2
          if r3.1.isSome then (r3.1, st3)
          else (none, { st3 with c := { st3.c with dev := k.fbnr r3.2.1.framebuffer } })
  else (none, st)

/-- The step of `Open` that opens the frame buffer (lines 128 to 131). On failure
`os.OpenFile` answers a nil file, which is what `c.fd` then holds. -/
def openDevice {W : Type} (K : Kernel W) : Step W := fun st =>
  let r := openFile K st.c.dev O_RDWR st
  match r.1 with
  | Except.error e => (some e, { r.2 with c := { r.2.c with fd := none } })
  | Except.ok f => (none, { r.2 with c := { r.2.c with fd := some f } })

/-- The step of `Open` that fetches the fixed info (lines 136 to 139, and again lines
184 to 187). -/
def getFixInfo {W : Type} (K : Kernel W) : Step W := fun st =>
  let r := ioctl K (File.Fd st.c.fd) Req.IOGET_FSCREENINFO st.c.origFi st
  (r.1, { r.2.2 with c := { r.2.2.c with origFi := r.2.1 } })

/-- The step of `Open` that fetches the original variable info (lines 142 to 145). -/
def getVarInfo {W : Type} (K : Kernel W) : Step W := fun st =>
  let r := ioctl K (File.Fd st.c.fd) Req.IOGET_VSCREENINFO st.c.origVi st
  (r.1, { r.2.2 with c := { r.2.2.c with origVi := r.2.1 } })

/-- The step of `Open` that fetches the original palette when there is one (lines 148
to 161). -/
def getPalette {W : Type} (K : Kernel W) (k : Consts) : Step W := fun st =>
  if hasPalette k st.c then
    let r := ioctl K (File.Fd st.c.fd) Req.IOGET_CMAP
      (cmapOf st.c.origR st.c.origG st.c.origB st.c.origA) st
    (r.1, { r.2.2 with c := { r.2.2.c with
      origR := r.2.1.red, origG := r.2.1.green, origB := r.2.1.blue, origA := r.2.1.transp } })
  else (none, st)

/-- The step of `Open` that snapshots the terminal (lines 163 to 175). -/
def getTerminal {W : Type} (K : Kernel W) : Step W := fun st =>
  match st.c.tty with
  | some t =>
    let r1 := ioctl K t.fd Req.KDGETMODE st.c.origKd st
    let st1 : St W := { r1.2.2 with c := { r1.2.2.c with origKd := r1.2.1 } }
    if r1.1.isSome then (r1.1, st1)
    else
      let r2 := ioctl K t.fd Req.VT_GETMODE st1.c.origVT st1
      (r2.1, { r2.2.2 with c := { r2.2.2.c with origVT := r2.2.1 } })
  | none => (none, st)

/-- The variable info `setMode` writes: the one it has read, with the fields of the
mode put in (lines 395 to 428). -/
def applyMode (v : fbVarScreenInfo) (dm : DisplayMode) : fbVarScreenInfo :=
  { v with
    xres := toUint32 dm.Geometry.XRes
    yres := toUint32 dm.Geometry.YRes
    xresVirtual := toUint32 dm.Geometry.XVRes
    yresVirtual := toUint32 dm.Geometry.YVRes
    bitsPerPixel := toUint32 dm.Geometry.Depth
    pixclock := toUint32 dm.Timings.Pixclock
    leftMargin := toUint32 dm.Timings.Left
    rightMargin := toUint32 dm.Timings.Right
    upperMargin := toUint32 dm.Timings.Upper
    lowerMargin := toUint32 dm.Timings.Lower
    hsyncLen := toUint32 dm.Timings.HSLen
    vsyncLen := toUint32 dm.Timings.VSLen
    sync := toUint32 dm.Sync
    vmode := toUint32 dm.VMode
    red := { length := dm.Format.RedBits, offset := dm.Format.RedShift, msb_right := 1 }
    green := { length := dm.Format.GreenBits, offset := dm.Format.GreenShift, msb_right := 1 }
    blue := { length := dm.Format.BlueBits, offset := dm.Format.BlueShift, msb_right := 1 }
    transparent :=
      { length := dm.Format.AlphaBits, offset := dm.Format.AlphaShift, msb_right := 1 }
    xoffset := 0
    yoffset := 0 }

/-- The method `Canvas.setMode`; `none` is the nil mode. -/
def setMode {W : Type} (K : Kernel W) (dm : Option DisplayMode) : Step W := fun st =>
  match dm with
  | none => (none, st)
  | some dm =>
    let r1 := ioctl K (File.Fd st.c.fd) Req.IOGET_VSCREENINFO {} st
    if r1.1.isSome then (r1.1, r1.2.2)
    else
      let r2 := ioctl K (File.Fd st.c.fd) Req.IOPUT_VSCREENINFO (applyMode r1.2.1 dm) r1.2.2
      (r2.1, r2.2.2)

/-- The step of `Open` that checks the memory layout (lines 190 to 193). -/
def checkPacked {W : Type} (k : Consts) : Step W := fun st =>
  if st.c.origFi.typ ≠ k.TYPE_PACKED_PIXELS then
    (some (Error.msg
      "Canvas.Open: Framebuffer is not in PACKED PIXELS mode. Unable to continue"), st)
  else (none, st)

/-- The length `Open` gives `origFi.smemlen` when the device reports zero (lines 201 to
207); the products are `uint32` products. -/
def deriveSmemlen (fi : fbFixScreenInfo) (vi : fbVarScreenInfo) : Nat :=
  if fi.smemlen = 0 then
    if fi.ywrapstep = 0 then (vi.xres * vi.yres * vi.bitsPerPixel) % 2 ^ 32 / 8
    else ((fi.ywrapstep % 2 ^ 32) * vi.yres) % 2 ^ 32
  else fi.smemlen

/-- The step of `Open` that settles the length of the mapping (lines 201 to 207). -/
def deriveLength {W : Type} : Step W := fun st =>
  (none, { st with c := { st.c with
    origFi := { st.c.origFi with smemlen := deriveSmemlen st.c.origFi st.c.origVi } } })

/-- The step of `Open` that maps the memory (lines 210 to 215); the length argument is
`int(c.origFi.smemlen)`. On failure `syscall.Mmap` answers a nil slice. -/
def mapMemory {W : Type} (K : Kernel W) : Step W := fun st =>
  let res := K.mmap (File.Fd st.c.fd) st.c.origFi.smemlen st.world
  let st1 : St W :=
    { st with world := res.2,
              log := st.log ++ [Event.mmap (File.Fd st.c.fd) st.c.origFi.smemlen res.1] }
  match res.1 with
  | Except.error e =>
    (some (Error.wrap "Canvas.Open: Mmap failed: " e), { st1 with c := { st1.c with mem := none } })
  | Except.ok m => (none, { st1 with c := { st1.c with mem := some m } })

/-- The step of `Open` that allocates the zero buffer (line 219). -/
def allocZero {W : Type} : Step W := fun st =>
  (none, { st with c := { st.c with zero := some (match st.c.mem with
    | some m => m.len
    | none => 0) } })

/-- The step of `Open` that moves the viewport to the top left corner (lines 222 to
231). -/
def panToOrigin {W : Type} (K : Kernel W) : Step W := fun st =>
  if st.c.origVi.xoffset ≠ 0 ∨ st.c.origVi.yoffset ≠ 0 then
    let r := ioctl K (File.Fd st.c.fd) Req.IOPAN_DISPLAY
      { st.c.origVi with xoffset := 0, yoffset := 0 } st
    (r.1, r.2.2)
  else (none, st)

/-- The method `Canvas.activateCurrent`. -/
def activateCurrent {W : Type} (K : Kernel W) (tty : File) : Step W := fun st =>
  let r1 := ioctl K tty.fd Req.VT_GETSTATE {} st
  if r1.1.isSome then (r1.1, r1.2.2)
  else
    let r2 := ioctl K tty.fd Req.VT_ACTIVATE (r1.2.1.vActive : Int) r1.2.2
    if r2.1.isSome then (r2.1, r2.2.2)
    else
      let r3 := ioctl K tty.fd Req.VT_WAITACTIVE (r1.2.1.vActive : Int) r2.2.2
      (r3.1, r3.2.2)

/-- The step of `Open` that switches the terminal to graphics mode and activates it
(lines 233 to 245). -/
def terminalGraphics {W : Type} (K : Kernel W) (k : Consts) : Step W := fun st =>
  match st.c.tty with
  | some t =>
    let r1 := ioctl K t.fd Req.KDSETMODE k.KD_GRAPHICS st
    if r1.1.isSome then (r1.1, r1.2.2)
    else activateCurrent K t r1.2.2
  | none => (none, st)

/-- The method `Canvas.Clear`, a copy of the zero buffer over the mapping (line 248 of
`Open`). -/
def Clear {W : Type} (K : Kernel W) : Step W := fun st =>
  match st.c.mem with
  | some m => (none, { st with world := K.clear m st.world, log := st.log ++ [Event.clear m] })
  | none => (none, st)

/-- The statements of `Open` from line 93 on, in order. -/
def openSteps {W : Type} (K : Kernel W) (k : Consts) (dm : Option DisplayMode) :
    List (Step W) :=
  [resolveDevice K k, openDevice K, getFixInfo K, getVarInfo K, getPalette K k,
   getTerminal K, setMode K dm, getFixInfo K, checkPacked k, deriveLength, mapMemory K,
   allocZero, panToOrigin K, terminalGraphics K k, Clear K]

/-- The state `Open` starts its statements in: a new canvas with the given terminal,
`origVTNo` zero and the switch state active, in the world `w`, the log empty. -/
def openInit {W : Type} (k : Consts) (tty : Option File) (w : W) : St W :=
  { c := { tty := tty, origVTNo := 0, switchState := k.FB_ACTIVE }, world := w, log := [] }

/-- The function `Open` in the world `w`, the log empty: the returned error and the
state afterwards, whose canvas is the returned `c`. The deferred function calls
`Close` when the error is not nil and drops what `Close` returns. The signal listener
started at the end (`go c.pollSignals()`) is not part of the model. -/
def Open {W : Type} (K : Kernel W) (k : Consts) (dm : Option DisplayMode)
    (tty : Option File) (w : W) : Option Error × St W :=
  let r := runSteps (openSteps K k dm) (openInit k tty w)
  match r.1 with
  | some e => (some e, (Close K k r.2).2)
  | none => (none, r.2)

/-- The method `Canvas.CurrentMode`: the mode (`none` is nil), the error and the state
afterwards. -/
def CurrentMode {W : Type} (K : Kernel W) (k : Consts) (st : St W) :
    Option DisplayMode × Option Error × St W :=
  let r := ioctl K (File.Fd st.c.fd) Req.IOGET_VSCREENINFO {} st
  if r.1.isSome then (none, some (Error.msg "Canvas.CurrentMode failed"), r.2.2)
  else
    let v := r.2.1
    (some
      { Accelerated := decide (st.c.origFi.accel ≠ k.ACCEL_NONE)
        Geometry :=
          { XRes := (v.xres : Int), YRes := (v.yres : Int), XVRes := (v.xresVirtual : Int),
            YVRes := (v.yresVirtual : Int), Depth := (v.bitsPerPixel : Int) }
        Timings :=
          { Pixclock := (v.pixclock : Int), Left := (v.leftMargin : Int),
            Right := (v.rightMargin : Int), Upper := (v.upperMargin : Int),
            Lower := (v.lowerMargin : Int), HSLen := (v.hsyncLen : Int),
            VSLen := (v.vsyncLen : Int) }
        Sync := (v.sync : Int)
        VMode := (v.vmode : Int)
        Format :=
          { Depth := natToUint8 v.bits_per_pixel
            RedBits := natToUint8 v.red.length, RedShift := natToUint8 v.red.offset
            GreenBits := natToUint8 v.green.length, GreenShift := natToUint8 v.green.offset
            BlueBits := natToUint8 v.blue.length, BlueShift := natToUint8 v.blue.offset
            AlphaBits := natToUint8 v.transparent.length
            AlphaShift := natToUint8 v.transparent.offset } },
      none, r.2.2)

/-! ## The palette -/

/-- A `color.Color`, which the code knows through its method `RGBA` alone: the four
`uint32` values that method returns, each within `[0, 0xffff]` by the contract of
`image/color`. -/
structure Color where
  r : Nat
  g : Nat
  b : Nat
  a : Nat
  deriving DecidableEq, Repr

/-- The type `color.NRGBA`: four `uint8`. -/
structure NRGBA where
  R : Nat
  G : Nat
  B : Nat
  A : Nat
  deriving DecidableEq, Repr

/-- The method `color.NRGBA.RGBA` of the Go library: the alpha-premultiplied 16-bit
samples of a colour given by 8-bit samples. -/
def NRGBA.RGBA (c : NRGBA) : Color :=
  { r := c.R * 257 * c.A / 255, g := c.G * 257 * c.A / 255, b := c.B * 257 * c.A / 255,
    a := c.A * 257 }

/-- The entries `Palette` builds from the tables: entry `i` has the high bytes of the
four samples at index `i + s`. -/
def paletteEntries (c : Canvas) (s len : Nat) : List NRGBA :=
  (List.range len).map (fun i =>
    { R := natToUint8 ((c.tmpR.getD (i + s) 0) / 2 ^ 8)
      G := natToUint8 ((c.tmpG.getD (i + s) 0) / 2 ^ 8)
      B := natToUint8 ((c.tmpB.getD (i + s) 0) / 2 ^ 8)
      A := natToUint8 ((c.tmpA.getD (i + s) 0) / 2 ^ 8) })

/-- The method `Canvas.Palette`: the palette (`none` is nil), the error and the state
afterwards. An index beyond the 256 entries of a table is a run-time panic, carried
as the error `indexOutOfRange`. -/
def Palette {W : Type} (K : Kernel W) (st : St W) :
    Option (List NRGBA) × Option Error × St W :=
  let r := ioctl K (File.Fd st.c.fd) Req.IOGET_CMAP
    (cmapOf st.c.tmpR st.c.tmpG st.c.tmpB st.c.tmpA) st
  let st1 : St W := { r.2.2 with c := { r.2.2.c with
    tmpR := r.2.1.red, tmpG := r.2.1.green, tmpB := r.2.1.blue, tmpA := r.2.1.transp } }
  if r.1.isSome then (none, some (Error.msg "Canvas.Palette failed"), st1)
  else if (List.range r.2.1.len).all (fun i => decide (i + r.2.1.start < 256)) then
    (some (paletteEntries st1.c r.2.1.start r.2.1.len), none, st1)
  else (none, some Error.indexOutOfRange, st1)

/-- The loop of `SetPalette`: the colours from index `i` on, each stored as
`uint16(sample >> 16)` in the four scratch tables. -/
def storePalette : Nat → List Color → Canvas → Canvas
  | _, [], c => c
  | i, clr :: rest, c =>
    storePalette (i + 1) rest
      { c with
        tmpR := c.tmpR.set i (toUint16 (clr.r / 2 ^ 16))
        tmpG := c.tmpG.set i (toUint16 (clr.g / 2 ^ 16))
        tmpB := c.tmpB.set i (toUint16 (clr.b / 2 ^ 16))
        tmpA := c.tmpA.set i (toUint16 (clr.a / 2 ^ 16)) }

/-- The method `Canvas.SetPalette`. -/
def SetPalette {W : Type} (K : Kernel W) (pal : List Color) : Step W := fun st =>
  let pal := if 256 ≤ pal.length then pal.take 256 else pal
  let st0 : St W := { st with c := storePalette 0 pal st.c }
  let r := ioctl K (File.Fd st0.c.fd) Req.IOPUT_CMAP
    (cmapOf st0.c.tmpR st0.c.tmpG st0.c.tmpB st0.c.tmpA) st0
  let st1 : St W := { r.2.2 with c := { r.2.2.c with
    tmpR := r.2.1.red, tmpG := r.2.1.green, tmpB := r.2.1.blue, tmpA := r.2.1.transp } }
  if r.1.isSome then (some (Error.msg "Canvas.SetPalette failed"), st1) else (none, st1)

/-! ## A simulated device -/

/-- The state of a simulated frame buffer: the value of the environment variable
`FRAMEBUFFER`, the fixed and variable info, the colour map, the control calls that
fail and whether mapping fails. -/
structure SimDev where
  env : String := "/dev/fb0"
  fi : fbFixScreenInfo := {}
  vi : fbVarScreenInfo := {}
  red : List Nat := List.replicate 256 0
  green : List Nat := List.replicate 256 0
  blue : List Nat := List.replicate 256 0
  transp : List Nat := List.replicate 256 0
  failing : List Req := []
  mmapFails : Bool := false
  deriving DecidableEq, Repr

/-- The control calls of the simulated device: a call listed as failing answers an
error and changes nothing; the queries answer the stored info and colour map, the
set calls store what they are given and leave their argument as it is; every other
call succeeds without effect. -/
def simIoctl : (r : Req) → Nat → r.Arg → SimDev → Option Error × r.Arg × SimDev
  | Req.VT_GETSTATE, _, a, w =>
    if Req.VT_GETSTATE ∈ w.failing then (some (Error.sys 22), a, w) else (none, a, w)
  | Req.IOGET_CON2FBMAP, _, a, w =>
    if Req.IOGET_CON2FBMAP ∈ w.failing then (some (Error.sys 22), a, w) else (none, a, w)
  | Req.IOGET_FSCREENINFO, _, a, w =>
    if Req.IOGET_FSCREENINFO ∈ w.failing then (some (Error.sys 22), a, w) else (none, w.fi, w)
  | Req.IOGET_VSCREENINFO, _, a, w =>
    if Req.IOGET_VSCREENINFO ∈ w.failing then (some (Error.sys 22), a, w) else (none, w.vi, w)
  | Req.IOPUT_VSCREENINFO, _, a, w =>
    if Req.IOPUT_VSCREENINFO ∈ w.failing then (some (Error.sys 22), a, w)
    else (none, a, { w with vi := a })
  | Req.IOGET_CMAP, _, a, w =>
    if Req.IOGET_CMAP ∈ w.failing then (some (Error.sys 22), a, w)
    else (none, { a with red := w.red, green := w.green, blue := w.blue, transp := w.transp }, w)
  | Req.IOPUT_CMAP, _, a, w =>
    if Req.IOPUT_CMAP ∈ w.failing then (some (Error.sys 22), a, w)
    else (none, a, { w with red := a.red, green := a.green, blue := a.blue, transp := a.transp })
  | Req.IOPAN_DISPLAY, _, a, w =>
    if Req.IOPAN_DISPLAY ∈ w.failing then (some (Error.sys 22), a, w) else (none, a, w)
  | Req.KDGETMODE, _, a, w =>
    if Req.KDGETMODE ∈ w.failing then (some (Error.sys 22), a, w) else (none, a, w)
  | Req.KDSETMODE, _, a, w =>
    if Req.KDSETMODE ∈ w.failing then (some (Error.sys 22), a, w) else (none, a, w)
  | Req.VT_GETMODE, _, a, w =>
    if Req.VT_GETMODE ∈ w.failing then (some (Error.sys 22), a, w) else (none, a, w)
  | Req.VT_SETMODE, _, a, w =>
    if Req.VT_SETMODE ∈ w.failing then (some (Error.sys 22), a, w) else (none, a, w)
  | Req.VT_ACTIVATE, _, a, w =>
    if Req.VT_ACTIVATE ∈ w.failing then (some (Error.sys 22), a, w) else (none, a, w)
  | Req.VT_WAITACTIVE, _, a, w =>
    if Req.VT_WAITACTIVE ∈ w.failing then (some (Error.sys 22), a, w) else (none, a, w)
  | Req.VT_RELDISP, _, a, w =>
    if Req.VT_RELDISP ∈ w.failing then (some (Error.sys 22), a, w) else (none, a, w)

/-- The simulated device as an operating system: files open with descriptor 3, a
mapping succeeds with the requested length unless the device says otherwise. -/
def simKernel : Kernel SimDev :=
  { getenv := fun name w => if name = "FRAMEBUFFER" then w.env else ""
    openFile := fun _ _ w => (Except.ok { fd := 3 }, w)
    closeFile := fun _ w => w
    ioctl := simIoctl
    mmap := fun _ len w =>
      if w.mmapFails then (Except.error (Error.sys 12), w)
      else (Except.ok { addr := 0, len := len }, w)
    munmap := fun _ w => w
    clear := fun _ w => w }

/-- The files a log shows opened, in order. -/
def opened : List Event → List File
  | [] => []
  | Event.openFile _ _ (Except.ok f) :: rest => f :: opened rest
  | _ :: rest => opened rest

/-- The files a log shows closed, in order. -/
def closed : List Event → List File
  | [] => []
  | Event.closeFile f :: rest => f :: closed rest
  | _ :: rest => closed rest

/-- The mappings a log shows made, in order. -/
def mapped : List Event → List Mem
  | [] => []
  | Event.mmap _ _ (Except.ok m) :: rest => m :: mapped rest
  | _ :: rest => mapped rest

/-- The mappings a log shows unmapped, in order. -/
def unmapped : List Event → List Mem
  | [] => []
  | Event.munmap m :: rest => m :: unmapped rest
  | _ :: rest => unmapped rest

/-- The errors of the mapping calls a log shows failed, in order. -/
def mapFailures : List Event → List Error
  | [] => []
  | Event.mmap _ _ (Except.error e) :: rest => e :: mapFailures rest
  | _ :: rest => mapFailures rest

/-- The variable info the log shows written by set-variable-info control calls. -/
def varInfoWrites : List Event → List fbVarScreenInfo
  | [] => []
  | Event.ioctl _ Req.IOPUT_VSCREENINFO v :: rest => v :: varInfoWrites rest
  | _ :: rest => varInfoWrites rest

/-- The requests of the control calls a log shows, in order. -/
def requests : List Event → List Req
  | [] => []
  | Event.ioctl _ r _ :: rest => r :: requests rest
  | _ :: rest => requests rest

/-- The lengths of the mapping calls a log shows, in order. -/
def mapLengths : List Event → List Nat
  | [] => []
  | Event.mmap _ len _ :: rest => len :: mapLengths rest
  | _ :: rest => mapLengths rest

/-- Every file the log shows opened is closed, except the one the canvas holds, and
every mapping made is unmapped, except the one the canvas holds. -/
def Balanced {W : Type} (st : St W) : Prop :=
  opened st.log = closed st.log ++ st.c.fd.toList ∧
    mapped st.log = unmapped st.log ++ st.c.mem.toList

/-- What the release properties of a state depend on: the two handles the canvas
holds and the files and mappings the log shows opened, closed, made, unmapped and
failed, with the lengths of the mapping calls. -/
def footprint {W : Type} (st : St W) :
    Option File × Option Mem × List File × List File × List Mem × List Mem × List Error
      × List Nat :=
  (st.c.fd, st.c.mem, opened st.log, closed st.log, mapped st.log, unmapped st.log,
    mapFailures st.log, mapLengths st.log)

/-- A specification of a step: from a state in `P`, a return with the error `e` leaves
a state in `E e`, and falling through leaves a state in `Q`. -/
def StepSpec {W : Type} (P : St W → Prop) (f : Step W) (Q : St W → Prop)
    (E : Error → St W → Prop) : Prop :=
  ∀ st, P st → (∀ e, (f st).1 = some e → E e (f st).2) ∧ ((f st).1 = none → Q (f st).2)

/-- The state `Open` hands to the deferred `Close` when it fails with `e`: balanced,
and if the log shows a failed mapping call then `e` is that failure, wrapped. -/
def FailedWith {W : Type} (e : Error) (st : St W) : Prop :=
  Balanced st ∧ ∀ e0 ∈ mapFailures st.log, e = Error.wrap "Canvas.Open: Mmap failed: " e0

/-- A simulated 640 by 480 device at 32 bits per pixel whose mapping call fails. -/
def mapFailDevice : SimDev :=
  { mmapFails := true, vi := { xres := 640, yres := 480, xresVirtual := 640,
                               yresVirtual := 480, bitsPerPixel := 32 } }

/-- A simulated 640 by 480 device at 32 bits per pixel whose fixed-info query fails. -/
def fixFailDevice : SimDev :=
  { failing := [Req.IOGET_FSCREENINFO],
    vi := { xres := 640, yres := 480, xresVirtual := 640, yresVirtual := 480,
            bitsPerPixel := 32 } }

/-- A simulated device that reports a mapped-memory length of zero, a visible
resolution of 640 by 480, a virtual resolution of 640 by 960 and 8 bits per pixel. -/
def panningDevice : SimDev :=
  { fi := { smemlen := 0, ywrapstep := 0 },
    vi := { xres := 640, yres := 480, xresVirtual := 640, yresVirtual := 960,
            bitsPerPixel := 8 } }

/-- A simulated 640 by 480 device at 32 bits per pixel on which every call succeeds. -/
def plainDevice : SimDev :=
  { vi := { xres := 640, yres := 480, xresVirtual := 640, yresVirtual := 480,
            bitsPerPixel := 32 } }

/-- A session on a simulated device: a canvas that holds the device handle, the log
empty. -/
def sessionOn (w : SimDev) : St SimDev :=
  { c := { fd := some { fd := 3 } }, world := w, log := [] }

/-- Every geometry, timing, sync and video-mode field of the mode is a value of the
device's 32-bit unsigned fields: between 0 and 2 ^ 32 - 1. -/
def FitsUint32 (m : DisplayMode) : Prop :=
  (0 ≤ m.Geometry.XRes ∧ m.Geometry.XRes < 2 ^ 32) ∧
  (0 ≤ m.Geometry.YRes ∧ m.Geometry.YRes < 2 ^ 32) ∧
  (0 ≤ m.Geometry.XVRes ∧ m.Geometry.XVRes < 2 ^ 32) ∧
  (0 ≤ m.Geometry.YVRes ∧ m.Geometry.YVRes < 2 ^ 32) ∧
  (0 ≤ m.Geometry.Depth ∧ m.Geometry.Depth < 2 ^ 32) ∧
  (0 ≤ m.Timings.Pixclock ∧ m.Timings.Pixclock < 2 ^ 32) ∧
  (0 ≤ m.Timings.Left ∧ m.Timings.Left < 2 ^ 32) ∧
  (0 ≤ m.Timings.Right ∧ m.Timings.Right < 2 ^ 32) ∧
  (0 ≤ m.Timings.Upper ∧ m.Timings.Upper < 2 ^ 32) ∧
  (0 ≤ m.Timings.Lower ∧ m.Timings.Lower < 2 ^ 32) ∧
  (0 ≤ m.Timings.HSLen ∧ m.Timings.HSLen < 2 ^ 32) ∧
  (0 ≤ m.Timings.VSLen ∧ m.Timings.VSLen < 2 ^ 32) ∧
  (0 ≤ m.Sync ∧ m.Sync < 2 ^ 32) ∧
  (0 ≤ m.VMode ∧ m.VMode < 2 ^ 32)

instance (m : DisplayMode) : Decidable (FitsUint32 m) := by
  unfold FitsUint32; infer_instance

/-- A mode of 1024 by 768 at 16 bits per pixel. -/
def sampleMode : DisplayMode :=
  { Name := ['s'],
    Geometry := { XRes := 1024, YRes := 768, XVRes := 1024, YVRes := 768, Depth := 16 },
    Timings := { Pixclock := 15384, Left := 168, Right := 8, Upper := 29, Lower := 3,
                 HSLen := 144, VSLen := 6 },
    Sync := 3, VMode := 1 }

/-- A mode whose width, 2 ^ 32, does not fit the device's 32-bit field. -/
def wideMode : DisplayMode :=
  { sampleMode with Geometry := { sampleMode.Geometry with XRes := 4294967296 } }

/-- The number of newline-terminated lines of the text that hold the end marker. -/
def endMarkerLines (text : List Char) : Nat :=
  ((readLines text).filter (fun raw => contains endmode (trimSpace raw))).length

/-! ## Lines that make `readFBModes` fail -/

/-- The number of capturing groups of a pattern. -/
def capCount : List Atom → Nat
  | [] => 0
  | Atom.cap _ :: as => capCount as + 1
  | _ :: as => capCount as

/-- Every capturing group of the pattern is `(\d+)`. -/
def CapsAreDigits (as : List Atom) : Prop := ∀ cls, Atom.cap cls ∈ as → cls = isDigit

/-- The decimal numeral `f` is outside the range of a signed integer of `bits` bits: its
value is above `2 ^ (bits - 1) - 1`. -/
def OutOfRange (bits : Nat) (f : List Char) : Prop := 2 ^ (bits - 1) ≤ natOfDigits f

/-- One of the groups 1 to `n` of the match is out of range. -/
def AnyOutOfRange (bits : Nat) (ms : List (List Char)) (n : Nat) : Prop :=
  ∃ i, 1 ≤ i ∧ i ≤ n ∧ OutOfRange bits (group ms i)

/-- The trimmed line gets as far as the `nonstd` pattern: it is not blank, holds no end
marker and is not a label. -/
def ReachesNonstd (line : List Char) : Prop :=
  line.length ≠ 0 ∧ contains endmode line = false ∧ ¬ 1 < (regLabel.FindSubmatch line).length

/-- The trimmed line gets as far as the geometry, timings and pixel format patterns: no
test before them takes it. -/
def ReachesTail (line : List Char) : Prop :=
  ReachesNonstd line ∧ ¬ 1 < (regNonstd.FindSubmatch line).length ∧
    regHsync.Match line = false ∧ regVsync.Match line = false ∧
    regCsync.Match line = false ∧ regGsync.Match line = false ∧
    regBcast.Match line = false ∧ regExtsync.Match line = false ∧
    regAccel.Match line = false ∧ regGrayscale.Match line = false ∧
    regLaced.Match line = false ∧ regDouble.Match line = false

/-- The trimmed line has a captured decimal field outside the parsed integer range, on
a pattern that is applied to it: group 1 of `nonstd`, a group of `geometry` or of
`timings` (32 bits), or group 1 of `rgba` (8 bits). -/
def OverflowLine (line : List Char) : Prop :=
  (ReachesNonstd line ∧ 1 < (regNonstd.FindSubmatch line).length ∧
      OutOfRange 32 (group (regNonstd.FindSubmatch line) 1)) ∨
  (ReachesTail line ∧
    ((1 < (regGeometry.FindSubmatch line).length ∧
        AnyOutOfRange 32 (regGeometry.FindSubmatch line) 5) ∨
     (1 < (regTimings.FindSubmatch line).length ∧
        AnyOutOfRange 32 (regTimings.FindSubmatch line) 7) ∨
     (1 < (regFormat.FindSubmatch line).length ∧
        OutOfRange 8 (group (regFormat.FindSubmatch line) 1))))

/-! ## The operations on an open session -/

/-- Modelled from the spec: the constants of the VT-switch protocol, whose declarations
are not among the sources. -/
structure SwitchConsts where
  VT_ACKACQ : Int
  VT_PROCESS : Nat
  FB_INACTIVE : Int
  FB_REL_REQ : Int
  FB_ACQ_REQ : Int
  SIGUSR1 : Int
  SIGUSR2 : Int

/-- The method `Canvas.switchAcquire`; what the control call returns is dropped. -/
def switchAcquire {W : Type} (K : Kernel W) (k : Consts) (sk : SwitchConsts) (st : St W) :
    St W :=
  let st1 : St W :=
    match st.c.tty with
    | some t => (ioctl K t.fd Req.VT_RELDISP sk.VT_ACKACQ st).2.2
    | none => st
  { st1 with c := { st1.c with switchState := k.FB_ACTIVE } }

/-- The method `Canvas.switchRelease`; what the control call returns is dropped. -/
def switchRelease {W : Type} (K : Kernel W) (sk : SwitchConsts) (st : St W) : St W :=
  let st1 : St W :=
    match st.c.tty with
    | some t => (ioctl K t.fd Req.VT_RELDISP (1 : Int) st).2.2
    | none => st
  { st1 with c := { st1.c with switchState := sk.FB_INACTIVE } }

/-- The method `Canvas.switchInit`: the descriptor it builds is a local variable. -/
def switchInit {W : Type} (K : Kernel W) (sk : SwitchConsts) : Step W := fun st =>
  match st.c.tty with
  | none => (none, st)
  | some t =>
    let r := ioctl K t.fd Req.VT_SETMODE
      { mode := sk.VT_PROCESS, waitv := 0, relsig := sk.SIGUSR1, acqsig := sk.SIGUSR2 } st
    (r.1, r.2.2)

/-- What one pass of the loop of `pollSignals` does to the canvas when a signal
arrives, taken as one step: a release request or an acquire request. -/
def signalArrives {W : Type} (sk : SwitchConsts) (release : Bool) (st : St W) : St W :=
  { st with c := { st.c with
    switchState := if release then sk.FB_REL_REQ else sk.FB_ACQ_REQ } }

/-- The operations of `canvas.go` that touch a canvas once `Open` has returned it. The
methods `File`, `Buffer`, `Accelerated`, `FindMode` and `Modes` do not change the
canvas, and `Image` changes it through `CurrentMode` alone. -/
inductive Op where
  | setMode (dm : Option DisplayMode)
  | currentMode
  | palette
  | setPalette (pal : List Color)
  | clear
  | close
  | switchAcquire
  | switchRelease
  | switchInit
  | activateCurrent (tty : File)
  | signal (release : Bool)

/-- The state after one operation; what the operation returns is dropped. -/
def runOp {W : Type} (K : Kernel W) (k : Consts) (sk : SwitchConsts) (op : Op) (st : St W) :
    St W :=
  match op with
  | Op.setMode dm => (setMode K dm st).2
  | Op.currentMode => (CurrentMode K k st).2.2
  | Op.palette => (Palette K st).2.2
  | Op.setPalette pal => (SetPalette K pal st).2
  | Op.clear => (Clear K st).2
  | Op.close => (Close K k st).2
  | Op.switchAcquire => switchAcquire K k sk st
  | Op.switchRelease => switchRelease K sk st
  | Op.switchInit => (switchInit K sk st).2
  | Op.activateCurrent tty => (activateCurrent K tty st).2
  | Op.signal release => signalArrives sk release st

/-- The state after a sequence of operations. -/
def runOps {W : Type} (K : Kernel W) (k : Consts) (sk : SwitchConsts) :
    List Op → St W → St W
  | [], st => st
  | op :: rest, st => runOps K k sk rest (runOp K k sk op st)

/-- The calls `Close` makes when it is run on the canvas `c` in the world `w`: its log,
started empty. -/
def closeCalls {W : Type} (K : Kernel W) (k : Consts) (c : Canvas) (w : W) : List Event :=
  (Close K k { c := c, world := w, log := [] }).2.log

/-! ## Lines and the loop -/

theorem readLines_ne_nil_of_mem : ∀ (s : List Char), '\n' ∈ s → readLines s ≠ []
  | [], h => by simp at h
  | c :: cs, h => by
    by_cases hc : c = '\n'
    · simp [readLines, hc]
    · have hmem : '\n' ∈ cs := by
        rcases List.mem_cons.1 h with h1 | h1
        · exact absurd h1.symm hc
        · exact h1
      have ih := readLines_ne_nil_of_mem cs hmem
      simp only [readLines, hc, if_false]
      cases hr : readLines cs with
      | nil => exact absurd hr ih
      | cons l ls => simp

/-- A text that ends with a newline splits into lines independently of what follows. -/
theorem readLines_cons_newline (cs : List Char) :
    readLines ('\n' :: cs) = ['\n'] :: readLines cs := by
  simp [readLines]

theorem readLines_cons_other (c : Char) (cs : List Char) (hc : c ≠ '\n') :
    readLines (c :: cs) =
      match readLines cs with
      | [] => []
      | l :: ls => (c :: l) :: ls := by
  simp [readLines, hc]

theorem readLines_snoc_append : ∀ (a b : List Char),
    readLines (a ++ '\n' :: b) = readLines (a ++ ['\n']) ++ readLines b
  | [], b => by simp [readLines]
  | c :: cs, b => by
    have ih := readLines_snoc_append cs b
    by_cases hc : c = '\n'
    · subst hc
      rw [List.cons_append, List.cons_append, readLines_cons_newline,
        readLines_cons_newline, ih, List.cons_append]
    · have hne : readLines (cs ++ ['\n']) ≠ [] :=
        readLines_ne_nil_of_mem _ (by simp)
      rw [List.cons_append, List.cons_append, readLines_cons_other _ _ hc,
        readLines_cons_other _ _ hc, ih]
      cases hr : readLines (cs ++ ['\n']) with
      | nil => exact absurd hr hne
      | cons l ls => rfl

/-- A line with no newline inside, followed by a newline, is the first `ReadBytes` result. -/
theorem readLines_line : ∀ (l rest : List Char), '\n' ∉ l →
    readLines (l ++ '\n' :: rest) = (l ++ ['\n']) :: readLines rest
  | [], rest, _ => by simp [readLines]
  | c :: cs, rest, h => by
    have hc : c ≠ '\n' := fun e => h (by simp [e])
    have hcs : '\n' ∉ cs := fun e => h (List.mem_cons_of_mem _ e)
    simp [readLines, hc, readLines_line cs rest hcs]

theorem readLines_append (a b : List Char) (h : EndsWithNewline a) :
    readLines (a ++ b) = readLines a ++ readLines b := by
  rcases h with h | h
  · subst h; simp [readLines]
  · obtain ⟨a', rfl⟩ : ∃ a', a = a' ++ ['\n'] := by
      rcases List.eq_nil_or_concat a with h0 | ⟨a', x, rfl⟩
      · subst h0; simp at h
      · simp at h; exact ⟨a', by simp [h]⟩
    rw [List.append_assoc]
    simpa using readLines_snoc_append a' b

theorem parseLoop_append (k : ModeFlags) : ∀ (a b : List (List Char)) (list : List DisplayMode)
    (dm : DisplayMode),
    parseLoop k (a ++ b) list dm =
      match (parseLoop k a list dm).2.2 with
      | none => parseLoop k b (parseLoop k a list dm).1 (parseLoop k a list dm).2.1
      | some _ => parseLoop k a list dm
  | [], b, list, dm => by simp [parseLoop]
  | raw :: rest, b, list, dm => by
    simp only [List.cons_append, parseLoop]
    cases hp : parseLine k list dm raw with
    | error e => simp
    | ok st => simpa using parseLoop_append k rest b st.1 st.2

theorem parseLine_eq (k : ModeFlags) (list : List DisplayMode) (dm : DisplayMode)
    (raw : List Char) :
    parseLine k list dm raw =
      if (trimSpace raw).length = 0 then Except.ok (list, dm)
      else if contains endmode (trimSpace raw) then Except.ok (list ++ [dm], {})
      else (lineDirective k dm (trimSpace raw)).map (fun d => (list, d)) := by
  unfold parseLine lineDirective
  simp only []
  by_cases h0 : (trimSpace raw).length = 0
  · simp only [h0, if_true]; rfl
  simp only [h0, if_false]
  by_cases h1 : contains endmode (trimSpace raw) = true
  · simp only [h1, if_true]; rfl
  simp only [h1, if_false]
  by_cases h2 : 1 < (regLabel.FindSubmatch (trimSpace raw)).length
  · simp only [h2, if_true]; rfl
  simp only [h2, if_false]
  by_cases h3 : 1 < (regNonstd.FindSubmatch (trimSpace raw)).length
  · simp only [h3, if_true]
    cases readInt (group (regNonstd.FindSubmatch (trimSpace raw)) 1) 32 <;> rfl
  simp only [h3, if_false]
  by_cases h4 : regHsync.Match (trimSpace raw) = true
  · simp only [h4, if_true]; rfl
  simp only [h4, if_false]
  by_cases h5 : regVsync.Match (trimSpace raw) = true
  · simp only [h5, if_true]; rfl
  simp only [h5, if_false]
  by_cases h6 : regCsync.Match (trimSpace raw) = true
  · simp only [h6, if_true]; rfl
  simp only [h6, if_false]
  by_cases h7 : regGsync.Match (trimSpace raw) = true
  · simp only [h7, if_true]; rfl
  simp only [h7, if_false]
  by_cases h8 : regBcast.Match (trimSpace raw) = true
  · simp only [h8, if_true]; rfl
  simp only [h8, if_false]
  by_cases h9 : regExtsync.Match (trimSpace raw) = true
  · simp only [h9, if_true]; rfl
  simp only [h9, if_false]
  by_cases h10 : regAccel.Match (trimSpace raw) = true
  · simp only [h10, if_true]; rfl
  simp only [h10, if_false]
  by_cases h11 : regGrayscale.Match (trimSpace raw) = true
  · simp only [h11, if_true]; rfl
  simp only [h11, if_false]
  by_cases h12 : regLaced.Match (trimSpace raw) = true
  · simp only [h12, if_true]; rfl
  simp only [h12, if_false]
  by_cases h13 : regDouble.Match (trimSpace raw) = true
  · simp only [h13, if_true]; rfl
  simp only [h13, if_false]
  cases parseTail dm (trimSpace raw) <;> rfl

/-- The loop body treats the list it is given as a prefix it only ever appends to. -/
theorem parseLine_list (k : ModeFlags) (list : List DisplayMode) (dm : DisplayMode)
    (raw : List Char) :
    parseLine k list dm raw =
      (parseLine k [] dm raw).map (fun st => (list ++ st.1, st.2)) := by
  rw [parseLine_eq, parseLine_eq]
  split_ifs
  · simp [Except.map]
  · simp [Except.map]
  · cases lineDirective k dm (trimSpace raw) <;> simp [Except.map]

theorem parseLoop_list (k : ModeFlags) : ∀ (a : List (List Char)) (list : List DisplayMode)
    (dm : DisplayMode),
    parseLoop k a list dm =
      (list ++ (parseLoop k a [] dm).1, (parseLoop k a [] dm).2.1, (parseLoop k a [] dm).2.2)
  | [], list, dm => by simp [parseLoop]
  | raw :: rest, list, dm => by
    simp only [parseLoop]
    rw [parseLine_list k list dm raw]
    cases hp : parseLine k [] dm raw with
    | error e => simp [Except.map]
    | ok st =>
      simp only [Except.map]
      rw [parseLoop_list k rest (list ++ st.1) st.2, parseLoop_list k rest st.1 st.2]
      simp

/-! ## The matcher on texts of a known shape -/

theorem plusSplits_snd_subset (cls : Char → Bool) : ∀ (s : List Char)
    (sp : List Char × List Char), sp ∈ plusSplits cls s → ∀ x ∈ sp.2, x ∈ s
  | [], sp, h => by simp [plusSplits] at h
  | c :: cs, sp, h => by
    intro x hx
    by_cases hc : cls c = true
    · simp only [plusSplits, hc, if_true, List.mem_append, List.mem_map,
        List.mem_singleton] at h
      rcases h with ⟨sp', hsp', rfl⟩ | rfl
      · exact List.mem_cons_of_mem _ (plusSplits_snd_subset cls cs sp' hsp' x hx)
      · exact List.mem_cons_of_mem _ hx
    · simp [plusSplits, hc] at h

/-- A pattern with a literal character that the text lacks matches nowhere in it. -/
theorem matchHere_none_of_absent (c : Char) : ∀ (as : List Atom) (s : List Char),
    Atom.lit c ∈ as → c ∉ s → matchHere as s = none
  | [], _, h, _ => by simp at h
  | Atom.lit d :: as, s, h, hs => by
    cases s with
    | nil => simp [matchHere]
    | cons x xs =>
      simp only [matchHere]
      split_ifs with hx
      · have hcd : c ≠ d := fun e => hs (by simp [e, hx])
        have hmem : Atom.lit c ∈ as := by
          rcases List.mem_cons.1 h with h1 | h1
          · exact absurd (Atom.lit.inj h1) hcd
          · exact h1
        exact matchHere_none_of_absent c as xs hmem (fun e => hs (List.mem_cons_of_mem _ e))
      · rfl
  | Atom.plus cls :: as, s, h, hs => by
    have hmem : Atom.lit c ∈ as := by
      rcases List.mem_cons.1 h with h1 | h1
      · cases h1
      · exact h1
    simp only [matchHere, List.findSome?_eq_none_iff]
    intro sp hsp
    exact matchHere_none_of_absent c as sp.2 hmem
      (fun e => hs (plusSplits_snd_subset cls s sp hsp c e))
  | Atom.cap cls :: as, s, h, hs => by
    have hmem : Atom.lit c ∈ as := by
      rcases List.mem_cons.1 h with h1 | h1
      · cases h1
      · exact h1
    simp only [matchHere, List.findSome?_eq_none_iff]
    intro sp hsp
    rw [matchHere_none_of_absent c as sp.2 hmem
      (fun e => hs (plusSplits_snd_subset cls s sp hsp c e))]
    rfl

theorem searchFrom_none_of_absent (c : Char) (as : List Atom) (h : Atom.lit c ∈ as) :
    ∀ (s : List Char), c ∉ s → searchFrom as s = none
  | [], hs => by simp [searchFrom, submatchHere, matchHere_none_of_absent c as [] h hs]
  | x :: xs, hs => by
    simp only [searchFrom, submatchHere, matchHere_none_of_absent c as (x :: xs) h hs,
      Option.map_none']
    exact searchFrom_none_of_absent c as h xs (fun e => hs (List.mem_cons_of_mem _ e))

theorem FindSubmatch_nil_of_absent (c : Char) (re : Regexp) (s : List Char)
    (h : Atom.lit c ∈ re.atoms) (hs : c ∉ s) : re.FindSubmatch s = [] := by
  unfold Regexp.FindSubmatch
  split_ifs
  · simp [submatchHere, matchHere_none_of_absent c re.atoms s h hs]
  · simp [searchFrom_none_of_absent c re.atoms h s hs]

theorem Match_false_of_absent (c : Char) (re : Regexp) (s : List Char)
    (h : Atom.lit c ∈ re.atoms) (hs : c ∉ s) : re.Match s = false := by
  unfold Regexp.Match
  split_ifs
  · simp [submatchHere, matchHere_none_of_absent c re.atoms s h hs]
  · simp [searchFrom_none_of_absent c re.atoms h s hs]

theorem contains_false_of_absent (c : Char) (pat : List Char) (h : c ∈ pat) :
    ∀ (s : List Char), c ∉ s → contains pat s = false
  | [], _ => by
    cases pat with
    | nil => simp at h
    | cons p ps => simp [contains, List.isPrefixOf]
  | x :: xs, hs => by
    have h1 : pat.isPrefixOf (x :: xs) = false := by
      rw [Bool.eq_false_iff]
      intro hp
      have := (List.isPrefixOf_iff_prefix.1 hp).subset h
      exact hs this
    simp only [contains, h1, Bool.false_or]
    exact contains_false_of_absent c pat h xs (fun e => hs (List.mem_cons_of_mem _ e))

/-- A run of class characters that cannot be extended is the first candidate of `C+`. -/
theorem plusSplits_run (cls : Char → Bool) (t : List Char)
    (ht : ∀ c ∈ t.head?, cls c = false) : ∀ (f : List Char), f ≠ [] →
    (∀ c ∈ f, cls c = true) → ∃ tl, plusSplits cls (f ++ t) = (f, t) :: tl
  | [], h, _ => absurd rfl h
  | [c], _, hf => by
    have hc : cls c = true := hf c (by simp)
    have ht0 : plusSplits cls t = [] := by
      cases t with
      | nil => rfl
      | cons x xs => simp [plusSplits, ht x (by simp)]
    exact ⟨[], by simp [plusSplits, hc, ht0]⟩
  | c :: d :: ds, _, hf => by
    have hc : cls c = true := hf c (by simp)
    obtain ⟨tl, htl⟩ := plusSplits_run cls t ht (d :: ds) (by simp)
      (fun x hx => hf x (List.mem_cons_of_mem _ hx))
    refine ⟨tl.map (fun sp => (c :: sp.1, sp.2)) ++ [([c], d :: ds ++ t)], ?_⟩
    rw [List.cons_append, plusSplits, if_pos hc, htl]
    simp

theorem matchHere_cap_run (cls : Char → Bool) (as : List Atom) (f t : List Char)
    (r : List Char × List (List Char)) (hne : f ≠ []) (hf : ∀ c ∈ f, cls c = true)
    (ht : ∀ c ∈ t.head?, cls c = false) (hr : matchHere as t = some r) :
    matchHere (Atom.cap cls :: as) (f ++ t) = some (r.1, f :: r.2) := by
  obtain ⟨tl, htl⟩ := plusSplits_run cls t ht f hne hf
  simp [matchHere, htl, hr]

theorem matchHere_plus_run (cls : Char → Bool) (as : List Atom) (f t : List Char)
    (r : List Char × List (List Char)) (hne : f ≠ []) (hf : ∀ c ∈ f, cls c = true)
    (ht : ∀ c ∈ t.head?, cls c = false) (hr : matchHere as t = some r) :
    matchHere (Atom.plus cls :: as) (f ++ t) = some r := by
  obtain ⟨tl, htl⟩ := plusSplits_run cls t ht f hne hf
  simp [matchHere, htl, hr]

/-! ## Numerals and the geometry directive -/

theorem digitsValue_numeral : ∀ (f : List Char) (acc : Nat), (∀ c ∈ f, isDigit c = true) →
    digitsValue acc f = some (f.foldl (fun a c => a * 10 + (c.toNat - 48)) acc)
  | [], acc, _ => rfl
  | c :: cs, acc, h => by
    simp only [digitsValue, h c (by simp), if_true, List.foldl_cons]
    exact digitsValue_numeral cs _ (fun x hx => h x (List.mem_cons_of_mem _ hx))

/-- On a decimal numeral `readInt` fails exactly when the value does not fit. -/
theorem readInt_numeral (f : List Char) (bits : Nat) (hf : IsNumeral f) :
    readInt f bits =
      if natOfDigits f < 2 ^ (bits - 1) then Except.ok (natOfDigits f : Int)
      else Except.error (Error.rangeErr f) := by
  obtain ⟨hne, hd⟩ := hf
  cases f with
  | nil => exact absurd rfl hne
  | cons c cs =>
    have hc : isDigit c = true := hd c (by simp)
    have hplus : c ≠ '+' := by rintro rfl; revert hc; decide
    have hminus : c ≠ '-' := by rintro rfl; revert hc; decide
    have hv := digitsValue_numeral (c :: cs) 0 hd
    simp only [readInt, parseInt, List.head?_cons, Option.some.injEq, hplus, hminus,
      or_self, if_false, decide_False, List.length_cons, Nat.succ_ne_zero, hv, natOfDigits]
    simp

theorem isNonWord_of_isDigit (c : Char) (h : isDigit c = true) : isNonWord c = false := by
  simp [isNonWord, isWord, h]

theorem head_numeral_append (f t : List Char) (hf : IsNumeral f) :
    ∀ c ∈ (f ++ t).head?, isNonWord c = false := by
  obtain ⟨hne, hd⟩ := hf
  cases f with
  | nil => exact absurd rfl hne
  | cons x xs =>
    intro c hc
    simp at hc
    subst hc
    exact isNonWord_of_isDigit _ (hd _ (by simp))

theorem matchHere_lit_cons (c : Char) (as : List Atom) (s : List Char) :
    matchHere (Atom.lit c :: as) (c :: s) = matchHere as s := by
  simp [matchHere]

theorem searchFrom_of_matchHere (as : List Atom) (s : List Char)
    (r : List Char × List (List Char)) (h : matchHere as s = some r) :
    searchFrom as s = some (s.take (s.length - r.1.length) :: r.2) := by
  cases s with
  | nil => simp [searchFrom, submatchHere, h]
  | cons x xs => simp [searchFrom, submatchHere, h]

/-- The geometry pattern on a line `geometry f1 f2 f3 f4 f5` of five numerals: the five
groups are the five fields. -/
theorem regGeometry_geometryLine (f1 f2 f3 f4 f5 : List Char)
    (h1 : IsNumeral f1) (h2 : IsNumeral f2) (h3 : IsNumeral f3) (h4 : IsNumeral f4)
    (h5 : IsNumeral f5) :
    ∃ w, regGeometry.FindSubmatch (geometryLine f1 f2 f3 f4 f5) = [w, f1, f2, f3, f4, f5] := by
  have sp : ∀ c ∈ [' '], isNonWord c = true := by
    intro c hc; simp at hc; subst hc; decide
  have dg : ∀ (t : List Char) (c : Char), c ∈ (' ' :: t).head? → isDigit c = false := by
    intro t c hc; simp at hc; subst hc; decide
  have m5 : matchHere [num] (f5 ++ []) = some ([], [f5]) :=
    matchHere_cap_run isDigit [] f5 [] ([], []) h5.1 h5.2 (by simp) (by simp [matchHere])
  have s5 := matchHere_plus_run isNonWord [num] [' '] (f5 ++ []) _ (by simp) sp
    (head_numeral_append f5 [] h5) m5
  have m4 := matchHere_cap_run isDigit [sep, num] f4 _ _ h4.1 h4.2 (dg _) s5
  have s4 := matchHere_plus_run isNonWord _ [' '] _ _ (by simp) sp
    (head_numeral_append f4 _ h4) m4
  have m3 := matchHere_cap_run isDigit _ f3 _ _ h3.1 h3.2 (dg _) s4
  have s3 := matchHere_plus_run isNonWord _ [' '] _ _ (by simp) sp
    (head_numeral_append f3 _ h3) m3
  have m2 := matchHere_cap_run isDigit _ f2 _ _ h2.1 h2.2 (dg _) s3
  have s2 := matchHere_plus_run isNonWord _ [' '] _ _ (by simp) sp
    (head_numeral_append f2 _ h2) m2
  have m1 := matchHere_cap_run isDigit _ f1 _ _ h1.1 h1.2 (dg _) s2
  have s1 := matchHere_plus_run isNonWord _ [' '] _ _ (by simp) sp
    (head_numeral_append f1 _ h1) m1
  have hm : matchHere regGeometry.atoms (geometryLine f1 f2 f3 f4 f5)
      = some ([], [f1, f2, f3, f4, f5]) := by
    simp only [regGeometry, word, geometryLine, List.map, List.cons_append, List.nil_append]
    rw [matchHere_lit_cons, matchHere_lit_cons, matchHere_lit_cons, matchHere_lit_cons,
      matchHere_lit_cons, matchHere_lit_cons, matchHere_lit_cons, matchHere_lit_cons]
    simpa [sep, num] using s1
  have hs := searchFrom_of_matchHere _ _ _ hm
  refine ⟨(geometryLine f1 f2 f3 f4 f5).take ((geometryLine f1 f2 f3 f4 f5).length - 0), ?_⟩
  simp only [Regexp.FindSubmatch]
  rw [if_neg (by simp [regGeometry]), hs]
  rfl

/-! ## A geometry directive with a field out of range -/

theorem dropWhile_prefix (p : Char → Bool) (r : List Char)
    (hr : ∀ c ∈ r.head?, p c = false) : ∀ (ind : List Char), (∀ c ∈ ind, p c = true) →
    (ind ++ r).dropWhile p = r
  | [], _ => by
    cases r with
    | nil => rfl
    | cons x xs => simp [List.dropWhile, hr x (by simp)]
  | c :: cs, h => by
    simp only [List.cons_append, List.dropWhile, h c (by simp)]
    exact dropWhile_prefix p r hr cs (fun x hx => h x (List.mem_cons_of_mem _ hx))

/-- White space around a text that starts and ends with other characters is what
`TrimSpace` removes. -/
theorem trimSpace_core (ind mid tr : List Char) (a z : Char)
    (hind : ∀ c ∈ ind, isSpace c = true) (htr : ∀ c ∈ tr, isSpace c = true)
    (ha : isSpace a = false) (hz : isSpace z = false) :
    trimSpace (ind ++ (a :: mid ++ [z]) ++ tr) = a :: mid ++ [z] := by
  unfold trimSpace
  rw [List.append_assoc, dropWhile_prefix isSpace _ (by simpa using ha) ind hind]
  have hrev : ((a :: mid ++ [z]) ++ tr).reverse = tr.reverse ++ (z :: (a :: mid).reverse) := by
    simp
  rw [hrev, dropWhile_prefix isSpace _ (by simpa using hz) tr.reverse
    (fun c hc => htr c (List.mem_reverse.1 hc))]
  simp

theorem isSpace_of_isDigit (c : Char) (h : isDigit c = true) : isSpace c = false := by
  simp only [isDigit, Bool.and_eq_true, decide_eq_true_eq] at h
  simp only [isSpace, Bool.or_eq_false_iff, Bool.and_eq_false_iff, decide_eq_false_iff_not]
  omega

theorem mem_geometryLine (f1 f2 f3 f4 f5 : List Char) (h1 : IsNumeral f1)
    (h2 : IsNumeral f2) (h3 : IsNumeral f3) (h4 : IsNumeral f4) (h5 : IsNumeral f5)
    (c : Char) (hc : c ∈ geometryLine f1 f2 f3 f4 f5) :
    c ∈ ['g', 'e', 'o', 'm', 't', 'r', 'y', ' '] ∨ isDigit c = true := by
  simp only [geometryLine, List.mem_append, List.mem_cons, List.mem_singleton,
    List.not_mem_nil, or_false] at hc ⊢
  rcases hc with ((((h | h) | h) | h) | h)
  · rcases h with h | h
    · rcases h with h | h | h | h | h | h | h | h | h <;> simp [h]
    · exact Or.inr (h1.2 c h)
  · rcases h with h | h
    · simp [h]
    · exact Or.inr (h2.2 c h)
  · rcases h with h | h
    · simp [h]
    · exact Or.inr (h3.2 c h)
  · rcases h with h | h
    · simp [h]
    · exact Or.inr (h4.2 c h)
  · rcases h with h | h
    · simp [h]
    · exact Or.inr (h5.2 c h)

theorem geometryLine_absent (f1 f2 f3 f4 f5 : List Char) (h1 : IsNumeral f1)
    (h2 : IsNumeral f2) (h3 : IsNumeral f3) (h4 : IsNumeral f4) (h5 : IsNumeral f5)
    (c : Char) (hc : c ∉ ['g', 'e', 'o', 'm', 't', 'r', 'y', ' ']) (hd : isDigit c = false) :
    c ∉ geometryLine f1 f2 f3 f4 f5 := by
  intro hmem
  rcases mem_geometryLine f1 f2 f3 f4 f5 h1 h2 h3 h4 h5 c hmem with h | h
  · exact hc h
  · rw [hd] at h; cases h

/-- A geometry match one of whose fields is a numeral above `2 ^ 31 - 1` makes a
`readInt` fail. -/
theorem setGeometry_error (dm : DisplayMode) (w f1 f2 f3 f4 f5 : List Char)
    (h1 : IsNumeral f1) (h2 : IsNumeral f2) (h3 : IsNumeral f3) (h4 : IsNumeral f4)
    (h5 : IsNumeral f5)
    (hbig : 2 ^ 31 ≤ natOfDigits f1 ∨ 2 ^ 31 ≤ natOfDigits f2 ∨ 2 ^ 31 ≤ natOfDigits f3
      ∨ 2 ^ 31 ≤ natOfDigits f4 ∨ 2 ^ 31 ≤ natOfDigits f5) :
    ∃ e, setGeometry dm [w, f1, f2, f3, f4, f5] = Except.error e := by
  have g1 : group [w, f1, f2, f3, f4, f5] 1 = f1 := rfl
  have g2 : group [w, f1, f2, f3, f4, f5] 2 = f2 := rfl
  have g3 : group [w, f1, f2, f3, f4, f5] 3 = f3 := rfl
  have g4 : group [w, f1, f2, f3, f4, f5] 4 = f4 := rfl
  have g5 : group [w, f1, f2, f3, f4, f5] 5 = f5 := rfl
  simp only [setGeometry, g1, g2, g3, g4, g5, readInt_numeral _ _ h1, readInt_numeral _ _ h2,
    readInt_numeral _ _ h3, readInt_numeral _ _ h4, readInt_numeral _ _ h5]
  by_cases c1 : natOfDigits f1 < 2147483648
  · by_cases c2 : natOfDigits f2 < 2147483648
    · by_cases c3 : natOfDigits f3 < 2147483648
      · by_cases c4 : natOfDigits f4 < 2147483648
        · by_cases c5 : natOfDigits f5 < 2147483648
          · exfalso
            norm_num at hbig
            omega
          · exact ⟨Error.rangeErr f5, by simp [c1, c2, c3, c4, c5, bind, Except.bind]⟩
        · exact ⟨Error.rangeErr f4, by simp [c1, c2, c3, c4, bind, Except.bind]⟩
      · exact ⟨Error.rangeErr f3, by simp [c1, c2, c3, bind, Except.bind]⟩
    · exact ⟨Error.rangeErr f2, by simp [c1, c2, bind, Except.bind]⟩
  · exact ⟨Error.rangeErr f1, by simp [c1, bind, Except.bind]⟩

/-- The loop body on an indented line `geometry f1 f2 f3 f4 f5` with a field above
`2 ^ 31 - 1`: no earlier directive takes the line, the geometry pattern matches it and
a `readInt` panics. -/
theorem parseLine_geometry_error (k : ModeFlags) (list : List DisplayMode) (dm : DisplayMode)
    (ind f1 f2 f3 f4 f5 : List Char) (hind : ∀ c ∈ ind, c = ' ' ∨ c = '\t')
    (h1 : IsNumeral f1) (h2 : IsNumeral f2) (h3 : IsNumeral f3) (h4 : IsNumeral f4)
    (h5 : IsNumeral f5)
    (hbig : 2 ^ 31 ≤ natOfDigits f1 ∨ 2 ^ 31 ≤ natOfDigits f2 ∨ 2 ^ 31 ≤ natOfDigits f3
      ∨ 2 ^ 31 ≤ natOfDigits f4 ∨ 2 ^ 31 ≤ natOfDigits f5) :
    ∃ e, parseLine k list dm (ind ++ geometryLine f1 f2 f3 f4 f5 ++ ['\n']) = Except.error e := by
  have abs := geometryLine_absent f1 f2 f3 f4 f5 h1 h2 h3 h4 h5
  have htrim : trimSpace (ind ++ geometryLine f1 f2 f3 f4 f5 ++ ['\n'])
      = geometryLine f1 f2 f3 f4 f5 := by
    rcases List.eq_nil_or_concat f5 with h0 | ⟨f5', z, hz⟩
    · exact absurd h0 h5.1
    · have hzd : isDigit z = true := h5.2 z (by simp [hz])
      have hshape : geometryLine f1 f2 f3 f4 f5
          = 'g' :: (['e', 'o', 'm', 'e', 't', 'r', 'y', ' '] ++ f1 ++ ' ' :: f2 ++ ' ' :: f3
              ++ ' ' :: f4 ++ ' ' :: f5') ++ [z] := by
        simp [geometryLine, hz]
      rw [hshape]
      refine trimSpace_core ind _ ['\n'] 'g' z ?_ ?_ (by decide) (isSpace_of_isDigit z hzd)
      · intro c hc
        rcases hind c hc with h | h <;> subst h <;> decide
      · intro c hc
        simp at hc
        subst hc
        decide
  obtain ⟨w, hgeo⟩ := regGeometry_geometryLine f1 f2 f3 f4 f5 h1 h2 h3 h4 h5
  obtain ⟨e, he⟩ := setGeometry_error dm w f1 f2 f3 f4 f5 h1 h2 h3 h4 h5 hbig
  have hlen : (geometryLine f1 f2 f3 f4 f5).length ≠ 0 := by simp [geometryLine]
  have hend : contains endmode (geometryLine f1 f2 f3 f4 f5) = false :=
    contains_false_of_absent 'n' endmode (by decide) _ (abs 'n' (by decide) (by decide))
  have hlabel : regLabel.FindSubmatch (geometryLine f1 f2 f3 f4 f5) = [] :=
    FindSubmatch_nil_of_absent '"' regLabel _ (by simp [regLabel, word, sep])
      (abs '"' (by decide) (by decide))
  have hnonstd : regNonstd.FindSubmatch (geometryLine f1 f2 f3 f4 f5) = [] :=
    FindSubmatch_nil_of_absent 'n' regNonstd _ (by simp [regNonstd, word, sep, num])
      (abs 'n' (by decide) (by decide))
  have hh : regHsync.Match (geometryLine f1 f2 f3 f4 f5) = false :=
    Match_false_of_absent 'h' regHsync _ (by simp [regHsync, word, sep])
      (abs 'h' (by decide) (by decide))
  have hv : regVsync.Match (geometryLine f1 f2 f3 f4 f5) = false :=
    Match_false_of_absent 'v' regVsync _ (by simp [regVsync, word, sep])
      (abs 'v' (by decide) (by decide))
  have hc : regCsync.Match (geometryLine f1 f2 f3 f4 f5) = false :=
    Match_false_of_absent 'c' regCsync _ (by simp [regCsync, word, sep])
      (abs 'c' (by decide) (by decide))
  have hg : regGsync.Match (geometryLine f1 f2 f3 f4 f5) = false :=
    Match_false_of_absent 's' regGsync _ (by simp [regGsync, word, sep])
      (abs 's' (by decide) (by decide))
  have hb : regBcast.Match (geometryLine f1 f2 f3 f4 f5) = false :=
    Match_false_of_absent 'b' regBcast _ (by simp [regBcast, word, sep])
      (abs 'b' (by decide) (by decide))
  have hx : regExtsync.Match (geometryLine f1 f2 f3 f4 f5) = false :=
    Match_false_of_absent 'x' regExtsync _ (by simp [regExtsync, word, sep])
      (abs 'x' (by decide) (by decide))
  have ha : regAccel.Match (geometryLine f1 f2 f3 f4 f5) = false :=
    Match_false_of_absent 'a' regAccel _ (by simp [regAccel, word, sep])
      (abs 'a' (by decide) (by decide))
  have hgr : regGrayscale.Match (geometryLine f1 f2 f3 f4 f5) = false :=
    Match_false_of_absent 'a' regGrayscale _ (by simp [regGrayscale, word, sep])
      (abs 'a' (by decide) (by decide))
  have hl : regLaced.Match (geometryLine f1 f2 f3 f4 f5) = false :=
    Match_false_of_absent 'l' regLaced _ (by simp [regLaced, word, sep])
      (abs 'l' (by decide) (by decide))
  have hd : regDouble.Match (geometryLine f1 f2 f3 f4 f5) = false :=
    Match_false_of_absent 'd' regDouble _ (by simp [regDouble, word, sep])
      (abs 'd' (by decide) (by decide))
  refine ⟨e, ?_⟩
  rw [parseLine_eq, htrim, if_neg hlen, hend]
  simp only [Bool.false_eq_true, if_false, lineDirective, hlabel, hnonstd, hh, hv, hc, hg, hb,
    hx, ha, hgr, hl, hd, List.length_nil, Nat.not_lt_zero, parseTail, hgeo]
  simp [he, bind, Except.bind, Except.map]

/-! ## Concatenating a catalog with itself -/

/-- C3, as stated, fails: the catalog below ends with a newline and parses without
error into one mode, yet the catalog concatenated with itself does not parse into that
mode twice: the directives after the last end marker leak into the second copy of
the next block. -/
theorem readFBModes_append_self_counterexample :
    (readFBModes linuxFlags
        ("mode \"a\"\nendmode\nmode \"b\"\ngeometry 1 2 3 4 5\n".toList
          ++ "mode \"a\"\nendmode\nmode \"b\"\ngeometry 1 2 3 4 5\n".toList)).1
      ≠ (readFBModes linuxFlags "mode \"a\"\nendmode\nmode \"b\"\ngeometry 1 2 3 4 5\n".toList).1
        ++ (readFBModes linuxFlags
              "mode \"a\"\nendmode\nmode \"b\"\ngeometry 1 2 3 4 5\n".toList).1 := by
  decide

/-- C3, amended: for every catalog text `T` that is empty or ends with a newline, that
parses without error and that leaves the mode under construction at its zero value
(nothing pending after the last end marker), `readFBModes` on `T` concatenated with itself returns, without
error, the modes of `T` followed by the modes of `T`: twice the length, values and
order preserved. Two calls on `T` return equal results because `readFBModes` is a
function of the text. -/
theorem readFBModes_append_self (k : ModeFlags) (T : List Char)
    (hnl : EndsWithNewline T) (herr : (readFBModes k T).2 = none)
    (hpend : pendingMode k T = {}) :
    readFBModes k (T ++ T) = ((readFBModes k T).1 ++ (readFBModes k T).1, none) ∧
    (readFBModes k (T ++ T)).1.length = 2 * (readFBModes k T).1.length := by
  have hcat : readFBModes k (T ++ T) = ((readFBModes k T).1 ++ (readFBModes k T).1, none) := by
    unfold readFBModes pendingMode at *
    simp only [] at herr hpend ⊢
    rw [readLines_append T T hnl, parseLoop_append, herr]
    simp only [hpend]
    rw [parseLoop_list]
    simp [herr]
  refine ⟨hcat, ?_⟩
  rw [hcat]
  simp [two_mul]

theorem readFBModes_append_self_witness :
    EndsWithNewline "mode \"a\"\ngeometry 1 2 3 4 5\nendmode\n".toList ∧
    readFBModes linuxFlags
        ("mode \"a\"\ngeometry 1 2 3 4 5\nendmode\n".toList
          ++ "mode \"a\"\ngeometry 1 2 3 4 5\nendmode\n".toList)
      = ((readFBModes linuxFlags "mode \"a\"\ngeometry 1 2 3 4 5\nendmode\n".toList).1
          ++ (readFBModes linuxFlags "mode \"a\"\ngeometry 1 2 3 4 5\nendmode\n".toList).1,
         none) :=
  ⟨by decide,
   (readFBModes_append_self linuxFlags "mode \"a\"\ngeometry 1 2 3 4 5\nendmode\n".toList
      (by decide) (by decide) (by decide)).1⟩

/-! ## Fail-fast parsing -/

/-- C1, as stated, fails: the second block below has a geometry directive with a
non-numeric field, yet `readFBModes` returns both modes and a nil error (the line
matches no pattern and is skipped). -/
theorem readFBModes_nonnumeric_geometry_counterexample :
    readFBModes linuxFlags
        "mode \"a\"\nendmode\nmode \"b\"\ngeometry 640 abc 640 480 8\nendmode\n".toList
      = ([{ Name := ['a'] }, { Name := ['b'] }], none) := by
  decide

/-- C1, amended: for every catalog text made of a prefix that is empty or ends with a
newline and parses without error, then a line `geometry f1 f2 f3 f4 f5` (indented by
spaces or tabs, the five fields decimal numerals separated by one space) with at
least one field above `2 ^ 31 - 1`, then a newline and any rest, `readFBModes` returns
a non-nil error together with the modes closed in the prefix: the modes already
closed are kept, and what follows the line is not read. -/
theorem readFBModes_geometry_out_of_range (k : ModeFlags) (pre post ind f1 f2 f3 f4 f5 : List Char)
    (hpre : EndsWithNewline pre) (hok : (readFBModes k pre).2 = none)
    (hind : ∀ c ∈ ind, c = ' ' ∨ c = '\t')
    (h1 : IsNumeral f1) (h2 : IsNumeral f2) (h3 : IsNumeral f3) (h4 : IsNumeral f4)
    (h5 : IsNumeral f5)
    (hbig : 2 ^ 31 ≤ natOfDigits f1 ∨ 2 ^ 31 ≤ natOfDigits f2 ∨ 2 ^ 31 ≤ natOfDigits f3
      ∨ 2 ^ 31 ≤ natOfDigits f4 ∨ 2 ^ 31 ≤ natOfDigits f5) :
    (readFBModes k (pre ++ (ind ++ geometryLine f1 f2 f3 f4 f5) ++ '\n' :: post)).2 ≠ none ∧
    (readFBModes k (pre ++ (ind ++ geometryLine f1 f2 f3 f4 f5) ++ '\n' :: post)).1
      = (readFBModes k pre).1 := by
  have hnl : '\n' ∉ ind ++ geometryLine f1 f2 f3 f4 f5 := by
    intro hmem
    rcases List.mem_append.1 hmem with h | h
    · rcases hind _ h with h' | h' <;> revert h' <;> decide
    · exact geometryLine_absent f1 f2 f3 f4 f5 h1 h2 h3 h4 h5 '\n' (by decide) (by decide) h
  have hlines : readLines (pre ++ (ind ++ geometryLine f1 f2 f3 f4 f5) ++ '\n' :: post)
      = readLines pre ++ (ind ++ geometryLine f1 f2 f3 f4 f5 ++ ['\n']) :: readLines post := by
    rw [List.append_assoc, readLines_append pre _ hpre, readLines_line _ post hnl]
  obtain ⟨e, he⟩ := parseLine_geometry_error k (parseLoop k (readLines pre) [] {}).1
    (parseLoop k (readLines pre) [] {}).2.1 ind f1 f2 f3 f4 f5 hind h1 h2 h3 h4 h5 hbig
  have hok' : (parseLoop k (readLines pre) [] {}).2.2 = none := hok
  have hrun : parseLoop k (readLines pre
        ++ (ind ++ geometryLine f1 f2 f3 f4 f5 ++ ['\n']) :: readLines post) [] {}
      = ((parseLoop k (readLines pre) [] {}).1, (parseLoop k (readLines pre) [] {}).2.1,
          some e) := by
    rw [parseLoop_append, hok']
    show parseLoop k ((ind ++ geometryLine f1 f2 f3 f4 f5 ++ ['\n']) :: readLines post)
      (parseLoop k (readLines pre) [] {}).1 (parseLoop k (readLines pre) [] {}).2.1 = _
    rw [parseLoop, he]
  have hres : readFBModes k (pre ++ (ind ++ geometryLine f1 f2 f3 f4 f5) ++ '\n' :: post)
      = ((parseLoop k (readLines pre) [] {}).1, some e) := by
    show ((parseLoop k (readLines _) [] {}).1, (parseLoop k (readLines _) [] {}).2.2) = _
    rw [hlines, hrun]
  rw [hres]
  exact ⟨by simp, rfl⟩

theorem readFBModes_geometry_out_of_range_witness :
    (readFBModes linuxFlags
        ("mode \"a\"\nendmode\nmode \"b\"\n".toList
          ++ ("    ".toList ++ geometryLine "640".toList "480".toList "640".toList
                "99999999999".toList "8".toList)
          ++ '\n' :: "endmode\n".toList)).2 ≠ none ∧
    (readFBModes linuxFlags
        ("mode \"a\"\nendmode\nmode \"b\"\n".toList
          ++ ("    ".toList ++ geometryLine "640".toList "480".toList "640".toList
                "99999999999".toList "8".toList)
          ++ '\n' :: "endmode\n".toList)).1
      = (readFBModes linuxFlags "mode \"a\"\nendmode\nmode \"b\"\n".toList).1 :=
  readFBModes_geometry_out_of_range linuxFlags "mode \"a\"\nendmode\nmode \"b\"\n".toList
    "endmode\n".toList "    ".toList "640".toList "480".toList "640".toList
    "99999999999".toList "8".toList (by decide) (by decide) (by decide) (by decide)
    (by decide) (by decide) (by decide) (by decide) (by decide)

/-! ## The last line of the input -/

/-- C2: the code at the failing input. The catalog below has one block, closed by an
end marker, and no newline after the marker; `readFBModes` returns no mode, because
the text `ReadBytes` delivers together with `io.EOF` is never looked at. With the
newline added the block is returned. -/
theorem readFBModes_unterminated_endmode :
    readFBModes linuxFlags "mode \"a\"\nendmode".toList = ([], none) ∧
    readFBModes linuxFlags "mode \"a\"\nendmode\n".toList = ([{ Name := ['a'] }], none) := by
  decide

theorem contains_nil_right (pat : List Char) (h : pat ≠ []) : contains pat [] = false := by
  cases pat with
  | nil => exact absurd rfl h
  | cons p ps => simp [contains, List.isPrefixOf]

theorem parseLoop_length (k : ModeFlags) : ∀ (lines : List (List Char))
    (list : List DisplayMode) (dm : DisplayMode),
    (parseLoop k lines list dm).2.2 = none →
    (parseLoop k lines list dm).1.length
      = list.length + (lines.filter (fun raw => contains endmode (trimSpace raw))).length
  | [], list, dm, _ => by simp [parseLoop]
  | raw :: rest, list, dm, h => by
    simp only [parseLoop] at h ⊢
    rw [parseLine_eq] at h ⊢
    by_cases h0 : (trimSpace raw).length = 0
    · have hnil : trimSpace raw = [] := List.length_eq_zero.1 h0
      have hc : contains endmode (trimSpace raw) = false := by
        rw [hnil]
        exact contains_nil_right endmode (by decide)
      simp only [h0, if_true] at h ⊢
      rw [parseLoop_length k rest list dm h]
      simp [List.filter, hc]
    · simp only [h0, if_false] at h ⊢
      by_cases h1 : contains endmode (trimSpace raw) = true
      · simp only [h1, if_true] at h ⊢
        rw [parseLoop_length k rest (list ++ [dm]) {} h]
        simp [List.filter, h1]
        omega
      · simp only [h1, if_false] at h ⊢
        have hc : contains endmode (trimSpace raw) = false := by simpa using h1
        cases hd : lineDirective k dm (trimSpace raw) with
        | error e => simp [hd, Except.map] at h
        | ok d =>
          simp only [hd, Except.map, Bool.false_eq_true, if_false] at h ⊢
          rw [parseLoop_length k rest list d h]
          simp [List.filter, hc]

/-- What the loop does by design: when `readFBModes` returns without error, it returns
one mode for each newline-terminated line that holds the end marker. -/
theorem readFBModes_length (k : ModeFlags) (text : List Char)
    (h : (readFBModes k text).2 = none) :
    (readFBModes k text).1.length = endMarkerLines text := by
  have := parseLoop_length k (readLines text) [] {} h
  simpa [readFBModes, endMarkerLines] using this

/-! ## The pixel format directive -/

/-- C4: the code at the failing input. The directive `rgba 8/16,8/8,8/0,0/0` gives the
returned mode the value 8 in all eight channel fields: each is read from the first
group, none from its own position. -/
theorem readFBModes_rgba_reuses_first_group :
    (readFBModes linuxFlags "mode \"m\"\n    rgba 8/16,8/8,8/0,0/0\nendmode\n".toList)
      = ([{ Name := ['m'],
            Format := { RedBits := 8, RedShift := 8, GreenBits := 8, GreenShift := 8,
                        BlueBits := 8, BlueShift := 8, AlphaBits := 8, AlphaShift := 8 } }],
         none) := by
  decide


/-! ## The log -/

theorem opened_append (a b : List Event) : opened (a ++ b) = opened a ++ opened b := by
  induction a with
  | nil => rfl
  | cons e rest ih =>
    cases e with
    | openFile p fl res => cases res <;> simp [opened, ih]
    | _ => simp [opened, ih]

theorem closed_append (a b : List Event) : closed (a ++ b) = closed a ++ closed b := by
  induction a with
  | nil => rfl
  | cons e rest ih => cases e <;> simp [closed, ih]

theorem mapped_append (a b : List Event) : mapped (a ++ b) = mapped a ++ mapped b := by
  induction a with
  | nil => rfl
  | cons e rest ih =>
    cases e with
    | mmap fd len res => cases res <;> simp [mapped, ih]
    | _ => simp [mapped, ih]

theorem unmapped_append (a b : List Event) :
    unmapped (a ++ b) = unmapped a ++ unmapped b := by
  induction a with
  | nil => rfl
  | cons e rest ih => cases e <;> simp [unmapped, ih]

theorem mapFailures_append (a b : List Event) :
    mapFailures (a ++ b) = mapFailures a ++ mapFailures b := by
  induction a with
  | nil => rfl
  | cons e rest ih =>
    cases e with
    | mmap fd len res => cases res <;> simp [mapFailures, ih]
    | _ => simp [mapFailures, ih]

theorem mapLengths_append (a b : List Event) :
    mapLengths (a ++ b) = mapLengths a ++ mapLengths b := by
  induction a with
  | nil => rfl
  | cons e rest ih => cases e <;> simp [mapLengths, ih]

/-! ## `Close` -/

@[simp] theorem ioctl_c {W : Type} (K : Kernel W) (fd : Nat) (r : Req) (arg : r.Arg)
    (st : St W) : (ioctl K fd r arg st).2.2.c = st.c := rfl

@[simp] theorem ioctl_log {W : Type} (K : Kernel W) (fd : Nat) (r : Req) (arg : r.Arg)
    (st : St W) : (ioctl K fd r arg st).2.2.log = st.log ++ [Event.ioctl fd r arg] := rfl

theorem closeMem_c {W : Type} (K : Kernel W) (st : St W) :
    (closeMem K st).c = { st.c with mem := none } := by
  unfold closeMem
  cases h : st.c.mem with
  | none =>
    simp only []
    cases hc : st.c
    simp [hc] at h
    simp [h]
  | some m => rfl

theorem closeFd_c {W : Type} (K : Kernel W) (k : Consts) (st : St W) :
    (closeFd K k st).2.c.fd = none ∧ (closeFd K k st).2.c.mem = st.c.mem ∧
      (closeFd K k st).2.c.tty = st.c.tty ∧
      (closeFd K k st).2.c.origVTNo = st.c.origVTNo := by
  unfold closeFd
  cases h : st.c.fd with
  | none => simp [h]
  | some f =>
    simp only []
    split_ifs <;> simp

theorem closeTty_c {W : Type} (K : Kernel W) (err : Option Error) (st : St W) :
    (closeTty K err st).2.c.tty = none ∧ (closeTty K err st).2.c.mem = st.c.mem ∧
      (closeTty K err st).2.c.fd = st.c.fd := by
  unfold closeTty
  cases h : st.c.tty with
  | none => simp [h]
  | some t =>
    simp only []
    split_ifs <;> simp

/-- After `Close` the canvas holds no mapping, no device handle and no terminal. -/
theorem Close_released {W : Type} (K : Kernel W) (k : Consts) (st : St W) :
    (Close K k st).2.c.mem = none ∧ (Close K k st).2.c.fd = none ∧
      (Close K k st).2.c.tty = none := by
  unfold Close
  obtain ⟨h1, h2, h3⟩ := closeTty_c K (closeFd K k (closeMem K st)).1
    (closeFd K k (closeMem K st)).2
  obtain ⟨g1, g2, g3, _⟩ := closeFd_c K k (closeMem K st)
  refine ⟨?_, ?_, h1⟩
  · rw [h2, g2, closeMem_c]
  · rw [h3, g1]

/-- On a canvas that holds nothing `Close` does nothing and returns nil. -/
theorem Close_of_released {W : Type} (K : Kernel W) (k : Consts) (st : St W)
    (hm : st.c.mem = none) (hf : st.c.fd = none) (ht : st.c.tty = none) :
    Close K k st = (none, st) := by
  simp [Close, closeMem, closeFd, closeTty, hm, hf, ht]

/-- C8: for every canvas, world and operating system, after a first `Close` the fields
`mem`, `fd` and `tty` are nil, and a second `Close` on that canvas, whatever the world
has become, returns a nil error and leaves canvas, world and log as they are: it
issues no unmap, no control call and no handle close. -/
theorem Close_idempotent {W : Type} (K : Kernel W) (k : Consts) (st : St W) (w : W)
    (log : List Event) :
    (Close K k st).2.c.mem = none ∧ (Close K k st).2.c.fd = none ∧
      (Close K k st).2.c.tty = none ∧
      Close K k { c := (Close K k st).2.c, world := w, log := log }
        = (none, { c := (Close K k st).2.c, world := w, log := log }) := by
  obtain ⟨h1, h2, h3⟩ := Close_released K k st
  exact ⟨h1, h2, h3, Close_of_released K k _ h1 h2 h3⟩

/-! ## The steps of `Open` and what they hold and release -/

attribute [simp] opened_append closed_append mapped_append unmapped_append mapFailures_append
  mapLengths_append opened closed mapped unmapped mapFailures mapLengths

theorem footprint_ioctl {W : Type} (K : Kernel W) (fd : Nat) (r : Req) (arg : r.Arg)
    (st : St W) : footprint (ioctl K fd r arg st).2.2 = footprint st := by
  simp [footprint]

theorem getFixInfo_footprint {W : Type} (K : Kernel W) (st : St W) :
    footprint (getFixInfo K st).2 = footprint st := by
  simp [footprint, getFixInfo]

theorem getVarInfo_footprint {W : Type} (K : Kernel W) (st : St W) :
    footprint (getVarInfo K st).2 = footprint st := by
  simp [footprint, getVarInfo]

theorem getPalette_footprint {W : Type} (K : Kernel W) (k : Consts) (st : St W) :
    footprint (getPalette K k st).2 = footprint st := by
  unfold getPalette
  split_ifs <;> simp [footprint]

theorem getTerminal_footprint {W : Type} (K : Kernel W) (st : St W) :
    footprint (getTerminal K st).2 = footprint st := by
  unfold getTerminal
  cases st.c.tty with
  | none => rfl
  | some t =>
    simp only []
    split_ifs <;> simp [footprint]

theorem setMode_footprint {W : Type} (K : Kernel W) (dm : Option DisplayMode) (st : St W) :
    footprint (setMode K dm st).2 = footprint st := by
  unfold setMode
  cases dm with
  | none => rfl
  | some m =>
    simp only []
    split_ifs <;> simp [footprint]

theorem checkPacked_footprint {W : Type} (k : Consts) (st : St W) :
    footprint (checkPacked k st).2 = footprint st := by
  unfold checkPacked
  split_ifs <;> rfl

theorem deriveLength_footprint {W : Type} (st : St W) :
    footprint (deriveLength st).2 = footprint st := rfl

theorem allocZero_footprint {W : Type} (st : St W) :
    footprint (allocZero st).2 = footprint st := rfl

theorem panToOrigin_footprint {W : Type} (K : Kernel W) (st : St W) :
    footprint (panToOrigin K st).2 = footprint st := by
  unfold panToOrigin
  split_ifs <;> simp [footprint]

theorem activateCurrent_footprint {W : Type} (K : Kernel W) (t : File) (st : St W) :
    footprint (activateCurrent K t st).2 = footprint st := by
  unfold activateCurrent
  simp only []
  split_ifs <;> simp [footprint]

theorem terminalGraphics_footprint {W : Type} (K : Kernel W) (k : Consts) (st : St W) :
    footprint (terminalGraphics K k st).2 = footprint st := by
  unfold terminalGraphics
  cases st.c.tty with
  | none => rfl
  | some t =>
    simp only []
    split_ifs
    · simp [footprint]
    · rw [activateCurrent_footprint, footprint_ioctl]

theorem Clear_footprint {W : Type} (K : Kernel W) (st : St W) :
    footprint (Clear K st).2 = footprint st := by
  unfold Clear
  cases st.c.mem with
  | none => rfl
  | some m => simp [footprint]

theorem runSteps_spec_nil {W : Type} (P : St W → Prop) (E : Error → St W → Prop) :
    StepSpec P (runSteps []) P E := by
  intro st h
  simp [runSteps, h]

theorem runSteps_spec_cons {W : Type} (P Q R : St W → Prop) (E : Error → St W → Prop)
    (f : Step W) (fs : List (Step W)) (hf : StepSpec P f Q E)
    (hfs : StepSpec Q (runSteps fs) R E) : StepSpec P (runSteps (f :: fs)) R E := by
  intro st h
  obtain ⟨he, hq⟩ := hf st h
  rcases hres : f st with ⟨err, st1⟩
  rw [hres] at he hq
  cases err with
  | some e =>
    simp only [runSteps, hres]
    exact ⟨fun e' h' => he e' h', fun h' => by cases h'⟩
  | none =>
    simp only [runSteps, hres]
    exact hfs st1 (hq rfl)

/-- Before the mapping: balanced, no mapping held, no mapping call failed. -/
theorem quiet_spec_unmapped {W : Type} (f : Step W)
    (hf : ∀ st, footprint (f st).2 = footprint st) :
    StepSpec (fun st => Balanced st ∧ st.c.mem = none ∧ mapFailures st.log = [])
      f (fun st => Balanced st ∧ st.c.mem = none ∧ mapFailures st.log = []) FailedWith := by
  intro st h
  have hfp := hf st
  simp only [footprint, Prod.mk.injEq] at hfp
  obtain ⟨h1, h2, h3, h4, h5, h6, h7, _⟩ := hfp
  have hb : Balanced (f st).2 := by
    unfold Balanced at h ⊢
    rw [h1, h2, h3, h4, h5, h6]
    exact h.1
  refine ⟨fun e _ => ⟨hb, ?_⟩, fun _ => ⟨hb, h2.trans h.2.1, h7.trans h.2.2⟩⟩
  rw [h7, h.2.2]
  intro e0 he0
  cases he0

/-- After the mapping: balanced, no mapping call failed. -/
theorem quiet_spec_mapped {W : Type} (f : Step W)
    (hf : ∀ st, footprint (f st).2 = footprint st) :
    StepSpec (fun st => Balanced st ∧ mapFailures st.log = [])
      f (fun st => Balanced st ∧ mapFailures st.log = []) FailedWith := by
  intro st h
  have hfp := hf st
  simp only [footprint, Prod.mk.injEq] at hfp
  obtain ⟨h1, h2, h3, h4, h5, h6, h7, _⟩ := hfp
  have hb : Balanced (f st).2 := by
    unfold Balanced at h ⊢
    rw [h1, h2, h3, h4, h5, h6]
    exact h.1
  refine ⟨fun e _ => ⟨hb, ?_⟩, fun _ => ⟨hb, h7.trans h.2⟩⟩
  rw [h7, h.2]
  intro e0 he0
  cases he0

theorem resolveDevice_spec {W : Type} (K : Kernel W) (k : Consts) :
    StepSpec
      (fun st => st.c.fd = none ∧ Balanced st ∧ st.c.mem = none ∧ mapFailures st.log = [])
      (resolveDevice K k)
      (fun st => st.c.fd = none ∧ Balanced st ∧ st.c.mem = none ∧ mapFailures st.log = [])
      FailedWith := by
  intro st h
  obtain ⟨hfd, hbal, hmem, hmf⟩ := h
  unfold Balanced at hbal
  rw [hfd, hmem] at hbal
  simp only [Option.toList, List.append_nil] at hbal
  obtain ⟨ho, hm⟩ := hbal
  unfold resolveDevice
  simp only []
  split_ifs with h1
  · split
    · simp [FailedWith, Balanced, hfd, hmem, hmf, ho, hm]
    · split_ifs with h2
      · simp [FailedWith, Balanced, hfd, hmem, hmf, ho, hm, h2]
      · split
        · simp_all [FailedWith, Balanced, openFile]
        · split_ifs with h3
          · simp_all [FailedWith, Balanced, openFile, closeFile]
          · simp_all [FailedWith, Balanced, openFile, closeFile]
  · simp [FailedWith, Balanced, hfd, hmem, hmf, ho, hm]

theorem openDevice_spec {W : Type} (K : Kernel W) :
    StepSpec
      (fun st => st.c.fd = none ∧ Balanced st ∧ st.c.mem = none ∧ mapFailures st.log = [])
      (openDevice K)
      (fun st => Balanced st ∧ st.c.mem = none ∧ mapFailures st.log = [])
      FailedWith := by
  intro st h
  obtain ⟨hfd, hbal, hmem, hmf⟩ := h
  unfold Balanced at hbal
  rw [hfd, hmem] at hbal
  simp only [Option.toList, List.append_nil] at hbal
  obtain ⟨ho, hm⟩ := hbal
  unfold openDevice
  simp only [openFile]
  cases hopen : (K.openFile st.c.dev O_RDWR st.world).1 with
  | error e => simp [FailedWith, Balanced, hopen, hmem, hmf, ho, hm]
  | ok f => simp [FailedWith, Balanced, hopen, hmem, hmf, ho, hm]

theorem mapMemory_spec {W : Type} (K : Kernel W) :
    StepSpec (fun st => Balanced st ∧ st.c.mem = none ∧ mapFailures st.log = [])
      (mapMemory K) (fun st => Balanced st ∧ mapFailures st.log = []) FailedWith := by
  intro st h
  obtain ⟨hbal, hmem, hmf⟩ := h
  obtain ⟨ho, hm⟩ := hbal
  rw [hmem] at hm
  simp only [Option.toList, List.append_nil] at hm
  unfold mapMemory
  simp only []
  cases hmap : (K.mmap (File.Fd st.c.fd) st.c.origFi.smemlen st.world).1 with
  | error e => simp [FailedWith, Balanced, hmap, hmem, hmf, ho, hm]
  | ok m => simp [FailedWith, Balanced, hmap, hmem, hmf, ho, hm]

/-- The statements of `Open`, run from a state that holds nothing: whichever step
returns with an error leaves a balanced state, and the error of a failed mapping call
is the returned one. -/
theorem openSteps_spec {W : Type} (K : Kernel W) (k : Consts) (dm : Option DisplayMode) :
    StepSpec
      (fun st => st.c.fd = none ∧ Balanced st ∧ st.c.mem = none ∧ mapFailures st.log = [])
      (runSteps (openSteps K k dm))
      (fun st => Balanced st ∧ mapFailures st.log = []) FailedWith := by
  unfold openSteps
  refine runSteps_spec_cons _ _ _ _ _ _ (resolveDevice_spec K k) ?_
  refine runSteps_spec_cons _ _ _ _ _ _ (openDevice_spec K) ?_
  refine runSteps_spec_cons _ _ _ _ _ _ (quiet_spec_unmapped _ (getFixInfo_footprint K)) ?_
  refine runSteps_spec_cons _ _ _ _ _ _ (quiet_spec_unmapped _ (getVarInfo_footprint K)) ?_
  refine runSteps_spec_cons _ _ _ _ _ _ (quiet_spec_unmapped _ (getPalette_footprint K k)) ?_
  refine runSteps_spec_cons _ _ _ _ _ _ (quiet_spec_unmapped _ (getTerminal_footprint K)) ?_
  refine runSteps_spec_cons _ _ _ _ _ _ (quiet_spec_unmapped _ (setMode_footprint K dm)) ?_
  refine runSteps_spec_cons _ _ _ _ _ _ (quiet_spec_unmapped _ (getFixInfo_footprint K)) ?_
  refine runSteps_spec_cons _ _ _ _ _ _ (quiet_spec_unmapped _ (checkPacked_footprint k)) ?_
  refine runSteps_spec_cons _ _ _ _ _ _ (quiet_spec_unmapped _ deriveLength_footprint) ?_
  refine runSteps_spec_cons _ _ _ _ _ _ (mapMemory_spec K) ?_
  refine runSteps_spec_cons _ _ _ _ _ _ (quiet_spec_mapped _ allocZero_footprint) ?_
  refine runSteps_spec_cons _ _ _ _ _ _ (quiet_spec_mapped _ (panToOrigin_footprint K)) ?_
  refine runSteps_spec_cons _ _ _ _ _ _ (quiet_spec_mapped _ (terminalGraphics_footprint K k)) ?_
  refine runSteps_spec_cons _ _ _ _ _ _ (quiet_spec_mapped _ (Clear_footprint K)) ?_
  exact runSteps_spec_nil _ _

theorem closeMem_footprint {W : Type} (K : Kernel W) (st : St W) :
    footprint (closeMem K st) =
      (st.c.fd, none, opened st.log, closed st.log, mapped st.log,
        unmapped st.log ++ st.c.mem.toList, mapFailures st.log, mapLengths st.log) := by
  unfold closeMem
  cases h : st.c.mem with
  | none => simp [footprint, h]
  | some m => simp [footprint]

theorem closeFd_footprint {W : Type} (K : Kernel W) (k : Consts) (st : St W) :
    footprint (closeFd K k st).2 =
      (none, st.c.mem, opened st.log, closed st.log ++ st.c.fd.toList, mapped st.log,
        unmapped st.log, mapFailures st.log, mapLengths st.log) := by
  unfold closeFd
  cases h : st.c.fd with
  | none => simp [footprint, h]
  | some f =>
    simp only []
    split_ifs <;> simp [footprint]

theorem closeTty_footprint {W : Type} (K : Kernel W) (err : Option Error) (st : St W) :
    footprint (closeTty K err st).2 = footprint st := by
  unfold closeTty
  cases h : st.c.tty with
  | none => rfl
  | some t =>
    simp only []
    split_ifs <;> simp [footprint]

theorem Close_footprint {W : Type} (K : Kernel W) (k : Consts) (st : St W) :
    footprint (Close K k st).2 =
      (none, none, opened st.log, closed st.log ++ st.c.fd.toList, mapped st.log,
        unmapped st.log ++ st.c.mem.toList, mapFailures st.log, mapLengths st.log) := by
  have h1 := closeTty_footprint K (closeFd K k (closeMem K st)).1 (closeFd K k (closeMem K st)).2
  have h2 := closeFd_footprint K k (closeMem K st)
  have h3 := closeMem_footprint K st
  unfold Close
  rw [h1, h2]
  simp only [footprint, Prod.mk.injEq] at h3
  obtain ⟨a1, a2, a3, a4, a5, a6, a7, a8⟩ := h3
  rw [a1, a2, a3, a4, a5, a6, a7, a8]

/-- What `Close` does to a balanced state: every file opened is closed, every mapping
made is unmapped, and no mapping call is added to the log. -/
theorem Close_balanced {W : Type} (K : Kernel W) (k : Consts) (st : St W)
    (hb : Balanced st) :
    opened (Close K k st).2.log = closed (Close K k st).2.log ∧
      mapped (Close K k st).2.log = unmapped (Close K k st).2.log ∧
      mapFailures (Close K k st).2.log = mapFailures st.log := by
  have h := Close_footprint K k st
  simp only [footprint, Prod.mk.injEq] at h
  obtain ⟨_, _, b3, b4, b5, b6, b7, _⟩ := h
  rw [b3, b4, b5, b6, b7]
  exact ⟨hb.1, hb.2, rfl⟩

theorem Close_mapLengths {W : Type} (K : Kernel W) (k : Consts) (st : St W) :
    mapLengths (Close K k st).2.log = mapLengths st.log := by
  have h := Close_footprint K k st
  simp only [footprint, Prod.mk.injEq] at h
  exact h.2.2.2.2.2.2.2

theorem openInit_holds_nothing {W : Type} (k : Consts) (tty : Option File) (w : W) :
    (openInit k tty w).c.fd = none ∧ Balanced (openInit k tty w) ∧
      (openInit k tty w).c.mem = none ∧ mapFailures (openInit k tty w).log = [] :=
  ⟨rfl, ⟨rfl, rfl⟩, rfl, rfl⟩

/-- C6: for every operating system, world, mode and terminal, when a stage of `Open`
fails with the error `e` (any stage: device resolution, opening the node, the info
queries, the palette and terminal snapshots, setMode, the layout check, the mapping,
the pan, the terminal mode switch, the VT activation), `Open` returns `e`, which is
not nil, and the canvas it leaves holds no device handle and no mapping (`fd` and
`mem` are nil); every file the log shows opened has been closed and every mapping
made has been unmapped; and when the log shows a failed mapping call, the returned
error is that mapping failure. -/
theorem Open_failure_releases {W : Type} (K : Kernel W) (k : Consts)
    (dm : Option DisplayMode) (tty : Option File) (w : W) (e : Error)
    (hfail : (runSteps (openSteps K k dm) (openInit k tty w)).1 = some e) :
    (Open K k dm tty w).1 = some e ∧
      (Open K k dm tty w).2.c.fd = none ∧ (Open K k dm tty w).2.c.mem = none ∧
      opened (Open K k dm tty w).2.log = closed (Open K k dm tty w).2.log ∧
      mapped (Open K k dm tty w).2.log = unmapped (Open K k dm tty w).2.log ∧
      ∀ e0 ∈ mapFailures (Open K k dm tty w).2.log,
        e = Error.wrap "Canvas.Open: Mmap failed: " e0 := by
  have hspec := (openSteps_spec K k dm (openInit k tty w) (openInit_holds_nothing k tty w)).1
    e hfail
  have hopen : Open K k dm tty w =
      (some e, (Close K k (runSteps (openSteps K k dm) (openInit k tty w)).2).2) := by
    simp [Open, hfail]
  obtain ⟨hbal, hmf⟩ := hspec
  obtain ⟨c1, c2, _⟩ := Close_released K k (runSteps (openSteps K k dm) (openInit k tty w)).2
  obtain ⟨d1, d2, d3⟩ := Close_balanced K k _ hbal
  rw [hopen]
  refine ⟨rfl, c2, c1, d1, d2, ?_⟩
  intro e0 he0
  exact hmf e0 (by simpa [d3] using he0)


set_option maxRecDepth 100000 in
theorem Open_failure_releases_witness :
    (runSteps (openSteps simKernel linuxConsts none) (openInit linuxConsts none mapFailDevice)).1
      = some (Error.wrap "Canvas.Open: Mmap failed: " (Error.sys 12)) ∧
    (Open simKernel linuxConsts none none mapFailDevice).1
      = some (Error.wrap "Canvas.Open: Mmap failed: " (Error.sys 12)) ∧
    (Open simKernel linuxConsts none none mapFailDevice).2.c.fd = none ∧
    (Open simKernel linuxConsts none none mapFailDevice).2.c.mem = none ∧
    opened (Open simKernel linuxConsts none none mapFailDevice).2.log = [{ fd := 3 }] ∧
    closed (Open simKernel linuxConsts none none mapFailDevice).2.log = [{ fd := 3 }] :=
  ⟨by decide,
   (Open_failure_releases simKernel linuxConsts none none mapFailDevice
      (Error.wrap "Canvas.Open: Mmap failed: " (Error.sys 12)) (by decide)).1,
   (Open_failure_releases simKernel linuxConsts none none mapFailDevice
      (Error.wrap "Canvas.Open: Mmap failed: " (Error.sys 12)) (by decide)).2.1,
   (Open_failure_releases simKernel linuxConsts none none mapFailDevice
      (Error.wrap "Canvas.Open: Mmap failed: " (Error.sys 12)) (by decide)).2.2.1,
   by decide, by decide⟩

/-! ## Rollback and the device's variable info -/

set_option maxRecDepth 100000 in
/-- C7: the code at the failing input. On a simulated device whose fixed-info query
fails, `Open` fails after the node has been opened and before the variable info has
been read; the deferred `Close` then issues the set-variable-info call with the zero
value of `origVi`, and the device, which reported 640 by 480 at 32 bits before `Open`,
is left with all-zero variable info. -/
theorem Open_rollback_writes_unread_varinfo :
    (Open simKernel linuxConsts none none fixFailDevice).1 = some (Error.sys 22) ∧
    opened (Open simKernel linuxConsts none none fixFailDevice).2.log = [{ fd := 3 }] ∧
    varInfoWrites (Open simKernel linuxConsts none none fixFailDevice).2.log = [{}] ∧
    (Open simKernel linuxConsts none none fixFailDevice).2.world.vi = {} ∧
    fixFailDevice.vi.xres = 640 ∧
    (Open simKernel linuxConsts none none fixFailDevice).2.world.vi ≠ fixFailDevice.vi := by
  decide

/-! ## Applying a mode and reading it back -/

theorem toUint32_of_fits (x : Int) (h : 0 ≤ x ∧ x < 2 ^ 32) : ((toUint32 x : Nat) : Int) = x := by
  unfold toUint32
  rw [Int.emod_eq_of_lt h.1 h.2, Int.toNat_of_nonneg h.1]

theorem setMode_c {W : Type} (K : Kernel W) (dm : Option DisplayMode) (st : St W) :
    (setMode K dm st).2.c = st.c := by
  unfold setMode
  cases dm with
  | none => rfl
  | some m =>
    simp only []
    split_ifs <;> rfl

set_option maxRecDepth 100000 in
/-- C9, as stated, fails: on the simulated device, which echoes back the variable info
it was last given, `setMode` succeeds on a mode whose width is 2 ^ 32, and
`CurrentMode` then returns a geometry that is not the mode's (the width comes back as
0). -/
theorem setMode_CurrentMode_counterexample :
    (setMode simKernel (some wideMode) (sessionOn plainDevice)).1 = none ∧
    (CurrentMode simKernel linuxConsts
        (setMode simKernel (some wideMode) (sessionOn plainDevice)).2).1.map
      DisplayMode.Geometry ≠ some wideMode.Geometry := by
  decide

/-- C9, amended: for every operating system, state and mode `m` whose geometry, timing,
sync and video-mode fields all lie between 0 and 2 ^ 32 - 1, when after `setMode m`
the device answers the variable-info query with the variable info `setMode` has just
written (it echoes what it was last given), `CurrentMode` returns without error a
mode whose Geometry, Timings, Sync and VMode are equal to those of `m`. -/
theorem setMode_CurrentMode_roundtrip {W : Type} (K : Kernel W) (k : Consts) (st : St W)
    (m : DisplayMode) (hfits : FitsUint32 m)
    (hget : (K.ioctl Req.IOGET_VSCREENINFO (File.Fd st.c.fd) {}
      (setMode K (some m) st).2.world).1 = none)
    (hecho : (K.ioctl Req.IOGET_VSCREENINFO (File.Fd st.c.fd) {}
      (setMode K (some m) st).2.world).2.1
        = applyMode (K.ioctl Req.IOGET_VSCREENINFO (File.Fd st.c.fd) {} st.world).2.1 m) :
    (CurrentMode K k (setMode K (some m) st).2).2.1 = none ∧
    ∃ m', (CurrentMode K k (setMode K (some m) st).2).1 = some m' ∧
      m'.Geometry = m.Geometry ∧ m'.Timings = m.Timings ∧ m'.Sync = m.Sync ∧
      m'.VMode = m.VMode := by
  obtain ⟨f1, f2, f3, f4, f5, f6, f7, f8, f9, f10, f11, f12, f13, f14⟩ := hfits
  have hc := setMode_c K (some m) st
  unfold CurrentMode
  simp only [ioctl, hc, hget, hecho, Option.isSome_none, Bool.false_eq_true, if_false]
  refine ⟨trivial, _, rfl, ?_, ?_, ?_, ?_⟩
  · simp only [applyMode, toUint32_of_fits _ f1, toUint32_of_fits _ f2,
      toUint32_of_fits _ f3, toUint32_of_fits _ f4, toUint32_of_fits _ f5]
  · simp only [applyMode, toUint32_of_fits _ f6, toUint32_of_fits _ f7,
      toUint32_of_fits _ f8, toUint32_of_fits _ f9, toUint32_of_fits _ f10,
      toUint32_of_fits _ f11, toUint32_of_fits _ f12]
  · simp only [applyMode, toUint32_of_fits _ f13]
  · simp only [applyMode, toUint32_of_fits _ f14]

set_option maxRecDepth 100000 in
theorem setMode_CurrentMode_roundtrip_witness :
    FitsUint32 sampleMode ∧
    (setMode simKernel (some sampleMode) (sessionOn plainDevice)).1 = none ∧
    (CurrentMode simKernel linuxConsts
        (setMode simKernel (some sampleMode) (sessionOn plainDevice)).2).2.1 = none ∧
    ∃ m', (CurrentMode simKernel linuxConsts
        (setMode simKernel (some sampleMode) (sessionOn plainDevice)).2).1 = some m' ∧
      m'.Geometry = sampleMode.Geometry ∧ m'.Timings = sampleMode.Timings ∧
      m'.Sync = sampleMode.Sync ∧ m'.VMode = sampleMode.VMode :=
  ⟨by decide, by decide,
   setMode_CurrentMode_roundtrip simKernel linuxConsts (sessionOn plainDevice) sampleMode
     (by decide) (by decide) rfl⟩

/-! ## The length of the mapping -/

set_option maxRecDepth 100000 in
/-- C10: the code at the failing input. The simulated device reports a mapped-memory
length of zero, no line-wrap step, 640 by 480 visible, 640 by 960 virtual and 8 bits
per pixel. `Open` with no mode succeeds and maps 307200 bytes, the visible width times
the visible height times the depth over 8, where the virtual resolution that
`CurrentMode` reports afterwards, the rectangle `Image` lays over the memory, takes
614400 bytes. `Open` with the 1024 by 768 mode at 16 bits succeeds and maps the same
307200 bytes, computed from the variable info read before the mode was applied, where
the virtual resolution `CurrentMode` reports afterwards takes 1572864 bytes. -/
theorem Open_maps_stale_visible_length :
    (Open simKernel linuxConsts none none panningDevice).1 = none ∧
    mapLengths (Open simKernel linuxConsts none none panningDevice).2.log = [307200] ∧
    (CurrentMode simKernel linuxConsts
        (Open simKernel linuxConsts none none panningDevice).2).1.map
      (fun m => m.Geometry.XVRes * m.Geometry.YVRes * m.Geometry.Depth / 8) = some 614400 ∧
    (Open simKernel linuxConsts (some sampleMode) none panningDevice).1 = none ∧
    mapLengths (Open simKernel linuxConsts (some sampleMode) none panningDevice).2.log
      = [307200] ∧
    (CurrentMode simKernel linuxConsts
        (Open simKernel linuxConsts (some sampleMode) none panningDevice).2).1.map
      (fun m => m.Geometry.XVRes * m.Geometry.YVRes * m.Geometry.Depth / 8)
      = some 1572864 := by
  decide

theorem runSteps_singleton {W : Type} (f : Step W) (st : St W) :
    runSteps [f] st = f st := by
  rcases h : f st with ⟨err, s1⟩
  cases err <;> simp [runSteps, h]

theorem mapMemory_mapLengths {W : Type} (K : Kernel W) (st : St W) :
    mapLengths (mapMemory K st).2.log = mapLengths st.log ++ [st.c.origFi.smemlen] := by
  unfold mapMemory
  simp only []
  split <;> simp

/-- The two steps of `Open` that settle the length and map the memory, on any
operating system: one mapping call, whose length is the reported length when that is
not zero and the derived one when it is. -/
theorem mapMemory_length {W : Type} (K : Kernel W) (st : St W) :
    mapLengths (runSteps [deriveLength, mapMemory K] st).2.log
      = mapLengths st.log ++ [deriveSmemlen st.c.origFi st.c.origVi] := by
  have h : runSteps [deriveLength, mapMemory K] st
      = runSteps [mapMemory K] (deriveLength st).2 := rfl
  rw [h, runSteps_singleton, mapMemory_mapLengths]
  rfl

/-- A step that leaves the footprint alone keeps the lengths of the mapping calls. -/
theorem quiet_spec_mapLengths {W : Type} (f : Step W) (L : List Nat)
    (hf : ∀ st, footprint (f st).2 = footprint st) :
    StepSpec (fun st => mapLengths st.log = L) f (fun st => mapLengths st.log = L)
      (fun _ st => mapLengths st.log = L) := by
  intro st h
  have hfp := hf st
  simp only [footprint, Prod.mk.injEq] at hfp
  have h8 := hfp.2.2.2.2.2.2.2
  exact ⟨fun _ _ => h8.trans h, fun _ => h8.trans h⟩

theorem sim_resolveDevice_spec (w : SimDev) (L : List Nat) (henv : w.env ≠ "") :
    StepSpec (fun st => st.world = w ∧ mapLengths st.log = [])
      (resolveDevice simKernel linuxConsts)
      (fun st => st.world = w ∧ mapLengths st.log = [])
      (fun _ st => mapLengths st.log = L) := by
  intro st h
  obtain ⟨hw, hl⟩ := h
  subst hw
  have hdev : simKernel.getenv "FRAMEBUFFER" st.world ≠ "" := by
    simpa [simKernel] using henv
  simp [resolveDevice, hdev, hl]

theorem sim_openDevice_spec (w : SimDev) (L : List Nat) :
    StepSpec (fun st => st.world = w ∧ mapLengths st.log = [])
      (openDevice simKernel)
      (fun st => st.world = w ∧ mapLengths st.log = [])
      (fun _ st => mapLengths st.log = L) := by
  intro st h
  obtain ⟨hw, hl⟩ := h
  simp [openDevice, openFile, simKernel, hw, hl]

theorem sim_getFixInfo_spec (w : SimDev) (L : List Nat) (hfail : w.failing = []) :
    StepSpec (fun st => st.world = w ∧ mapLengths st.log = [])
      (getFixInfo simKernel)
      (fun st => st.world = w ∧ mapLengths st.log = [])
      (fun _ st => mapLengths st.log = L) := by
  intro st h
  obtain ⟨hw, hl⟩ := h
  simp [getFixInfo, ioctl, simKernel, simIoctl, hw, hl, hfail]

theorem sim_getVarInfo_spec (w : SimDev) (L : List Nat) (hfail : w.failing = []) :
    StepSpec (fun st => st.world = w ∧ mapLengths st.log = [])
      (getVarInfo simKernel)
      (fun st => st.world = w ∧ mapLengths st.log = [] ∧ st.c.origVi = w.vi)
      (fun _ st => mapLengths st.log = L) := by
  intro st h
  obtain ⟨hw, hl⟩ := h
  simp [getVarInfo, ioctl, simKernel, simIoctl, hw, hl, hfail]

theorem sim_getPalette_spec (w : SimDev) (L : List Nat) (hfail : w.failing = []) :
    StepSpec (fun st => st.world = w ∧ mapLengths st.log = [] ∧ st.c.origVi = w.vi)
      (getPalette simKernel linuxConsts)
      (fun st => st.world = w ∧ mapLengths st.log = [] ∧ st.c.origVi = w.vi)
      (fun _ st => mapLengths st.log = L) := by
  intro st h
  obtain ⟨hw, hl, hv⟩ := h
  unfold getPalette
  split_ifs <;> simp [ioctl, simKernel, simIoctl, hw, hl, hv, hfail]

theorem sim_getTerminal_spec (w : SimDev) (L : List Nat) (hfail : w.failing = []) :
    StepSpec (fun st => st.world = w ∧ mapLengths st.log = [] ∧ st.c.origVi = w.vi)
      (getTerminal simKernel)
      (fun st => st.world = w ∧ mapLengths st.log = [] ∧ st.c.origVi = w.vi)
      (fun _ st => mapLengths st.log = L) := by
  intro st h
  obtain ⟨hw, hl, hv⟩ := h
  unfold getTerminal
  cases st.c.tty with
  | none => simp [hw, hl, hv]
  | some t => simp [ioctl, simKernel, simIoctl, hw, hl, hv, hfail]

theorem sim_setMode_spec (w : SimDev) (L : List Nat) (dm : Option DisplayMode)
    (hfail : w.failing = []) :
    StepSpec (fun st => st.world = w ∧ mapLengths st.log = [] ∧ st.c.origVi = w.vi)
      (setMode simKernel dm)
      (fun st => st.world.failing = [] ∧ st.world.fi = w.fi ∧ mapLengths st.log = [] ∧
        st.c.origVi = w.vi)
      (fun _ st => mapLengths st.log = L) := by
  intro st h
  obtain ⟨hw, hl, hv⟩ := h
  unfold setMode
  cases dm with
  | none => simp [hw, hl, hv, hfail]
  | some m => simp [ioctl, simKernel, simIoctl, hw, hl, hv, hfail]

theorem sim_getFixInfo_again_spec (w : SimDev) (L : List Nat) :
    StepSpec
      (fun st => st.world.failing = [] ∧ st.world.fi = w.fi ∧ mapLengths st.log = [] ∧
        st.c.origVi = w.vi)
      (getFixInfo simKernel)
      (fun st => mapLengths st.log = [] ∧ st.c.origVi = w.vi ∧ st.c.origFi = w.fi)
      (fun _ st => mapLengths st.log = L) := by
  intro st h
  obtain ⟨hf, hfi, hl, hv⟩ := h
  simp [getFixInfo, ioctl, simKernel, simIoctl, hf, hfi, hl, hv]

theorem sim_checkPacked_spec (w : SimDev) (L : List Nat)
    (hpacked : w.fi.typ = linuxConsts.TYPE_PACKED_PIXELS) :
    StepSpec
      (fun st : St SimDev => mapLengths st.log = [] ∧ st.c.origVi = w.vi ∧ st.c.origFi = w.fi)
      (checkPacked linuxConsts)
      (fun st => mapLengths st.log = [] ∧ st.c.origVi = w.vi ∧ st.c.origFi = w.fi)
      (fun _ st => mapLengths st.log = L) := by
  intro st h
  obtain ⟨hl, hv, hfi⟩ := h
  simp [checkPacked, hl, hv, hfi, hpacked]

theorem sim_deriveLength_spec (w : SimDev) (L : List Nat) :
    StepSpec
      (fun st : St SimDev => mapLengths st.log = [] ∧ st.c.origVi = w.vi ∧ st.c.origFi = w.fi)
      deriveLength
      (fun st => mapLengths st.log = [] ∧ st.c.origFi.smemlen = deriveSmemlen w.fi w.vi)
      (fun _ st => mapLengths st.log = L) := by
  intro st h
  obtain ⟨hl, hv, hfi⟩ := h
  simp [deriveLength, hl, hv, hfi]

theorem sim_mapMemory_spec {W : Type} (K : Kernel W) (n : Nat) :
    StepSpec (fun st => mapLengths st.log = [] ∧ st.c.origFi.smemlen = n)
      (mapMemory K)
      (fun st => mapLengths st.log = [n])
      (fun _ st => mapLengths st.log = [n]) := by
  intro st h
  obtain ⟨hl, hn⟩ := h
  have hm := mapMemory_mapLengths K st
  rw [hl, hn] at hm
  exact ⟨fun _ _ => hm, fun _ => hm⟩

/-- The statements of `Open` on a simulated device on which no control call fails: one
mapping call, of the derived length. -/
theorem sim_openSteps_spec (w : SimDev) (dm : Option DisplayMode)
    (hfail : w.failing = []) (henv : w.env ≠ "")
    (hpacked : w.fi.typ = linuxConsts.TYPE_PACKED_PIXELS) :
    StepSpec (fun st => st.world = w ∧ mapLengths st.log = [])
      (runSteps (openSteps simKernel linuxConsts dm))
      (fun st => mapLengths st.log = [deriveSmemlen w.fi w.vi])
      (fun _ st => mapLengths st.log = [deriveSmemlen w.fi w.vi]) := by
  unfold openSteps
  refine runSteps_spec_cons _ _ _ _ _ _ (sim_resolveDevice_spec w _ henv) ?_
  refine runSteps_spec_cons _ _ _ _ _ _ (sim_openDevice_spec w _) ?_
  refine runSteps_spec_cons _ _ _ _ _ _ (sim_getFixInfo_spec w _ hfail) ?_
  refine runSteps_spec_cons _ _ _ _ _ _ (sim_getVarInfo_spec w _ hfail) ?_
  refine runSteps_spec_cons _ _ _ _ _ _ (sim_getPalette_spec w _ hfail) ?_
  refine runSteps_spec_cons _ _ _ _ _ _ (sim_getTerminal_spec w _ hfail) ?_
  refine runSteps_spec_cons _ _ _ _ _ _ (sim_setMode_spec w _ dm hfail) ?_
  refine runSteps_spec_cons _ _ _ _ _ _ (sim_getFixInfo_again_spec w _) ?_
  refine runSteps_spec_cons _ _ _ _ _ _ (sim_checkPacked_spec w _ hpacked) ?_
  refine runSteps_spec_cons _ _ _ _ _ _ (sim_deriveLength_spec w _) ?_
  refine runSteps_spec_cons _ _ _ _ _ _ (sim_mapMemory_spec simKernel _) ?_
  refine runSteps_spec_cons _ _ _ _ _ _ (quiet_spec_mapLengths _ _ allocZero_footprint) ?_
  refine runSteps_spec_cons _ _ _ _ _ _
    (quiet_spec_mapLengths _ _ (panToOrigin_footprint simKernel)) ?_
  refine runSteps_spec_cons _ _ _ _ _ _
    (quiet_spec_mapLengths _ _ (terminalGraphics_footprint simKernel linuxConsts)) ?_
  refine runSteps_spec_cons _ _ _ _ _ _
    (quiet_spec_mapLengths _ _ (Clear_footprint simKernel)) ?_
  exact runSteps_spec_nil _ _

/-- What the code computes, on every simulated device on which no control call fails,
the environment names the device and the layout is packed pixels, for every mode and
terminal: `Open` issues one mapping call, and its length is the reported length when
that is not zero; otherwise, when the line-wrap step is zero, the visible width times
the visible height times the depth (a 32-bit product) over 8, and when the line-wrap
step is not zero, the line-wrap step times the visible height (a 32-bit product);
width, height and depth being those of the variable info read before the mode was
applied, not those of the mode in force when the memory is mapped. -/
theorem Open_mapping_length (w : SimDev) (dm : Option DisplayMode) (tty : Option File)
    (hfail : w.failing = []) (henv : w.env ≠ "")
    (hpacked : w.fi.typ = linuxConsts.TYPE_PACKED_PIXELS) :
    mapLengths (Open simKernel linuxConsts dm tty w).2.log =
      [if w.fi.smemlen = 0 then
         if w.fi.ywrapstep = 0 then (w.vi.xres * w.vi.yres * w.vi.bitsPerPixel) % 2 ^ 32 / 8
         else ((w.fi.ywrapstep % 2 ^ 32) * w.vi.yres) % 2 ^ 32
       else w.fi.smemlen] := by
  have hspec := sim_openSteps_spec w dm hfail henv hpacked (openInit linuxConsts tty w)
    ⟨rfl, rfl⟩
  have hgoal : mapLengths (Open simKernel linuxConsts dm tty w).2.log
      = [deriveSmemlen w.fi w.vi] := by
    unfold Open
    simp only []
    cases hr : (runSteps (openSteps simKernel linuxConsts dm) (openInit linuxConsts tty w)).1 with
    | none => exact hspec.2 hr
    | some e =>
      simp only []
      rw [Close_mapLengths]
      exact hspec.1 e hr
  rw [hgoal]
  rfl

set_option maxRecDepth 100000 in
theorem Open_mapping_length_witness :
    mapLengths (Open simKernel linuxConsts (some sampleMode) none panningDevice).2.log
      = [307200] :=
  Open_mapping_length panningDevice (some sampleMode) none (by decide) (by decide) (by decide)

/-! ## The palette -/

/-- A sample within the 16-bit range that `RGBA` promises is stored as zero by
`SetPalette`: nothing is left of it after the shift by 16. -/
theorem toUint16_shift_of_sample (x : Nat) (h : x ≤ 65535) : toUint16 (x / 2 ^ 16) = 0 := by
  unfold toUint16
  have : x / 2 ^ 16 = 0 := Nat.div_eq_of_lt (by omega)
  rw [this]
  rfl

set_option maxRecDepth 100000 in
/-- C5: the code at the failing input. On the simulated device, which stores and echoes
the channel tables, `SetPalette` of the one-entry palette holding opaque white (whose
samples are all 0xffff) succeeds, and `Palette` then returns, without error, 256
entries of which the first is transparent black: every sample was shifted right by
16 bits before it was stored, which leaves zero. -/
theorem SetPalette_Palette_loses_colour :
    NRGBA.RGBA { R := 255, G := 255, B := 255, A := 255 }
      = { r := 65535, g := 65535, b := 65535, a := 65535 } ∧
    (SetPalette simKernel [NRGBA.RGBA { R := 255, G := 255, B := 255, A := 255 }]
      (sessionOn plainDevice)).1 = none ∧
    (Palette simKernel
      (SetPalette simKernel [NRGBA.RGBA { R := 255, G := 255, B := 255, A := 255 }]
        (sessionOn plainDevice)).2).2.1 = none ∧
    (Palette simKernel
      (SetPalette simKernel [NRGBA.RGBA { R := 255, G := 255, B := 255, A := 255 }]
        (sessionOn plainDevice)).2).1.map List.length = some 256 ∧
    (Palette simKernel
      (SetPalette simKernel [NRGBA.RGBA { R := 255, G := 255, B := 255, A := 255 }]
        (sessionOn plainDevice)).2).1.map List.head?
      = some (some { R := 0, G := 0, B := 0, A := 0 }) := by
  decide

/-! ## What the groups of a match hold -/

theorem plusSplits_fst (cls : Char → Bool) : ∀ (s : List Char) (sp : List Char × List Char),
    sp ∈ plusSplits cls s → sp.1 ≠ [] ∧ ∀ c ∈ sp.1, cls c = true
  | [], sp, h => by simp [plusSplits] at h
  | c :: cs, sp, h => by
    by_cases hc : cls c = true
    · simp only [plusSplits, hc, if_true, List.mem_append, List.mem_map,
        List.mem_singleton] at h
      rcases h with ⟨sp', hsp', rfl⟩ | rfl
      · have ih := plusSplits_fst cls cs sp' hsp'
        refine ⟨by simp, ?_⟩
        intro x hx
        rcases List.mem_cons.1 hx with hx | hx
        · rw [hx]; exact hc
        · exact ih.2 x hx
      · refine ⟨by simp, ?_⟩
        intro x hx
        simp at hx
        rw [hx]; exact hc
    · simp [plusSplits, hc] at h

/-- The groups of a match of a pattern whose groups are all `(\d+)`: as many as the
pattern has, each a decimal numeral. -/
theorem matchHere_caps : ∀ (as : List Atom) (s : List Char)
    (r : List Char × List (List Char)), CapsAreDigits as → matchHere as s = some r →
    r.2.length = capCount as ∧ ∀ f ∈ r.2, IsNumeral f
  | [], s, r, _, h => by
    simp only [matchHere, Option.some.injEq] at h
    subst h
    simp [capCount]
  | Atom.lit c :: as, s, r, hd, h => by
    have hd' : CapsAreDigits as := fun cls hc => hd cls (List.mem_cons_of_mem _ hc)
    cases s with
    | nil => simp [matchHere] at h
    | cons x xs =>
      simp only [matchHere] at h
      split_ifs at h
      exact matchHere_caps as xs r hd' h
  | Atom.plus cls :: as, s, r, hd, h => by
    have hd' : CapsAreDigits as := fun cls hc => hd cls (List.mem_cons_of_mem _ hc)
    simp only [matchHere] at h
    obtain ⟨sp, _, hsp⟩ := List.exists_of_findSome?_eq_some h
    exact matchHere_caps as sp.2 r hd' hsp
  | Atom.cap cls :: as, s, r, hd, h => by
    have hd' : CapsAreDigits as := fun cls hc => hd cls (List.mem_cons_of_mem _ hc)
    have hcls : cls = isDigit := hd cls (by simp)
    simp only [matchHere] at h
    obtain ⟨sp, hmem, hsp⟩ := List.exists_of_findSome?_eq_some h
    cases hm : matchHere as sp.2 with
    | none => simp [hm] at hsp
    | some r' =>
      simp only [hm, Option.map_some', Option.some.injEq] at hsp
      subst hsp
      obtain ⟨hlen, hnum⟩ := matchHere_caps as sp.2 r' hd' hm
      obtain ⟨hne, hall⟩ := plusSplits_fst cls s sp hmem
      refine ⟨by simp [capCount, hlen], ?_⟩
      intro f hf
      rcases List.mem_cons.1 hf with hf | hf
      · rw [hf]
        exact ⟨hne, fun c hc => by rw [← hcls]; exact hall c hc⟩
      · exact hnum f hf

theorem searchFrom_some (as : List Atom) : ∀ (s : List Char) (m : List (List Char)),
    searchFrom as s = some m → ∃ s', submatchHere as s' = some m
  | [], m, h => ⟨[], by simpa [searchFrom] using h⟩
  | c :: cs, m, h => by
    simp only [searchFrom] at h
    cases hs : submatchHere as (c :: cs) with
    | some m' =>
      simp only [hs, Option.some.injEq] at h
      exact ⟨c :: cs, by rw [hs, h]⟩
    | none =>
      simp only [hs] at h
      exact searchFrom_some as cs m h

/-- The result of `FindSubmatch` for a pattern whose groups are all `(\d+)`: nil, or the
whole match followed by as many decimal numerals as the pattern has groups. -/
theorem FindSubmatch_shape (re : Regexp) (s : List Char) (hd : CapsAreDigits re.atoms) :
    (re.FindSubmatch s = [] ∧ re.Match s = false) ∨
    ∃ w caps, re.FindSubmatch s = w :: caps ∧ caps.length = capCount re.atoms ∧
      ∀ f ∈ caps, IsNumeral f := by
  unfold Regexp.FindSubmatch Regexp.Match
  cases hm : (if re.anchored then submatchHere re.atoms s else searchFrom re.atoms s) with
  | none => exact Or.inl ⟨rfl, rfl⟩
  | some m =>
    right
    have hex : ∃ s', submatchHere re.atoms s' = some m := by
      split_ifs at hm
      · exact ⟨s, hm⟩
      · exact searchFrom_some _ _ _ hm
    obtain ⟨s', hs'⟩ := hex
    unfold submatchHere at hs'
    cases hr : matchHere re.atoms s' with
    | none => simp [hr] at hs'
    | some r =>
      simp only [hr, Option.map_some', Option.some.injEq] at hs'
      obtain ⟨hlen, hnum⟩ := matchHere_caps re.atoms s' r hd hr
      exact ⟨s'.take (s'.length - r.1.length), r.2, by simp [← hs'], hlen, hnum⟩

/-! ## When a directive fails -/

/-- On a decimal numeral `readInt` panics, with a range error, exactly when the numeral
is out of range. -/
theorem readInt_of_numeral (f : List Char) (bits : Nat) (hf : IsNumeral f) :
    (OutOfRange bits f → readInt f bits = Except.error (Error.rangeErr f)) ∧
    (¬ OutOfRange bits f → readInt f bits = Except.ok (natOfDigits f : Int)) := by
  rw [readInt_numeral f bits hf]
  unfold OutOfRange
  constructor
  · intro h
    rw [if_neg (by omega)]
  · intro h
    rw [if_pos (by omega)]

theorem anyOutOfRange_zero (bits : Nat) (ms : List (List Char)) :
    ¬ AnyOutOfRange bits ms 0 := by
  rintro ⟨i, hlo, hhi, _⟩
  omega

theorem anyOutOfRange_succ (bits : Nat) (ms : List (List Char)) (n : Nat) :
    AnyOutOfRange bits ms (n + 1) ↔
      AnyOutOfRange bits ms n ∨ OutOfRange bits (group ms (n + 1)) := by
  constructor
  · rintro ⟨i, hlo, hhi, hi⟩
    rcases Nat.lt_or_ge i (n + 1) with hlt | hge
    · exact Or.inl ⟨i, hlo, Nat.lt_succ_iff.mp hlt, hi⟩
    · have hin : i = n + 1 := Nat.le_antisymm hhi hge
      subst hin
      exact Or.inr hi
  · rintro (⟨i, hlo, hhi, hi⟩ | hlast)
    · exact ⟨i, hlo, Nat.le_succ_of_le hhi, hi⟩
    · exact ⟨n + 1, Nat.succ_le_succ (Nat.zero_le n), Nat.le_refl _, hlast⟩

theorem anyOutOfRange_five (bits : Nat) (w f1 f2 f3 f4 f5 : List Char) :
    AnyOutOfRange bits [w, f1, f2, f3, f4, f5] 5 ↔
      OutOfRange bits f1 ∨ OutOfRange bits f2 ∨ OutOfRange bits f3 ∨ OutOfRange bits f4
        ∨ OutOfRange bits f5 := by
  show AnyOutOfRange bits [w, f1, f2, f3, f4, f5] (0 + 1 + 1 + 1 + 1 + 1) ↔ _
  simp only [anyOutOfRange_succ, anyOutOfRange_zero, false_or, or_assoc]
  exact Iff.rfl

theorem anyOutOfRange_seven (bits : Nat) (w f1 f2 f3 f4 f5 f6 f7 : List Char) :
    AnyOutOfRange bits [w, f1, f2, f3, f4, f5, f6, f7] 7 ↔
      OutOfRange bits f1 ∨ OutOfRange bits f2 ∨ OutOfRange bits f3 ∨ OutOfRange bits f4
        ∨ OutOfRange bits f5 ∨ OutOfRange bits f6 ∨ OutOfRange bits f7 := by
  show AnyOutOfRange bits [w, f1, f2, f3, f4, f5, f6, f7] (0 + 1 + 1 + 1 + 1 + 1 + 1 + 1) ↔ _
  simp only [anyOutOfRange_succ, anyOutOfRange_zero, false_or, or_assoc]
  exact Iff.rfl

/-- The geometry assignments on a match of five numerals: a range error when one of
them is out of range, a mode otherwise. -/
theorem setGeometry_char (dm : DisplayMode) (w f1 f2 f3 f4 f5 : List Char)
    (h1 : IsNumeral f1) (h2 : IsNumeral f2) (h3 : IsNumeral f3) (h4 : IsNumeral f4)
    (h5 : IsNumeral f5) :
    (AnyOutOfRange 32 [w, f1, f2, f3, f4, f5] 5 →
      ∃ f, IsNumeral f ∧ setGeometry dm [w, f1, f2, f3, f4, f5] = Except.error (Error.rangeErr f)) ∧
    (¬ AnyOutOfRange 32 [w, f1, f2, f3, f4, f5] 5 →
      ∃ dm', setGeometry dm [w, f1, f2, f3, f4, f5] = Except.ok dm') := by
  rw [anyOutOfRange_five]
  have g1 : group [w, f1, f2, f3, f4, f5] 1 = f1 := rfl
  have g2 : group [w, f1, f2, f3, f4, f5] 2 = f2 := rfl
  have g3 : group [w, f1, f2, f3, f4, f5] 3 = f3 := rfl
  have g4 : group [w, f1, f2, f3, f4, f5] 4 = f4 := rfl
  have g5 : group [w, f1, f2, f3, f4, f5] 5 = f5 := rfl
  simp only [setGeometry, g1, g2, g3, g4, g5]
  by_cases c1 : OutOfRange 32 f1
  · rw [(readInt_of_numeral f1 32 h1).1 c1]
    exact ⟨fun _ => ⟨f1, h1, rfl⟩, fun h => absurd (Or.inl c1) h⟩
  rw [(readInt_of_numeral f1 32 h1).2 c1]
  by_cases c2 : OutOfRange 32 f2
  · rw [(readInt_of_numeral f2 32 h2).1 c2]
    exact ⟨fun _ => ⟨f2, h2, rfl⟩, fun h => absurd (Or.inr (Or.inl c2)) h⟩
  rw [(readInt_of_numeral f2 32 h2).2 c2]
  by_cases c3 : OutOfRange 32 f3
  · rw [(readInt_of_numeral f3 32 h3).1 c3]
    exact ⟨fun _ => ⟨f3, h3, rfl⟩, fun h => absurd (Or.inr (Or.inr (Or.inl c3))) h⟩
  rw [(readInt_of_numeral f3 32 h3).2 c3]
  by_cases c4 : OutOfRange 32 f4
  · rw [(readInt_of_numeral f4 32 h4).1 c4]
    exact ⟨fun _ => ⟨f4, h4, rfl⟩, fun h => absurd (Or.inr (Or.inr (Or.inr (Or.inl c4)))) h⟩
  rw [(readInt_of_numeral f4 32 h4).2 c4]
  by_cases c5 : OutOfRange 32 f5
  · rw [(readInt_of_numeral f5 32 h5).1 c5]
    exact ⟨fun _ => ⟨f5, h5, rfl⟩,
      fun h => absurd (Or.inr (Or.inr (Or.inr (Or.inr c5)))) h⟩
  rw [(readInt_of_numeral f5 32 h5).2 c5]
  exact ⟨fun h => by tauto, fun _ => ⟨_, rfl⟩⟩

/-- The timings assignments on a match of seven numerals: a range error when one of
them is out of range, a mode otherwise. -/
theorem setTimings_char (dm : DisplayMode) (w f1 f2 f3 f4 f5 f6 f7 : List Char)
    (h1 : IsNumeral f1) (h2 : IsNumeral f2) (h3 : IsNumeral f3) (h4 : IsNumeral f4)
    (h5 : IsNumeral f5) (h6 : IsNumeral f6) (h7 : IsNumeral f7) :
    (AnyOutOfRange 32 [w, f1, f2, f3, f4, f5, f6, f7] 7 →
      ∃ f, IsNumeral f ∧ setTimings dm [w, f1, f2, f3, f4, f5, f6, f7] = Except.error (Error.rangeErr f)) ∧
    (¬ AnyOutOfRange 32 [w, f1, f2, f3, f4, f5, f6, f7] 7 →
      ∃ dm', setTimings dm [w, f1, f2, f3, f4, f5, f6, f7] = Except.ok dm') := by
  rw [anyOutOfRange_seven]
  have g1 : group [w, f1, f2, f3, f4, f5, f6, f7] 1 = f1 := rfl
  have g2 : group [w, f1, f2, f3, f4, f5, f6, f7] 2 = f2 := rfl
  have g3 : group [w, f1, f2, f3, f4, f5, f6, f7] 3 = f3 := rfl
  have g4 : group [w, f1, f2, f3, f4, f5, f6, f7] 4 = f4 := rfl
  have g5 : group [w, f1, f2, f3, f4, f5, f6, f7] 5 = f5 := rfl
  have g6 : group [w, f1, f2, f3, f4, f5, f6, f7] 6 = f6 := rfl
  have g7 : group [w, f1, f2, f3, f4, f5, f6, f7] 7 = f7 := rfl
  simp only [setTimings, g1, g2, g3, g4, g5, g6, g7]
  by_cases c1 : OutOfRange 32 f1
  · rw [(readInt_of_numeral f1 32 h1).1 c1]
    exact ⟨fun _ => ⟨f1, h1, rfl⟩, fun h => absurd (Or.inl c1) h⟩
  rw [(readInt_of_numeral f1 32 h1).2 c1]
  by_cases c2 : OutOfRange 32 f2
  · rw [(readInt_of_numeral f2 32 h2).1 c2]
    exact ⟨fun _ => ⟨f2, h2, rfl⟩, fun h => absurd (Or.inr (Or.inl c2)) h⟩
  rw [(readInt_of_numeral f2 32 h2).2 c2]
  by_cases c3 : OutOfRange 32 f3
  · rw [(readInt_of_numeral f3 32 h3).1 c3]
    exact ⟨fun _ => ⟨f3, h3, rfl⟩, fun h => absurd (Or.inr (Or.inr (Or.inl c3))) h⟩
  rw [(readInt_of_numeral f3 32 h3).2 c3]
  by_cases c4 : OutOfRange 32 f4
  · rw [(readInt_of_numeral f4 32 h4).1 c4]
    exact ⟨fun _ => ⟨f4, h4, rfl⟩, fun h => absurd (Or.inr (Or.inr (Or.inr (Or.inl c4)))) h⟩
  rw [(readInt_of_numeral f4 32 h4).2 c4]
  by_cases c5 : OutOfRange 32 f5
  · rw [(readInt_of_numeral f5 32 h5).1 c5]
    exact ⟨fun _ => ⟨f5, h5, rfl⟩, fun h => absurd (Or.inr (Or.inr (Or.inr (Or.inr (Or.inl c5))))) h⟩
  rw [(readInt_of_numeral f5 32 h5).2 c5]
  by_cases c6 : OutOfRange 32 f6
  · rw [(readInt_of_numeral f6 32 h6).1 c6]
    exact ⟨fun _ => ⟨f6, h6, rfl⟩, fun h => absurd (Or.inr (Or.inr (Or.inr (Or.inr (Or.inr (Or.inl c6)))))) h⟩
  rw [(readInt_of_numeral f6 32 h6).2 c6]
  by_cases c7 : OutOfRange 32 f7
  · rw [(readInt_of_numeral f7 32 h7).1 c7]
    exact ⟨fun _ => ⟨f7, h7, rfl⟩, fun h => absurd (Or.inr (Or.inr (Or.inr (Or.inr (Or.inr (Or.inr (c7))))))) h⟩
  rw [(readInt_of_numeral f7 32 h7).2 c7]
  exact ⟨fun h => by tauto, fun _ => ⟨_, rfl⟩⟩

/-- The pixel format assignments on a match whose first group is a numeral: a range
error when that group is above 127, a mode otherwise; the other groups are not read. -/
theorem setFormat_char (dm : DisplayMode) (w f1 : List Char) (rest : List (List Char))
    (h1 : IsNumeral f1) :
    (OutOfRange 8 (group (w :: f1 :: rest) 1) →
      ∃ f, IsNumeral f ∧ setFormat dm (w :: f1 :: rest) = Except.error (Error.rangeErr f)) ∧
    (¬ OutOfRange 8 (group (w :: f1 :: rest) 1) →
      ∃ dm', setFormat dm (w :: f1 :: rest) = Except.ok dm') := by
  have g1 : group (w :: f1 :: rest) 1 = f1 := rfl
  simp only [setFormat, g1]
  by_cases c1 : OutOfRange 8 f1
  · rw [(readInt_of_numeral f1 8 h1).1 c1]
    exact ⟨fun _ => ⟨f1, h1, rfl⟩, fun h => absurd c1 h⟩
  · rw [(readInt_of_numeral f1 8 h1).2 c1]
    exact ⟨fun h => absurd h c1, fun _ => ⟨_, rfl⟩⟩

theorem regNonstd_shape (line : List Char) :
    (regNonstd.FindSubmatch line = [] ∧ regNonstd.Match line = false) ∨
    ∃ w f1, regNonstd.FindSubmatch line = [w, f1] ∧ IsNumeral f1 := by
  rcases FindSubmatch_shape regNonstd line
    (by intro cls h; simp [regNonstd, word, sep, num] at h; exact h) with h | ⟨w, caps, h, hlen, hnum⟩
  · exact Or.inl h
  · right
    have hc : capCount regNonstd.atoms = 1 := rfl
    rw [hc] at hlen
    match caps, hlen, hnum with
    | [f1], _, hnum => exact ⟨w, f1, h, hnum f1 (by simp)⟩

theorem regGeometry_shape (line : List Char) :
    (regGeometry.FindSubmatch line = [] ∧ regGeometry.Match line = false) ∨
    ∃ w f1 f2 f3 f4 f5, regGeometry.FindSubmatch line = [w, f1, f2, f3, f4, f5] ∧
      IsNumeral f1 ∧ IsNumeral f2 ∧ IsNumeral f3 ∧ IsNumeral f4 ∧ IsNumeral f5 := by
  rcases FindSubmatch_shape regGeometry line
    (by intro cls h; simp [regGeometry, word, sep, num] at h; exact h) with h | ⟨w, caps, h, hlen, hnum⟩
  · exact Or.inl h
  · right
    have hc : capCount regGeometry.atoms = 5 := rfl
    rw [hc] at hlen
    match caps, hlen, hnum with
    | [f1, f2, f3, f4, f5], _, hnum =>
      exact ⟨w, f1, f2, f3, f4, f5, h, hnum f1 (by simp), hnum f2 (by simp), hnum f3 (by simp),
        hnum f4 (by simp), hnum f5 (by simp)⟩

theorem regTimings_shape (line : List Char) :
    (regTimings.FindSubmatch line = [] ∧ regTimings.Match line = false) ∨
    ∃ w f1 f2 f3 f4 f5 f6 f7,
      regTimings.FindSubmatch line = [w, f1, f2, f3, f4, f5, f6, f7] ∧
      IsNumeral f1 ∧ IsNumeral f2 ∧ IsNumeral f3 ∧ IsNumeral f4 ∧ IsNumeral f5 ∧
      IsNumeral f6 ∧ IsNumeral f7 := by
  rcases FindSubmatch_shape regTimings line
    (by intro cls h; simp [regTimings, word, sep, num] at h; exact h) with h | ⟨w, caps, h, hlen, hnum⟩
  · exact Or.inl h
  · right
    have hc : capCount regTimings.atoms = 7 := rfl
    rw [hc] at hlen
    match caps, hlen, hnum with
    | [f1, f2, f3, f4, f5, f6, f7], _, hnum =>
      exact ⟨w, f1, f2, f3, f4, f5, f6, f7, h, hnum f1 (by simp), hnum f2 (by simp),
        hnum f3 (by simp), hnum f4 (by simp), hnum f5 (by simp), hnum f6 (by simp),
        hnum f7 (by simp)⟩

theorem regFormat_shape (line : List Char) :
    (regFormat.FindSubmatch line = [] ∧ regFormat.Match line = false) ∨
    ∃ w f1 rest, regFormat.FindSubmatch line = w :: f1 :: rest ∧ IsNumeral f1 := by
  rcases FindSubmatch_shape regFormat line
    (by intro cls h; simp [regFormat, word, sep, num] at h; exact h) with h | ⟨w, caps, h, hlen, hnum⟩
  · exact Or.inl h
  · right
    have hc : capCount regFormat.atoms = 8 := rfl
    rw [hc] at hlen
    match caps, hlen, hnum with
    | f1 :: rest, _, hnum => exact ⟨w, f1, rest, h, hnum f1 (by simp)⟩

/-! ## When a line makes the loop fail -/

theorem geometryStep_char (dm : DisplayMode) (line : List Char) :
    ((1 < (regGeometry.FindSubmatch line).length ∧
        AnyOutOfRange 32 (regGeometry.FindSubmatch line) 5) →
      ∃ f, IsNumeral f ∧
        (if 1 < (regGeometry.FindSubmatch line).length
          then setGeometry dm (regGeometry.FindSubmatch line) else pure dm)
          = Except.error (Error.rangeErr f)) ∧
    (¬ (1 < (regGeometry.FindSubmatch line).length ∧
        AnyOutOfRange 32 (regGeometry.FindSubmatch line) 5) →
      ∃ dm', (if 1 < (regGeometry.FindSubmatch line).length
          then setGeometry dm (regGeometry.FindSubmatch line) else pure dm) = Except.ok dm') := by
  rcases regGeometry_shape line with ⟨h, _⟩ | ⟨w, f1, f2, f3, f4, f5, h, h1, h2, h3, h4, h5⟩
  · rw [h]
    exact ⟨fun hb => absurd hb.1 (by simp), fun _ => ⟨dm, by simp; rfl⟩⟩
  · rw [h]
    have hc := setGeometry_char dm w f1 f2 f3 f4 f5 h1 h2 h3 h4 h5
    have hl : 1 < [w, f1, f2, f3, f4, f5].length := by simp
    rw [if_pos hl]
    exact ⟨fun hb => hc.1 hb.2, fun hb => hc.2 (fun ha => hb ⟨hl, ha⟩)⟩

theorem timingsStep_char (dm : DisplayMode) (line : List Char) :
    ((1 < (regTimings.FindSubmatch line).length ∧
        AnyOutOfRange 32 (regTimings.FindSubmatch line) 7) →
      ∃ f, IsNumeral f ∧
        (if 1 < (regTimings.FindSubmatch line).length
          then setTimings dm (regTimings.FindSubmatch line) else pure dm)
          = Except.error (Error.rangeErr f)) ∧
    (¬ (1 < (regTimings.FindSubmatch line).length ∧
        AnyOutOfRange 32 (regTimings.FindSubmatch line) 7) →
      ∃ dm', (if 1 < (regTimings.FindSubmatch line).length
          then setTimings dm (regTimings.FindSubmatch line) else pure dm) = Except.ok dm') := by
  rcases regTimings_shape line with
    ⟨h, _⟩ | ⟨w, f1, f2, f3, f4, f5, f6, f7, h, h1, h2, h3, h4, h5, h6, h7⟩
  · rw [h]
    exact ⟨fun hb => absurd hb.1 (by simp), fun _ => ⟨dm, by simp; rfl⟩⟩
  · rw [h]
    have hc := setTimings_char dm w f1 f2 f3 f4 f5 f6 f7 h1 h2 h3 h4 h5 h6 h7
    have hl : 1 < [w, f1, f2, f3, f4, f5, f6, f7].length := by simp
    rw [if_pos hl]
    exact ⟨fun hb => hc.1 hb.2, fun hb => hc.2 (fun ha => hb ⟨hl, ha⟩)⟩

theorem formatStep_char (dm : DisplayMode) (line : List Char) :
    ((1 < (regFormat.FindSubmatch line).length ∧
        OutOfRange 8 (group (regFormat.FindSubmatch line) 1)) →
      ∃ f, IsNumeral f ∧
        (if 1 < (regFormat.FindSubmatch line).length
          then setFormat dm (regFormat.FindSubmatch line) else pure dm)
          = Except.error (Error.rangeErr f)) ∧
    (¬ (1 < (regFormat.FindSubmatch line).length ∧
        OutOfRange 8 (group (regFormat.FindSubmatch line) 1)) →
      ∃ dm', (if 1 < (regFormat.FindSubmatch line).length
          then setFormat dm (regFormat.FindSubmatch line) else pure dm) = Except.ok dm') := by
  rcases regFormat_shape line with ⟨h, _⟩ | ⟨w, f1, rest, h, h1⟩
  · rw [h]
    exact ⟨fun hb => absurd hb.1 (by simp), fun _ => ⟨dm, by simp; rfl⟩⟩
  · rw [h]
    have hc := setFormat_char dm w f1 rest h1
    have hl : 1 < (w :: f1 :: rest).length := by simp
    rw [if_pos hl]
    exact ⟨fun hb => hc.1 hb.2, fun hb => hc.2 (fun ha => hb ⟨hl, ha⟩)⟩

theorem parseTail_eq (dm : DisplayMode) (line : List Char) :
    parseTail dm line =
      ((if 1 < (regGeometry.FindSubmatch line).length
          then setGeometry dm (regGeometry.FindSubmatch line) else pure dm) >>= fun dm1 =>
        (if 1 < (regTimings.FindSubmatch line).length
          then setTimings dm1 (regTimings.FindSubmatch line) else pure dm1) >>= fun dm2 =>
        (if 1 < (regFormat.FindSubmatch line).length
          then setFormat dm2 (regFormat.FindSubmatch line) else pure dm2)) := by
  unfold parseTail
  by_cases h1 : 1 < (regGeometry.FindSubmatch line).length <;>
    by_cases h2 : 1 < (regTimings.FindSubmatch line).length <;>
    simp only [h1, h2, if_true, if_false]

theorem except_ok_bind {α β : Type} (a : α) (f : α → Except Error β) :
    (Except.ok a >>= f) = f a := rfl

theorem except_error_bind {α β : Type} (e : Error) (f : α → Except Error β) :
    ((Except.error e : Except Error α) >>= f) = Except.error e := rfl

/-- The tail of the loop body fails, with a range error on a numeral, exactly when a
group of the geometry or timings match, or the first group of the pixel format match,
is out of range. -/
theorem parseTail_char (dm : DisplayMode) (line : List Char) :
    (((1 < (regGeometry.FindSubmatch line).length ∧
          AnyOutOfRange 32 (regGeometry.FindSubmatch line) 5) ∨
      (1 < (regTimings.FindSubmatch line).length ∧
          AnyOutOfRange 32 (regTimings.FindSubmatch line) 7) ∨
      (1 < (regFormat.FindSubmatch line).length ∧
          OutOfRange 8 (group (regFormat.FindSubmatch line) 1))) →
      ∃ f, IsNumeral f ∧ parseTail dm line = Except.error (Error.rangeErr f)) ∧
    (¬ ((1 < (regGeometry.FindSubmatch line).length ∧
          AnyOutOfRange 32 (regGeometry.FindSubmatch line) 5) ∨
      (1 < (regTimings.FindSubmatch line).length ∧
          AnyOutOfRange 32 (regTimings.FindSubmatch line) 7) ∨
      (1 < (regFormat.FindSubmatch line).length ∧
          OutOfRange 8 (group (regFormat.FindSubmatch line) 1))) →
      ∃ dm', parseTail dm line = Except.ok dm') := by
  have hg := geometryStep_char dm line
  by_cases cG : 1 < (regGeometry.FindSubmatch line).length ∧
      AnyOutOfRange 32 (regGeometry.FindSubmatch line) 5
  · obtain ⟨f, hf, he⟩ := hg.1 cG
    refine ⟨fun _ => ⟨f, hf, ?_⟩, fun h => absurd (Or.inl cG) h⟩
    rw [parseTail_eq, he, except_error_bind]
  obtain ⟨dm1, e1⟩ := hg.2 cG
  have ht := timingsStep_char dm1 line
  by_cases cT : 1 < (regTimings.FindSubmatch line).length ∧
      AnyOutOfRange 32 (regTimings.FindSubmatch line) 7
  · obtain ⟨f, hf, he⟩ := ht.1 cT
    refine ⟨fun _ => ⟨f, hf, ?_⟩, fun h => absurd (Or.inr (Or.inl cT)) h⟩
    rw [parseTail_eq, e1, except_ok_bind, he, except_error_bind]
  obtain ⟨dm2, e2⟩ := ht.2 cT
  have hfm := formatStep_char dm2 line
  by_cases cF : 1 < (regFormat.FindSubmatch line).length ∧
      OutOfRange 8 (group (regFormat.FindSubmatch line) 1)
  · obtain ⟨f, hf, he⟩ := hfm.1 cF
    refine ⟨fun _ => ⟨f, hf, ?_⟩, fun h => absurd (Or.inr (Or.inr cF)) h⟩
    rw [parseTail_eq, e1, except_ok_bind, e2, except_ok_bind, he]
  obtain ⟨dm3, e3⟩ := hfm.2 cF
  refine ⟨fun h => ?_, fun _ => ⟨dm3, ?_⟩⟩
  · rcases h with h | h | h
    · exact absurd h cG
    · exact absurd h cT
    · exact absurd h cF
  · rw [parseTail_eq, e1, except_ok_bind, e2, except_ok_bind, e3]

/-- The directive part of the loop body, on a line that is not blank and holds no end
marker, fails, with a range error on a numeral, exactly on an overflow line. -/
theorem lineDirective_char (k : ModeFlags) (dm : DisplayMode) (line : List Char)
    (hlen : line.length ≠ 0) (hend : contains endmode line = false) :
    (OverflowLine line →
      ∃ f, IsNumeral f ∧ lineDirective k dm line = Except.error (Error.rangeErr f)) ∧
    (¬ OverflowLine line → ∃ dm', lineDirective k dm line = Except.ok dm') := by
  unfold lineDirective
  by_cases cl : 1 < (regLabel.FindSubmatch line).length
  · simp only [cl, if_true]
    refine ⟨fun h => ?_, fun _ => ⟨_, rfl⟩⟩
    simp only [OverflowLine, ReachesTail, ReachesNonstd] at h
    rcases h with h | h
    · exact absurd cl h.1.2.2
    · exact absurd cl h.1.1.2.2
  simp only [cl, if_false]
  have hreach : ReachesNonstd line := ⟨hlen, hend, cl⟩
  by_cases cn : 1 < (regNonstd.FindSubmatch line).length
  · simp only [cn, if_true]
    rcases regNonstd_shape line with ⟨h, _⟩ | ⟨w, f1, h, h1⟩
    · rw [h] at cn
      simp at cn
    · have g1 : group (regNonstd.FindSubmatch line) 1 = f1 := by rw [h]; rfl
      have hover : OverflowLine line ↔ OutOfRange 32 f1 := by
        simp only [OverflowLine, ReachesTail, g1]
        constructor
        · rintro (h' | h')
          · exact h'.2.2
          · exact absurd cn h'.1.2.1
        · intro h'
          exact Or.inl ⟨hreach, cn, h'⟩
      rw [hover, g1]
      by_cases c1 : OutOfRange 32 f1
      · rw [(readInt_of_numeral f1 32 h1).1 c1]
        exact ⟨fun _ => ⟨f1, h1, rfl⟩, fun h' => absurd c1 h'⟩
      · rw [(readInt_of_numeral f1 32 h1).2 c1]
        exact ⟨fun h' => absurd h' c1, fun _ => ⟨_, rfl⟩⟩
  simp only [cn, if_false]
  by_cases c0 : regHsync.Match line = true
  · simp only [c0, if_true]
    refine ⟨fun h => ?_, fun _ => ⟨_, rfl⟩⟩
    simp only [OverflowLine, ReachesTail, c0] at h
    rcases h with h | h
    · exact absurd h.2.1 cn
    · simp at h
  simp only [c0, if_false]
  have d0 : regHsync.Match line = false := by simpa using c0
  by_cases c1 : regVsync.Match line = true
  · simp only [c1, if_true]
    refine ⟨fun h => ?_, fun _ => ⟨_, rfl⟩⟩
    simp only [OverflowLine, ReachesTail, c1] at h
    rcases h with h | h
    · exact absurd h.2.1 cn
    · simp at h
  simp only [c1, if_false]
  have d1 : regVsync.Match line = false := by simpa using c1
  by_cases c2 : regCsync.Match line = true
  · simp only [c2, if_true]
    refine ⟨fun h => ?_, fun _ => ⟨_, rfl⟩⟩
    simp only [OverflowLine, ReachesTail, c2] at h
    rcases h with h | h
    · exact absurd h.2.1 cn
    · simp at h
  simp only [c2, if_false]
  have d2 : regCsync.Match line = false := by simpa using c2
  by_cases c3 : regGsync.Match line = true
  · simp only [c3, if_true]
    refine ⟨fun h => ?_, fun _ => ⟨_, rfl⟩⟩
    simp only [OverflowLine, ReachesTail, c3] at h
    rcases h with h | h
    · exact absurd h.2.1 cn
    · simp at h
  simp only [c3, if_false]
  have d3 : regGsync.Match line = false := by simpa using c3
  by_cases c4 : regBcast.Match line = true
  · simp only [c4, if_true]
    refine ⟨fun h => ?_, fun _ => ⟨_, rfl⟩⟩
    simp only [OverflowLine, ReachesTail, c4] at h
    rcases h with h | h
    · exact absurd h.2.1 cn
    · simp at h
  simp only [c4, if_false]
  have d4 : regBcast.Match line = false := by simpa using c4
  by_cases c5 : regExtsync.Match line = true
  · simp only [c5, if_true]
    refine ⟨fun h => ?_, fun _ => ⟨_, rfl⟩⟩
    simp only [OverflowLine, ReachesTail, c5] at h
    rcases h with h | h
    · exact absurd h.2.1 cn
    · simp at h
  simp only [c5, if_false]
  have d5 : regExtsync.Match line = false := by simpa using c5
  by_cases c6 : regAccel.Match line = true
  · simp only [c6, if_true]
    refine ⟨fun h => ?_, fun _ => ⟨_, rfl⟩⟩
    simp only [OverflowLine, ReachesTail, c6] at h
    rcases h with h | h
    · exact absurd h.2.1 cn
    · simp at h
  simp only [c6, if_false]
  have d6 : regAccel.Match line = false := by simpa using c6
  by_cases c7 : regGrayscale.Match line = true
  · simp only [c7, if_true]
    refine ⟨fun h => ?_, fun _ => ⟨_, rfl⟩⟩
    simp only [OverflowLine, ReachesTail, c7] at h
    rcases h with h | h
    · exact absurd h.2.1 cn
    · simp at h
  simp only [c7, if_false]
  have d7 : regGrayscale.Match line = false := by simpa using c7
  by_cases c8 : regLaced.Match line = true
  · simp only [c8, if_true]
    refine ⟨fun h => ?_, fun _ => ⟨_, rfl⟩⟩
    simp only [OverflowLine, ReachesTail, c8] at h
    rcases h with h | h
    · exact absurd h.2.1 cn
    · simp at h
  simp only [c8, if_false]
  have d8 : regLaced.Match line = false := by simpa using c8
  by_cases c9 : regDouble.Match line = true
  · simp only [c9, if_true]
    refine ⟨fun h => ?_, fun _ => ⟨_, rfl⟩⟩
    simp only [OverflowLine, ReachesTail, c9] at h
    rcases h with h | h
    · exact absurd h.2.1 cn
    · simp at h
  simp only [c9, if_false]
  have d9 : regDouble.Match line = false := by simpa using c9
  have htail : ReachesTail line := ⟨hreach, cn, d0, d1, d2, d3, d4, d5, d6, d7, d8, d9⟩
  have hover : OverflowLine line ↔
      ((1 < (regGeometry.FindSubmatch line).length ∧
          AnyOutOfRange 32 (regGeometry.FindSubmatch line) 5) ∨
      (1 < (regTimings.FindSubmatch line).length ∧
          AnyOutOfRange 32 (regTimings.FindSubmatch line) 7) ∨
      (1 < (regFormat.FindSubmatch line).length ∧
          OutOfRange 8 (group (regFormat.FindSubmatch line) 1))) := by
    simp only [OverflowLine]
    constructor
    · rintro (h' | h')
      · exact absurd h'.2.1 cn
      · exact h'.2
    · intro h'
      exact Or.inr ⟨htail, h'⟩
  rw [hover]
  exact parseTail_char dm line

theorem not_overflowLine_of_blank (line : List Char) (h : line.length = 0) :
    ¬ OverflowLine line := by
  intro ho
  rcases ho with ho | ho
  · exact ho.1.1 h
  · exact ho.1.1.1 h

theorem not_overflowLine_of_endmode (line : List Char) (h : contains endmode line = true) :
    ¬ OverflowLine line := by
  intro ho
  rcases ho with ho | ho
  · have := ho.1.2.1
    rw [h] at this
    exact Bool.noConfusion this
  · have := ho.1.1.2.1
    rw [h] at this
    exact Bool.noConfusion this

/-- One pass through the loop body fails, with a range error on a numeral, exactly when
the trimmed line is an overflow line, whatever the list and the mode under
construction. -/
theorem parseLine_char (k : ModeFlags) (list : List DisplayMode) (dm : DisplayMode)
    (raw : List Char) :
    (OverflowLine (trimSpace raw) →
      ∃ f, IsNumeral f ∧ parseLine k list dm raw = Except.error (Error.rangeErr f)) ∧
    (¬ OverflowLine (trimSpace raw) → ∃ st, parseLine k list dm raw = Except.ok st) := by
  rw [parseLine_eq]
  by_cases h0 : (trimSpace raw).length = 0
  · rw [if_pos h0]
    exact ⟨fun h => absurd h (not_overflowLine_of_blank _ h0), fun _ => ⟨_, rfl⟩⟩
  rw [if_neg h0]
  by_cases h1 : contains endmode (trimSpace raw) = true
  · rw [if_pos h1]
    exact ⟨fun h => absurd h (not_overflowLine_of_endmode _ h1), fun _ => ⟨_, rfl⟩⟩
  rw [if_neg h1]
  have h1f : contains endmode (trimSpace raw) = false := by simpa using h1
  have hd := lineDirective_char k dm (trimSpace raw) h0 h1f
  constructor
  · intro ho
    obtain ⟨f, hf, he⟩ := hd.1 ho
    exact ⟨f, hf, by rw [he]; rfl⟩
  · intro ho
    obtain ⟨d, he⟩ := hd.2 ho
    exact ⟨(list, d), by rw [he]; rfl⟩

/-- The loop is left with an error exactly when one of its lines, trimmed, is an
overflow line, and the error is then a range error on a numeral. -/
theorem parseLoop_char (k : ModeFlags) :
    ∀ (lines : List (List Char)) (list : List DisplayMode) (dm : DisplayMode),
      ((parseLoop k lines list dm).2.2 ≠ none ↔
        ∃ raw ∈ lines, OverflowLine (trimSpace raw)) ∧
      (∀ e, (parseLoop k lines list dm).2.2 = some e →
        ∃ f, IsNumeral f ∧ e = Error.rangeErr f)
  | [], list, dm => by
    refine ⟨⟨fun h => absurd rfl h, ?_⟩, ?_⟩
    · rintro ⟨raw, hmem, _⟩
      exact absurd hmem (List.not_mem_nil raw)
    · intro e he
      exact Option.noConfusion he
  | raw :: rest, list, dm => by
    have hc := parseLine_char k list dm raw
    by_cases ho : OverflowLine (trimSpace raw)
    · obtain ⟨f, hf, he⟩ := hc.1 ho
      have hl : parseLoop k (raw :: rest) list dm = (list, dm, some (Error.rangeErr f)) := by
        simp only [parseLoop, he]
      rw [hl]
      refine ⟨⟨fun _ => ⟨raw, List.mem_cons_self raw rest, ho⟩, fun _ => by simp⟩, ?_⟩
      intro e hsome
      exact ⟨f, hf, (Option.some.inj hsome).symm⟩
    · obtain ⟨st, he⟩ := hc.2 ho
      have hl : parseLoop k (raw :: rest) list dm = parseLoop k rest st.1 st.2 := by
        simp only [parseLoop, he]
      rw [hl]
      have ih := parseLoop_char k rest st.1 st.2
      refine ⟨ih.1.trans ⟨?_, ?_⟩, ih.2⟩
      · rintro ⟨r, hmem, hr⟩
        exact ⟨r, List.mem_cons_of_mem raw hmem, hr⟩
      · rintro ⟨r, hmem, hr⟩
        rcases List.mem_cons.mp hmem with rfl | hmem
        · exact absurd hr ho
        · exact ⟨r, hmem, hr⟩

/-- C11, as stated, fails: each of the three lines below has a token that is not a
decimal numeral in a numeric position (`2147483648abc`, `-99999999999`,
`99999999999abc`), yet the pattern matches, captures the run of digits inside the token,
and `readFBModes` returns a range error. -/
theorem readFBModes_nondigit_token_counterexample :
    (readFBModes linuxFlags "nonstd 2147483648abc\n".toList).2
      = some (Error.rangeErr "2147483648".toList) ∧
    (readFBModes linuxFlags "nonstd -99999999999\n".toList).2
      = some (Error.rangeErr "99999999999".toList) ∧
    (readFBModes linuxFlags "geometry 1 2 3 4 99999999999abc\n".toList).2
      = some (Error.rangeErr "99999999999".toList) := by
  decide

/-- C11, amended: for every catalog text, delivered by a reader that fails only with
end of input, `readFBModes` returns a non-nil error if and only if some
newline-terminated line, trimmed, is an overflow line: a line that is not blank, holds
no end marker, is not matched by the label pattern, and on which either the nonstd
pattern matches with its captured group at least 2^31, or neither the nonstd pattern nor any of the ten flag
patterns matches and the geometry or the timings pattern matches with one of its
captured groups at least 2^31, or the rgba pattern matches with its first captured
group at least 128. The captured group is the run of digits the unanchored pattern
finds on the line, whatever surrounds it. The error returned is always the range error
of a decimal numeral, never a syntax error. -/
theorem readFBModes_error_iff (k : ModeFlags) (text : List Char) :
    ((readFBModes k text).2 ≠ none ↔
      ∃ raw ∈ readLines text, OverflowLine (trimSpace raw)) ∧
    (∀ e, (readFBModes k text).2 = some e → ∃ f, IsNumeral f ∧ e = Error.rangeErr f) :=
  parseLoop_char k (readLines text) [] {}

/-- The bounds at work: the first rgba field is read with 8 bits, so 127 passes and 128
is a range error; the nonstd field is read with 32 bits, so 2^31 - 1 passes and 2^31 is
a range error; the two lines of the last text, in which no digit follows the keyword,
match no pattern and raise nothing. -/
theorem readFBModes_range_boundaries :
    (readFBModes linuxFlags "rgba 127/0,8/0,8/0,0/0\n".toList).2 = none ∧
    (readFBModes linuxFlags "rgba 128/0,8/0,8/0,0/0\n".toList).2
      = some (Error.rangeErr "128".toList) ∧
    (readFBModes linuxFlags "nonstd 2147483647\n".toList).2 = none ∧
    (readFBModes linuxFlags "nonstd 2147483648\n".toList).2
      = some (Error.rangeErr "2147483648".toList) ∧
    (readFBModes linuxFlags "nonstd x10\ngeometry 640 b 640 480 8\n".toList).2 = none := by
  decide

/-! ## The original VT number -/

theorem requests_append (a b : List Event) : requests (a ++ b) = requests a ++ requests b := by
  induction a with
  | nil => rfl
  | cons e rest ih => cases e <;> simp [requests, ih]

theorem runSteps_origVTNo {W : Type} : ∀ (fs : List (Step W)),
    (∀ f ∈ fs, ∀ st, (f st).2.c.origVTNo = st.c.origVTNo) →
    ∀ st, (runSteps fs st).2.c.origVTNo = st.c.origVTNo
  | [], _, st => rfl
  | f :: fs, h, st => by
    have hf := h f (by simp) st
    have ih := runSteps_origVTNo fs (fun g hg => h g (List.mem_cons_of_mem _ hg))
    rcases hres : f st with ⟨err, st1⟩
    rw [hres] at hf
    cases err with
    | some e => simpa [runSteps, hres] using hf
    | none =>
      simp only [runSteps, hres]
      rw [ih st1]
      exact hf

theorem resolveDevice_origVTNo {W : Type} (K : Kernel W) (k : Consts) (st : St W) :
    (resolveDevice K k st).2.c.origVTNo = st.c.origVTNo := by
  unfold resolveDevice
  simp only []
  split_ifs
  · split
    · rfl
    · split_ifs
      · rfl
      · split
        · rfl
        · split_ifs <;> rfl
  · rfl

theorem openDevice_origVTNo {W : Type} (K : Kernel W) (st : St W) :
    (openDevice K st).2.c.origVTNo = st.c.origVTNo := by
  unfold openDevice
  simp only []
  split <;> rfl

theorem getFixInfo_origVTNo {W : Type} (K : Kernel W) (st : St W) :
    (getFixInfo K st).2.c.origVTNo = st.c.origVTNo := rfl

theorem getVarInfo_origVTNo {W : Type} (K : Kernel W) (st : St W) :
    (getVarInfo K st).2.c.origVTNo = st.c.origVTNo := rfl

theorem getPalette_origVTNo {W : Type} (K : Kernel W) (k : Consts) (st : St W) :
    (getPalette K k st).2.c.origVTNo = st.c.origVTNo := by
  unfold getPalette
  split_ifs <;> rfl

theorem getTerminal_origVTNo {W : Type} (K : Kernel W) (st : St W) :
    (getTerminal K st).2.c.origVTNo = st.c.origVTNo := by
  unfold getTerminal
  split
  · simp only []
    split_ifs <;> rfl
  · rfl

theorem setMode_origVTNo {W : Type} (K : Kernel W) (dm : Option DisplayMode) (st : St W) :
    (setMode K dm st).2.c.origVTNo = st.c.origVTNo := by
  rw [setMode_c]

theorem checkPacked_origVTNo {W : Type} (k : Consts) (st : St W) :
    (checkPacked k st).2.c.origVTNo = st.c.origVTNo := by
  unfold checkPacked
  split_ifs <;> rfl

theorem mapMemory_origVTNo {W : Type} (K : Kernel W) (st : St W) :
    (mapMemory K st).2.c.origVTNo = st.c.origVTNo := by
  unfold mapMemory
  simp only []
  split <;> rfl

theorem panToOrigin_origVTNo {W : Type} (K : Kernel W) (st : St W) :
    (panToOrigin K st).2.c.origVTNo = st.c.origVTNo := by
  unfold panToOrigin
  split_ifs <;> rfl

theorem activateCurrent_origVTNo {W : Type} (K : Kernel W) (t : File) (st : St W) :
    (activateCurrent K t st).2.c.origVTNo = st.c.origVTNo := by
  unfold activateCurrent
  simp only []
  split_ifs <;> rfl

theorem terminalGraphics_origVTNo {W : Type} (K : Kernel W) (k : Consts) (st : St W) :
    (terminalGraphics K k st).2.c.origVTNo = st.c.origVTNo := by
  unfold terminalGraphics
  split
  · simp only []
    split_ifs
    · rfl
    · rw [activateCurrent_origVTNo]
      rfl
  · rfl

theorem Clear_origVTNo {W : Type} (K : Kernel W) (st : St W) :
    (Clear K st).2.c.origVTNo = st.c.origVTNo := by
  unfold Clear
  split <;> rfl

theorem closeTty_origVTNo {W : Type} (K : Kernel W) (err : Option Error) (st : St W) :
    (closeTty K err st).2.c.origVTNo = st.c.origVTNo := by
  unfold closeTty
  split
  · simp only []
    split_ifs <;> rfl
  · rfl

theorem Close_origVTNo {W : Type} (K : Kernel W) (k : Consts) (st : St W) :
    (Close K k st).2.c.origVTNo = st.c.origVTNo := by
  unfold Close
  rw [closeTty_origVTNo, (closeFd_c K k (closeMem K st)).2.2.2, closeMem_c]

theorem Open_origVTNo {W : Type} (K : Kernel W) (k : Consts) (dm : Option DisplayMode)
    (tty : Option File) (w : W) : (Open K k dm tty w).2.c.origVTNo = 0 := by
  have hsteps : (runSteps (openSteps K k dm) (openInit k tty w)).2.c.origVTNo = 0 := by
    rw [runSteps_origVTNo]
    · rfl
    · intro f hf st
      simp only [openSteps, List.mem_cons, List.mem_singleton, List.not_mem_nil, or_false] at hf
      rcases hf with h | h | h | h | h | h | h | h | h | h | h | h | h | h | h <;> subst h
      · exact resolveDevice_origVTNo K k st
      · exact openDevice_origVTNo K st
      · exact getFixInfo_origVTNo K st
      · exact getVarInfo_origVTNo K st
      · exact getPalette_origVTNo K k st
      · exact getTerminal_origVTNo K st
      · exact setMode_origVTNo K dm st
      · exact getFixInfo_origVTNo K st
      · exact checkPacked_origVTNo k st
      · rfl
      · exact mapMemory_origVTNo K st
      · rfl
      · exact panToOrigin_origVTNo K st
      · exact terminalGraphics_origVTNo K k st
      · exact Clear_origVTNo K st
  unfold Open
  simp only []
  split
  · simp only []
    rw [Close_origVTNo]
    exact hsteps
  · exact hsteps

theorem runOp_origVTNo {W : Type} (K : Kernel W) (k : Consts) (sk : SwitchConsts) (op : Op)
    (st : St W) : (runOp K k sk op st).c.origVTNo = st.c.origVTNo := by
  cases op with
  | setMode dm => exact setMode_origVTNo K dm st
  | currentMode =>
    simp only [runOp, CurrentMode]
    split_ifs <;> rfl
  | palette =>
    simp only [runOp, Palette]
    split_ifs <;> rfl
  | setPalette pal =>
    have hstore : ∀ (ps : List Color) (i : Nat) (c : Canvas),
        (storePalette i ps c).origVTNo = c.origVTNo := by
      intro ps
      induction ps with
      | nil => intro i c; rfl
      | cons p rest ih =>
        intro i c
        simp only [storePalette]
        rw [ih]
    simp only [runOp, SetPalette]
    split_ifs <;> simp [hstore]
  | clear => exact Clear_origVTNo K st
  | close => exact Close_origVTNo K k st
  | switchAcquire =>
    simp only [runOp, switchAcquire]
    split <;> rfl
  | switchRelease =>
    simp only [runOp, switchRelease]
    split <;> rfl
  | switchInit =>
    simp only [runOp, switchInit]
    split <;> rfl
  | activateCurrent tty => exact activateCurrent_origVTNo K tty st
  | signal release => rfl

theorem runOps_origVTNo {W : Type} (K : Kernel W) (k : Consts) (sk : SwitchConsts) :
    ∀ (ops : List Op) (st : St W), (runOps K k sk ops st).c.origVTNo = st.c.origVTNo
  | [], _ => rfl
  | op :: rest, st => by
    simp only [runOps]
    rw [runOps_origVTNo K k sk rest, runOp_origVTNo]

/-- With `origVTNo` not positive, the control calls of `Close` are among: set variable
info, set colour map, set keyboard-display mode, set VT mode. -/
theorem closeCalls_requests {W : Type} (K : Kernel W) (k : Consts) (c : Canvas) (w : W)
    (h : c.origVTNo = 0) :
    ∀ r ∈ requests (closeCalls K k c w),
      r ∈ [Req.IOPUT_VSCREENINFO, Req.IOPUT_CMAP, Req.KDSETMODE, Req.VT_SETMODE] := by
  have hmem : requests (closeMem K { c := c, world := w, log := [] }).log = [] := by
    unfold closeMem
    split <;> simp [requests]
  have hfd : ∀ r ∈ requests (closeFd K k (closeMem K { c := c, world := w, log := [] })).2.log,
      r ∈ [Req.IOPUT_VSCREENINFO, Req.IOPUT_CMAP] := by
    unfold closeFd
    split
    · simp only []
      split_ifs <;> simp [requests_append, requests, hmem]
    · simp [hmem]
  have hno : (closeFd K k (closeMem K { c := c, world := w, log := [] })).2.c.origVTNo = 0 := by
    rw [(closeFd_c K k _).2.2.2, closeMem_c]
    exact h
  intro r hr
  unfold closeCalls Close closeTty at hr
  simp only [] at hr
  split at hr
  · split_ifs at hr with h1 h2 h3 h4
    · simp only [ioctl_log, requests_append, requests, List.mem_append, List.mem_singleton] at hr
      rcases hr with hr | hr
      · have := hfd r hr
        simp at this ⊢
        tauto
      · simp [hr]
    · simp only [ioctl_log, requests_append, requests, List.mem_append, List.mem_singleton] at hr
      rcases hr with (hr | hr) | hr
      · have := hfd r hr
        simp at this ⊢
        tauto
      · simp [hr]
      · simp [hr]
    · exact absurd h3 (by simp [hno])
    · exact absurd h3 (by simp [hno])
    · simp only [ioctl_log, requests_append, requests, List.mem_append, List.mem_singleton] at hr
      rcases hr with (hr | hr) | hr
      · have := hfd r hr
        simp at this ⊢
        tauto
      · simp [hr]
      · simp [hr]
  · have := hfd r hr
    simp at this ⊢
    tauto

/-- C12: for every operating system, mode, terminal handle and world, the canvas that
`Open` returns, whether `Open` succeeded or failed, has `origVTNo` zero; it still has
after any sequence of the operations of `canvas.go` on it, whatever the control calls
answered; and `Close` on that canvas, in any world, issues neither the VT-activate nor
the VT-wait-active control call. -/
theorem Close_never_activates {W : Type} (K : Kernel W) (k : Consts) (sk : SwitchConsts)
    (dm : Option DisplayMode) (tty : Option File) (w : W) (ops : List Op) (w1 : W) :
    (Open K k dm tty w).2.c.origVTNo = 0 ∧
    (runOps K k sk ops (Open K k dm tty w).2).c.origVTNo = 0 ∧
    Req.VT_ACTIVATE ∉
      requests (closeCalls K k (runOps K k sk ops (Open K k dm tty w).2).c w1) ∧
    Req.VT_WAITACTIVE ∉
      requests (closeCalls K k (runOps K k sk ops (Open K k dm tty w).2).c w1) := by
  have h0 := Open_origVTNo K k dm tty w
  have h1 : (runOps K k sk ops (Open K k dm tty w).2).c.origVTNo = 0 := by
    rw [runOps_origVTNo, h0]
  refine ⟨h0, h1, ?_, ?_⟩
  · intro hmem
    have := closeCalls_requests K k _ w1 h1 _ hmem
    simp at this
  · intro hmem
    have := closeCalls_requests K k _ w1 h1 _ hmem
    simp at this

end Framebuffer
